import Mathlib

/-!
AppMesh syncer: translation layer.

Shallow embedding of `pkg/translator/appmesh/appmesh_syncer.go`: the translator
(`virtualNodesFromUpstreams`, `virtualRoutersFromUpstreams`, `routesFromRules`), the
reconciler (`reconcileMesh`, `reconcileVirtualNode`, `reconcileVirtualNodes`, `resyncState`),
the session cache (`hashCredentials`, `NewOrCachedClient`) and the orchestrator (`sync`,
`Sync`); and of the mutation step of `updateMtls` in `cli/pkg/cmd/meshtoolbox/mtls/root.go`.

Conventions of the embedding

* A Go pointer field is an `Option`; a slice is a `List` (built by `append`, so `l ++ [x]`).
* A Go `error` is carried as its message; `errors.Wrapf err msg` is `wrapf err msg`.
* `uint32` ports and weights are `Nat`; `int64 (port)` is `Int.ofNat port`, which is exact
  on the whole `uint32` range.
* `gloov1.Upstream` is declared outside this file, and the translator touches it only through
  `utils.GetHostForUpstream`, `utils.GetPortForUpstream` and `UpstreamList.Find`; the type and
  these three functions are parameters (`Externals`), as are the `String ()` methods of the
  AWS request structs.
* A Go map is an association list with one entry per key; `range` over it visits the entries
  in an order chosen by a parameter `visit`, any permutation of the entries.
* Stateful code passes its state: a reconciler function takes the provider state and gives
  a `Run`, the outcome with the state after it and the remote calls it issued; the provider
  is a parameter (`Client`). A nil-pointer dereference is the outcome `panicked`.
* The mutex of the syncer is left out: calls are sequential.
-/

namespace AppMesh

/-! ## Errors -/

/-- Go `error`, carried as its message. -/
abbrev Error := String

/-- Model of `errors.Wrapf (err, msg)`: the message put in front of the cause. -/
def wrapf (err : Error) (msg : String) : Error := msg ++ ": " ++ err

/-! ## Intent model -/

/-- Fields of `core.Metadata` read by the translator. -/
structure Metadata where
  Name : String
  Namespace : String
  deriving DecidableEq, Repr

/-- Model of `core.ResourceRef`. -/
structure ResourceRef where
  Name : String
  Namespace : String
  deriving DecidableEq, Repr

/-- Model of `ResourceRef.Strings ()`: namespace first, then name. -/
def ResourceRef.Strings (ref : ResourceRef) : String × String := (ref.Namespace, ref.Name)

/-- Model of `v1.WeightedDestination`. -/
structure WeightedDestination where
  Upstream : ResourceRef
  Weight : Nat
  deriving DecidableEq, Repr

/-- Model of `v1.TrafficShifting`. -/
structure TrafficShifting where
  Destinations : List WeightedDestination
  deriving DecidableEq, Repr

/-- Variants of the `PathSpecifier` oneof of `gloov1.Matcher`. -/
inductive PathSpecifier where
  | Matcher_Prefix (Prefix : String)
  | Matcher_Exact (Exact : String)
  | Matcher_Regex (Regex : String)
  deriving DecidableEq, Repr

/-- Fields of `gloov1.Matcher` read by the translator. -/
structure Matcher where
  PathSpecifier : Option PathSpecifier
  deriving DecidableEq, Repr

/-- Fields of `v1.RoutingRule` read by the translator. -/
structure RoutingRule where
  Metadata : Metadata
  Destinations : List ResourceRef
  RequestMatchers : List Matcher
  TrafficShifting : Option TrafficShifting
  deriving DecidableEq, Repr

/-! ## Provider resource schema (the fields of the AWS structs that exist in the SDK) -/

/-- Model of `appmesh.PortMapping`. -/
structure PortMapping where
  Port : Option Int
  Protocol : Option String
  deriving DecidableEq, Repr

/-- Model of `appmesh.Listener`. -/
structure Listener where
  PortMapping : Option PortMapping
  deriving DecidableEq, Repr

/-- Model of `appmesh.DnsServiceDiscovery`. -/
structure DnsServiceDiscovery where
  ServiceName : Option String
  deriving DecidableEq, Repr

/-- Model of `appmesh.ServiceDiscovery`. -/
structure ServiceDiscovery where
  Dns : Option DnsServiceDiscovery
  deriving DecidableEq, Repr

/-- Model of `appmesh.VirtualNodeSpec`. -/
structure VirtualNodeSpec where
  Backends : List String
  Listeners : List Listener
  ServiceDiscovery : Option ServiceDiscovery
  deriving DecidableEq, Repr

/-- Model of `appmesh.CreateVirtualNodeInput`. -/
structure CreateVirtualNodeInput where
  ClientToken : Option String
  MeshName : Option String
  Spec : Option VirtualNodeSpec
  VirtualNodeName : Option String
  deriving DecidableEq, Repr

/-- Model of `appmesh.VirtualRouterSpec`. -/
structure VirtualRouterSpec where
  ServiceNames : List String
  deriving DecidableEq, Repr

/-- Model of `appmesh.CreateVirtualRouterInput`. -/
structure CreateVirtualRouterInput where
  ClientToken : Option String
  MeshName : Option String
  Spec : Option VirtualRouterSpec
  VirtualRouterName : Option String
  deriving DecidableEq, Repr

/-- Model of `appmesh.WeightedTarget`. -/
structure WeightedTarget where
  VirtualNode : Option String
  Weight : Option Int
  deriving DecidableEq, Repr

/-- Model of `appmesh.HttpRouteAction`. -/
structure HttpRouteAction where
  WeightedTargets : List WeightedTarget
  deriving DecidableEq, Repr

/-- Model of `appmesh.HttpRouteMatch`. -/
structure HttpRouteMatch where
  Prefix : Option String
  deriving DecidableEq, Repr

/-- Model of `appmesh.HttpRoute`. -/
structure HttpRoute where
  Action : Option HttpRouteAction
  Match : Option HttpRouteMatch
  deriving DecidableEq, Repr

/-- Model of `appmesh.RouteSpec`. -/
structure RouteSpec where
  HttpRoute : Option HttpRoute
  deriving DecidableEq, Repr

/-- Model of `appmesh.CreateRouteInput`. -/
structure CreateRouteInput where
  ClientToken : Option String
  MeshName : Option String
  RouteName : Option String
  Spec : Option RouteSpec
  VirtualRouterName : Option String
  deriving DecidableEq, Repr

/-! ## External functions -/

/-- What the translator calls outside this file, over an upstream type `U`:
host and port resolution (`pkg/translator/utils`), lookup of an upstream by namespace and
name (`UpstreamList.Find`), and the canonical string form of each request struct
(`String ()` of the AWS SDK). -/
structure Externals (U : Type) where
  GetHostForUpstream : U → Except Error String
  GetPortForUpstream : U → Except Error Nat
  Find : List U → String → String → Except Error U
  nodeString : CreateVirtualNodeInput → String
  routerString : CreateVirtualRouterInput → String
  routeString : CreateRouteInput → String

/-! ## String comparison and `sort.SliceStable` -/

/-- Lexicographic "less than" on character lists, by code point. -/
def lexLess : List Char → List Char → Bool
  | _, [] => false
  | [], _ :: _ => true
  | a :: as, b :: bs =>
    if a.toNat < b.toNat then true
    else if b.toNat < a.toNat then false
    else lexLess as bs

/-- Go's `<` on strings (byte order, which on UTF-8 text is code-point order). -/
def stringLess (a b : String) : Bool := lexLess a.data b.data

/-- Non-decreasing order of two strings: `b` is not less than `a`. -/
def stringLE (a b : String) : Prop := stringLess b a = false

/-- The order a comparison by string form sorts into: the form of `a` is not above that of
`b`. -/
def formLE {α : Type} (str : α → String) (a b : α) : Prop := stringLE (str a) (str b)

/-- Insertion of `a` in front of the first element that is not less than it. -/
def stableInsert {α : Type} (less : α → α → Bool) (a : α) : List α → List α
  | [] => [a]
  | b :: l => if less b a then b :: stableInsert less a l else a :: b :: l

/-- Model of `sort.SliceStable (slice, less)`: the stable sort of the slice. -/
def sortSliceStable {α : Type} (less : α → α → Bool) : List α → List α
  | [] => []
  | a :: l => stableInsert less a (sortSliceStable less l)

/-! ## Endpoints to virtual nodes -/

/-- Map update `portsByHost[host] = append (portsByHost[host], port)` on the association
list: the port joins the entry of `host`, or opens a new entry when the key is absent. -/
def appendPort (portsByHost : List (String × List Nat)) (host : String) (port : Nat) :
    List (String × List Nat) :=
  match portsByHost with
  | [] => [(host, [port])]
  | (h, ports) :: rest =>
    if h = host then (h, ports ++ [port]) :: rest
    else (h, ports) :: appendPort rest host port

/-- First loop of `virtualNodesFromUpstreams` (lines 300-311), from the given loop state:
resolve host and port of each upstream, record the port under its host and the host in
`allHosts`; the first resolution failure aborts. -/
def collectPortsByHost {U : Type} (ext : Externals U) :
    List U → List (String × List Nat) → List String →
      Except Error (List (String × List Nat) × List String)
  | [], portsByHost, allHosts => .ok (portsByHost, allHosts)
  | us :: rest, portsByHost, allHosts =>
    match ext.GetHostForUpstream us with
    | .error err => .error (wrapf err "getting host for upstream")
    | .ok host =>
      match ext.GetPortForUpstream us with
      | .error err => .error (wrapf err "getting port for upstream")
      | .ok port =>
        collectPortsByHost ext rest (appendPort portsByHost host port) (allHosts ++ [host])

/-- Inner loop of lines 315-325: one `http` listener per recorded port, in order. -/
def listenersFromPorts (ports : List Nat) : List Listener :=
  ports.map fun (port : Nat) =>
    { PortMapping := some { Protocol := some "http", Port := some (Int.ofNat port) } }

/-- Struct literal of lines 326-337: only `MeshName` and `Spec` are given a value. -/
def virtualNodeForHost (meshName : String) (allHosts : List String)
    (entry : String × List Nat) : CreateVirtualNodeInput :=
  { ClientToken := none
    MeshName := some meshName
    Spec := some
      { Backends := allHosts
        Listeners := listenersFromPorts entry.2
        ServiceDiscovery := some { Dns := some { ServiceName := some entry.1 } } }
    VirtualNodeName := none }

/-- Comparison passed to `sort.SliceStable` at lines 340-342. -/
def nodeLess {U : Type} (ext : Externals U) (a b : CreateVirtualNodeInput) : Bool :=
  stringLess (ext.nodeString a) (ext.nodeString b)

/-- Nodes appended by the second loop (lines 313-339), before sorting, when the map is
visited in the order `visit` picks. -/
def virtualNodesUnsorted (visit : List (String × List Nat) → List (String × List Nat))
    (meshName : String) (portsByHost : List (String × List Nat)) (allHosts : List String) :
    List CreateVirtualNodeInput :=
  (visit portsByHost).map (virtualNodeForHost meshName allHosts)

/-- Embedding of `virtualNodesFromUpstreams` (lines 296-344). -/
def virtualNodesFromUpstreams {U : Type} (ext : Externals U)
    (visit : List (String × List Nat) → List (String × List Nat))
    (meshName : String) (upstreams : List U) : Except Error (List CreateVirtualNodeInput) :=
  match collectPortsByHost ext upstreams [] [] with
  | .error err => .error err
  | .ok (portsByHost, allHosts) =>
    .ok (sortSliceStable (nodeLess ext) (virtualNodesUnsorted visit meshName portsByHost allHosts))

/-! ## Endpoints to virtual routers -/

/-- First loop of `virtualRoutersFromUpstreams` and of `routesFromRules`
(lines 348-354, 376-382): the host of every upstream, in order. -/
def collectAllHosts {U : Type} (ext : Externals U) : List U → List String →
    Except Error (List String)
  | [], allHosts => .ok allHosts
  | us :: rest, allHosts =>
    match ext.GetHostForUpstream us with
    | .error err => .error (wrapf err "getting host for upstream")
    | .ok host => collectAllHosts ext rest (allHosts ++ [host])

/-- Struct literal of lines 358-363: only `MeshName` and `Spec` are given a value. -/
def virtualRouterForHost (meshName : String) (host : String) : CreateVirtualRouterInput :=
  { ClientToken := none
    MeshName := some meshName
    Spec := some { ServiceNames := [host] }
    VirtualRouterName := none }

/-- Comparison passed to `sort.SliceStable` at lines 366-368. -/
def routerLess {U : Type} (ext : Externals U) (a b : CreateVirtualRouterInput) : Bool :=
  stringLess (ext.routerString a) (ext.routerString b)

/-- Embedding of `virtualRoutersFromUpstreams` (lines 346-370): the second loop ranges over
`allHosts`, the slice with one entry per upstream. -/
def virtualRoutersFromUpstreams {U : Type} (ext : Externals U)
    (meshName : String) (upstreams : List U) : Except Error (List CreateVirtualRouterInput) :=
  match collectAllHosts ext upstreams [] with
  | .error err => .error err
  | .ok allHosts =>
    .ok (sortSliceStable (routerLess ext) (allHosts.map (virtualRouterForHost meshName)))

/-! ## Routing rules to routes -/

/-- Loop of lines 395-414, from the given `destinationHosts`: resolve each destination
reference to a host and keep the first occurrence of each host. -/
def collectDestinationHosts {U : Type} (ext : Externals U) (upstreams : List U) :
    List ResourceRef → List String → Except Error (List String)
  | [], destinationHosts => .ok destinationHosts
  | usRef :: rest, destinationHosts =>
    match ext.Find upstreams usRef.Strings.1 usRef.Strings.2 with
    | .error err => .error (wrapf err "cannot find destination for routing rule")
    | .ok us =>
      match ext.GetHostForUpstream us with
      | .error err => .error (wrapf err "getting host for upstream")
      | .ok host =>
        collectDestinationHosts ext upstreams rest
          (if host ∈ destinationHosts then destinationHosts else destinationHosts ++ [host])

/-- Loop of lines 418-431, from the given `targets`: one weighted target per
traffic-shifting destination. -/
def collectTargets {U : Type} (ext : Externals U) (upstreams : List U) :
    List WeightedDestination → List WeightedTarget → Except Error (List WeightedTarget)
  | [], targets => .ok targets
  | dest :: rest, targets =>
    match ext.Find upstreams dest.Upstream.Strings.1 dest.Upstream.Strings.2 with
    | .error err => .error (wrapf err "cannot find destination for routing rule")
    | .ok us =>
      match ext.GetHostForUpstream us with
      | .error err => .error (wrapf err "getting host for destination upstream")
      | .ok destinationHost =>
        collectTargets ext upstreams rest
          (targets ++
            [{ VirtualNode := some destinationHost, Weight := some (Int.ofNat dest.Weight) }])

/-- Lines 433-442: the path of the first request matcher when it is a prefix specifier,
and the root path otherwise. -/
def pathPrefix (requestMatchers : List Matcher) : String :=
  match requestMatchers with
  | [] => "/"
  | m :: _ =>
    match m.PathSpecifier with
    | some (.Matcher_Prefix p) => p
    | _ => "/"

/-- Struct literal of lines 444-458. -/
def routeForHost (meshName : String) (rule : RoutingRule) (pfx : String)
    (targets : List WeightedTarget) (host : String) : CreateRouteInput :=
  { ClientToken := none
    MeshName := some meshName
    RouteName := some (host ++ "-" ++ rule.Metadata.Namespace ++ "-" ++ rule.Metadata.Name)
    VirtualRouterName := some host
    Spec := some
      { HttpRoute := some
          { Match := some { Prefix := some pfx }
            Action := some { WeightedTargets := targets } } } }

/-- Body of the loop over the rules (lines 387-460): the routes one rule appends. -/
def routesForRule {U : Type} (ext : Externals U) (meshName : String) (upstreams : List U)
    (rule : RoutingRule) : Except Error (List CreateRouteInput) :=
  match rule.TrafficShifting with
  | none => .ok []
  | some trafficShifting =>
    match collectDestinationHosts ext upstreams rule.Destinations [] with
    | .error err => .error err
    | .ok destinationHosts =>
      match collectTargets ext upstreams trafficShifting.Destinations [] with
      | .error err => .error err
      | .ok targets =>
        .ok (destinationHosts.map
          (routeForHost meshName rule (pathPrefix rule.RequestMatchers) targets))

/-- Loop over the rules (lines 386-461), from the given `routes`. -/
def collectRoutes {U : Type} (ext : Externals U) (meshName : String) (upstreams : List U) :
    List RoutingRule → List CreateRouteInput → Except Error (List CreateRouteInput)
  | [], routes => .ok routes
  | rule :: rest, routes =>
    match routesForRule ext meshName upstreams rule with
    | .error err => .error err
    | .ok added => collectRoutes ext meshName upstreams rest (routes ++ added)

/-- Comparison passed to `sort.SliceStable` at lines 463-465. -/
def routeLess {U : Type} (ext : Externals U) (a b : CreateRouteInput) : Bool :=
  stringLess (ext.routeString a) (ext.routeString b)

/-- Embedding of `routesFromRules` (lines 372-467). -/
def routesFromRules {U : Type} (ext : Externals U) (meshName : String) (upstreams : List U)
    (routingRules : List RoutingRule) : Except Error (List CreateRouteInput) :=
  match collectAllHosts ext upstreams [] with
  | .error err => .error err
  | .ok _ =>
    match collectRoutes ext meshName upstreams routingRules [] with
    | .error err => .error err
    | .ok routes => .ok (sortSliceStable (routeLess ext) routes)

/-! ## Sample instance, used to evaluate the translator on concrete inputs -/

/-- A sample upstream: metadata with an already resolved host and port. -/
structure SampleUpstream where
  Metadata : Metadata
  host : String
  port : Nat
  deriving DecidableEq, Repr

/-- Lookup by name, then namespace, in list order. -/
def sampleFind : List SampleUpstream → String → String → Except Error SampleUpstream
  | [], ns, name => .error ("list did not find upstream " ++ ns ++ "." ++ name)
  | us :: rest, ns, name =>
    if us.Metadata.Name = name ∧ us.Metadata.Namespace = ns then .ok us
    else sampleFind rest ns name

/-- Sample externals: every upstream resolves to its stored host and port; the string form of
a node is its DNS name, of a router its service names, of a route its name. -/
def sampleExt : Externals SampleUpstream where
  GetHostForUpstream us := .ok us.host
  GetPortForUpstream us := .ok us.port
  Find := sampleFind
  nodeString n :=
    match n.Spec with
    | some spec =>
      (match spec.ServiceDiscovery with
        | some (ServiceDiscovery.mk (some dns)) => dns.ServiceName.getD ""
        | _ => "")
    | none => ""
  routerString r :=
    match r.Spec with
    | some spec => String.join spec.ServiceNames
    | none => ""
  routeString r := r.RouteName.getD ""

/-- A sample upstream in namespace `default`. -/
def sampleUpstream (name host : String) (port : Nat) : SampleUpstream :=
  { Metadata := { Name := name, Namespace := "default" }
    host := host
    port := port }

/-- Reference to the sample upstream of that name. -/
def sampleRef (name : String) : ResourceRef :=
  { Name := name, Namespace := "default" }

/-- Host a reference resolves to among sample upstreams (empty when it is not found). -/
def sampleHostOf (upstreams : List SampleUpstream) (ref : ResourceRef) : String :=
  match sampleFind upstreams ref.Strings.1 ref.Strings.2 with
  | .ok us => us.host
  | .error _ => ""

/-- Sample upstreams: one for `svcB`, one for `svcC`. -/
def sampleUpstreams : List SampleUpstream :=
  [sampleUpstream "b" "svcB" 80, sampleUpstream "c" "svcC" 80]

/-- Sample rule `shift-canary` in namespace `prod`: destination `svcB`, named twice, matcher
of path `/api` followed by an exact matcher, traffic shifted 90 to `svcB` and 10 to `svcC`. -/
def sampleRule : RoutingRule :=
  { Metadata := { Name := "shift-canary", Namespace := "prod" }
    Destinations := [sampleRef "b", sampleRef "b"]
    RequestMatchers :=
      [{ PathSpecifier := some (.Matcher_Prefix "/api") },
        { PathSpecifier := some (.Matcher_Exact "/other") }]
    TrafficShifting := some
      { Destinations :=
          [{ Upstream := sampleRef "b", Weight := 90 },
            { Upstream := sampleRef "c", Weight := 10 }] } }

/-- Sample rule without a traffic-shifting directive, naming a destination that is not among
the sample upstreams. -/
def sampleRuleUnshifted : RoutingRule :=
  { Metadata := { Name := "retries", Namespace := "prod" }
    Destinations := [sampleRef "missing"]
    RequestMatchers := []
    TrafficShifting := none }

/-- Sample upstreams with `svcC` listed before `svcB`. -/
def sampleUpstreamsRev : List SampleUpstream :=
  [sampleUpstream "c" "svcC" 80, sampleUpstream "b" "svcB" 80]

/-- Sample rule `split` in namespace `prod`: destinations `svcC` then `svcB`, no matcher,
traffic shifted evenly. -/
def sampleRuleSplit : RoutingRule :=
  { Metadata := { Name := "split", Namespace := "prod" }
    Destinations := [sampleRef "c", sampleRef "b"]
    RequestMatchers := []
    TrafficShifting := some
      { Destinations :=
          [{ Upstream := sampleRef "b", Weight := 50 },
            { Upstream := sampleRef "c", Weight := 50 }] } }

/-! ## Readers used to state properties of the emitted structs -/

/-- DNS service-discovery name of a node, when every pointer on the way is set. -/
def CreateVirtualNodeInput.dnsName (n : CreateVirtualNodeInput) : Option String :=
  n.Spec.bind fun spec => spec.ServiceDiscovery.bind fun sd => sd.Dns.bind fun dns =>
    dns.ServiceName

/-- Listeners of a node (none when the spec is unset). -/
def CreateVirtualNodeInput.listeners (n : CreateVirtualNodeInput) : List Listener :=
  match n.Spec with
  | some spec => spec.Listeners
  | none => []

/-- Port of a listener, when set. -/
def Listener.port (l : Listener) : Option Int := l.PortMapping.bind fun pm => pm.Port

/-- Protocol of a listener, when set. -/
def Listener.protocol (l : Listener) : Option String :=
  l.PortMapping.bind fun pm => pm.Protocol

/-- Service names of a router (none when the spec is unset). -/
def CreateVirtualRouterInput.serviceNames (r : CreateVirtualRouterInput) : List String :=
  match r.Spec with
  | some spec => spec.ServiceNames
  | none => []

/-- Path of the matcher of a route, when every pointer on the way is set. -/
def CreateRouteInput.pathPrefix (r : CreateRouteInput) : Option String :=
  r.Spec.bind fun spec => spec.HttpRoute.bind fun http => http.Match.bind fun m => m.Prefix

/-- Weighted targets of a route, when every pointer on the way is set. -/
def CreateRouteInput.weightedTargets (r : CreateRouteInput) : Option (List WeightedTarget) :=
  r.Spec.bind fun spec => spec.HttpRoute.bind fun http => http.Action.map fun a =>
    a.WeightedTargets

/-- Ports recorded under `host` in the map (the zero value, an empty slice, when absent). -/
def portsAt (portsByHost : List (String × List Nat)) (host : String) : List Nat :=
  match portsByHost with
  | [] => []
  | (h, ports) :: rest => if h = host then ports else portsAt rest host

/-- The map after the first loop of `virtualNodesFromUpstreams` when every upstream
resolves, to `host us` and `port us`. -/
def portsByHostOf {U : Type} (host : U → String) (port : U → Nat) (upstreams : List U)
    (portsByHost : List (String × List Nat)) : List (String × List Nat) :=
  upstreams.foldl (fun m us => appendPort m (host us) (port us)) portsByHost

/-- Traffic-shifting destinations of a rule (none when the directive is unset). -/
def RoutingRule.shiftDestinations (rule : RoutingRule) : List WeightedDestination :=
  match rule.TrafficShifting with
  | some trafficShifting => trafficShifting.Destinations
  | none => []

/-- The reference resolves to `host`: `Find` returns an upstream, and the host of that
upstream resolves to `host`. -/
def resolvesTo {U : Type} (ext : Externals U) (upstreams : List U) (ref : ResourceRef)
    (host : String) : Bool :=
  match ext.Find upstreams ref.Strings.1 ref.Strings.2 with
  | .error _ => false
  | .ok us =>
    match ext.GetHostForUpstream us with
    | .error _ => false
    | .ok h => h == host

/-- Routes the loop body appends for a rule (none when the body fails). -/
def emittedForRule {U : Type} (ext : Externals U) (meshName : String) (upstreams : List U)
    (rule : RoutingRule) : List CreateRouteInput :=
  match routesForRule ext meshName upstreams rule with
  | .ok added => added
  | .error _ => []

/-- Hosts kept by the `alreadyAdded` scan: each host of `hosts` joins `added` unless it is
there already. -/
def addHosts (added : List String) (hosts : List String) : List String :=
  hosts.foldl (fun acc h => if h ∈ acc then acc else acc ++ [h]) added

/-- The weighted target built at lines 427-430 for a destination whose host is `host`. -/
def targetFor (host : String) (dest : WeightedDestination) : WeightedTarget :=
  { VirtualNode := some host, Weight := some (Int.ofNat dest.Weight) }

/-- The rule resolves: every destination reference and every traffic-shifting destination of
a rule with a traffic-shifting directive resolves, to the host `hostOf` gives. -/
def RuleResolves {U : Type} (ext : Externals U) (upstreams : List U)
    (hostOf : ResourceRef → String) (rule : RoutingRule) : Prop :=
  rule.TrafficShifting.isSome = true →
    (∀ ref ∈ rule.Destinations, resolvesTo ext upstreams ref (hostOf ref) = true) ∧
      ∀ d ∈ rule.shiftDestinations, resolvesTo ext upstreams d.Upstream (hostOf d.Upstream) = true

/-! ## By-name lookup of the node reconciler -/

/-- Fields of `appmesh.VirtualNodeRef`. -/
structure VirtualNodeRef where
  Arn : Option String
  MeshName : Option String
  VirtualNodeName : Option String
  deriving DecidableEq, Repr

/-- Model of `aws.StringValue`: the string pointed to, empty for a nil pointer. -/
def StringValue (s : Option String) : String := s.getD ""

/-- Condition of line 266 in `reconcileVirtualNode`,
`aws.StringValue (node.VirtualNodeName) == *desiredVNode.VirtualNodeName`: the desired name is
dereferenced, so the comparison has no value (`none`, a nil-pointer panic in Go) when the
desired node carries no name. -/
def nameMatches (node : VirtualNodeRef) (desiredVNode : CreateVirtualNodeInput) :
    Option Bool :=
  match desiredVNode.VirtualNodeName with
  | none => none
  | some name => some (StringValue node.VirtualNodeName == name)

/-- Backend list of a node (none when the spec is unset). -/
def CreateVirtualNodeInput.backends (n : CreateVirtualNodeInput) : List String :=
  match n.Spec with
  | some spec => spec.Backends
  | none => []

/-! ## Reconciler -/

/-- A Go `error` of the reconciler and orchestrator: `code` is set when the value is an
`awserr.Error` (its `Code ()`), and `text` is what `Error ()` gives. -/
structure GoError where
  code : Option String
  text : String
  deriving DecidableEq, Repr

/-- Model of `errors.Errorf`: a new error that is no `awserr.Error`. -/
def Errorf (msg : String) : GoError := { code := none, text := msg }

/-- Model of `errors.Wrapf (err, msg)` on a possibly nil `err`: nil stays nil, and a wrapped
error is no `awserr.Error` any more. -/
def Wrapf (err : Option GoError) (msg : String) : Option GoError :=
  match err with
  | none => none
  | some e => some { code := none, text := wrapf e.text msg }

/-- Value of the constant `appmesh.ErrCodeNotFoundException` of the AWS SDK. -/
def ErrCodeNotFoundException : String := "NotFoundException"

/-- How a call ends: it returns an `error` (`none` for nil), or it panics. -/
inductive Outcome where
  | returned (err : Option GoError)
  | panicked
  deriving DecidableEq, Repr

/-- Model of `appmesh.CreateMeshInput`. -/
structure CreateMeshInput where
  ClientToken : Option String
  MeshName : Option String
  deriving DecidableEq, Repr

/-- Fields of `appmesh.VirtualNodeData` read by the reconciler. -/
structure VirtualNodeData where
  MeshName : Option String
  Spec : Option VirtualNodeSpec
  VirtualNodeName : Option String
  deriving DecidableEq, Repr

/-- Model of `appmesh.DescribeVirtualNodeOutput`. -/
structure DescribeVirtualNodeOutput where
  VirtualNode : Option VirtualNodeData
  deriving DecidableEq, Repr

/-- Fields of `appmesh.ListVirtualNodesOutput` read by the reconciler. -/
structure ListVirtualNodesOutput where
  VirtualNodes : List VirtualNodeRef
  deriving DecidableEq, Repr

/-- A remote call with its request, as kept in the record of a run. -/
inductive Call where
  | DescribeMesh (MeshName : Option String)
  | CreateMesh (input : CreateMeshInput)
  | ListVirtualNodes (MeshName : Option String)
  | DescribeVirtualNode (MeshName VirtualNodeName : Option String)
  | UpdateVirtualNode (MeshName VirtualNodeName : Option String)
      (Spec : Option VirtualNodeSpec)
  | CreateVirtualNode (input : CreateVirtualNodeInput)
  deriving DecidableEq, Repr

/-- The provider behind a client handle, over a provider state `σ`: each operation of the
control API used by the reconciler answers from the state and gives the state after it. -/
structure Client (σ : Type) where
  DescribeMesh : σ → Option String → Except GoError Unit × σ
  CreateMesh : σ → CreateMeshInput → Except GoError Unit × σ
  ListVirtualNodes : σ → Option String → Except GoError ListVirtualNodesOutput × σ
  DescribeVirtualNode :
    σ → Option String → Option String → Except GoError DescribeVirtualNodeOutput × σ
  UpdateVirtualNode :
    σ → Option String → Option String → Option VirtualNodeSpec → Except GoError Unit × σ
  CreateVirtualNode : σ → CreateVirtualNodeInput → Except GoError Unit × σ

/-- Result of running a reconciler function: how it ended, the provider state after it, and
the remote calls it issued, in order. -/
structure Run (σ : Type) where
  outcome : Outcome
  state : σ
  calls : List Call

/-- Embedding of `reconcileMesh` (lines 216-232). The message of the last `Wrapf`
dereferences `mesh.MeshName`. -/
def reconcileMesh {σ : Type} (client : Client σ) (s : σ) (mesh : CreateMeshInput) : Run σ :=
  let described := client.DescribeMesh s mesh.MeshName
  match described.1 with
  | .ok _ => ⟨.returned none, described.2, [.DescribeMesh mesh.MeshName]⟩
  | .error err =>
    if err.code = some ErrCodeNotFoundException then
      let created := client.CreateMesh described.2 mesh
      match created.1 with
      | .ok _ =>
        ⟨.returned none, created.2, [.DescribeMesh mesh.MeshName, .CreateMesh mesh]⟩
      | .error err' =>
        ⟨.returned (some err'), created.2, [.DescribeMesh mesh.MeshName, .CreateMesh mesh]⟩
    else
      match mesh.MeshName with
      | none => ⟨.panicked, described.2, [.DescribeMesh mesh.MeshName]⟩
      | some name =>
        ⟨.returned (Wrapf (some err) ("failed to check existence of mesh " ++ name)),
          described.2, [.DescribeMesh mesh.MeshName]⟩

/-- Comparison of line 276, `originalVNode.VirtualNode.Spec.String () ==
desiredVNode.Spec.String ()`, by the string form `specString` of a spec; it has no value
(a nil-pointer panic in Go) when one of the pointers on the way is nil. -/
def specsMatch (specString : VirtualNodeSpec → String)
    (originalVNode : DescribeVirtualNodeOutput) (desiredVNode : CreateVirtualNodeInput) :
    Option Bool :=
  match originalVNode.VirtualNode with
  | none => none
  | some data =>
    match data.Spec, desiredVNode.Spec with
    | some original, some desired => some (decide (specString original = specString desired))
    | _, _ => none

/-- Body of `reconcileVirtualNode` from a position of the loop over the existing nodes
(lines 265-293): a node of the desired name is described and, when the specs differ,
updated; after a successful update the loop goes on, and after the loop the node is
created. -/
def reconcileVirtualNodeFrom {σ : Type} (specString : VirtualNodeSpec → String)
    (client : Client σ) (desiredVNode : CreateVirtualNodeInput) :
    List VirtualNodeRef → σ → Run σ
  | [], s =>
    let created := client.CreateVirtualNode s desiredVNode
    match created.1 with
    | .error err =>
      ⟨.returned (Wrapf (some err) "creating virtual node"), created.2,
        [.CreateVirtualNode desiredVNode]⟩
    | .ok _ => ⟨.returned none, created.2, [.CreateVirtualNode desiredVNode]⟩
  | node :: rest, s =>
    match nameMatches node desiredVNode with
    | none => ⟨.panicked, s, []⟩
    | some false => reconcileVirtualNodeFrom specString client desiredVNode rest s
    | some true =>
      let described :=
        client.DescribeVirtualNode s desiredVNode.MeshName desiredVNode.VirtualNodeName
      let describe := Call.DescribeVirtualNode desiredVNode.MeshName desiredVNode.VirtualNodeName
      match described.1 with
      | .error err =>
        ⟨.returned (Wrapf (some err) "retrieving original node for update"), described.2,
          [describe]⟩
      | .ok originalVNode =>
        match specsMatch specString originalVNode desiredVNode with
        | none => ⟨.panicked, described.2, [describe]⟩
        | some true => ⟨.returned none, described.2, [describe]⟩
        | some false =>
          let updated := client.UpdateVirtualNode described.2 desiredVNode.MeshName
            desiredVNode.VirtualNodeName desiredVNode.Spec
          let update := Call.UpdateVirtualNode desiredVNode.MeshName
            desiredVNode.VirtualNodeName desiredVNode.Spec
          match updated.1 with
          | .error err =>
            ⟨.returned (Wrapf (some err) "updating virtual node"), updated.2,
              [describe, update]⟩
          | .ok _ =>
            let later := reconcileVirtualNodeFrom specString client desiredVNode rest updated.2
            ⟨later.outcome, later.state, describe :: update :: later.calls⟩

/-- Embedding of `reconcileVirtualNode` (lines 264-294). -/
def reconcileVirtualNode {σ : Type} (specString : VirtualNodeSpec → String)
    (client : Client σ) (s : σ) (desiredVNode : CreateVirtualNodeInput)
    (existingVirtualNodes : List VirtualNodeRef) : Run σ :=
  reconcileVirtualNodeFrom specString client desiredVNode existingVirtualNodes s

/-- Loop of lines 241-245 in `reconcileVirtualNodes`: each desired node is reconciled
against the nodes listed before the loop; the first failure is wrapped with the name of the
node (a dereference) and ends the loop. -/
def reconcileEach {σ : Type} (specString : VirtualNodeSpec → String) (client : Client σ)
    (existingVirtualNodes : List VirtualNodeRef) :
    List CreateVirtualNodeInput → σ → Run σ
  | [], s => ⟨.returned none, s, []⟩
  | desiredVNode :: rest, s =>
    let r := reconcileVirtualNode specString client s desiredVNode existingVirtualNodes
    match r.outcome with
    | .panicked => r
    | .returned (some err) =>
      match desiredVNode.VirtualNodeName with
      | none => ⟨.panicked, r.state, r.calls⟩
      | some name =>
        ⟨.returned (Wrapf (some err) ("reconciling virtual node " ++ name)), r.state, r.calls⟩
    | .returned none =>
      let later := reconcileEach specString client existingVirtualNodes rest r.state
      ⟨later.outcome, later.state, r.calls ++ later.calls⟩

/-- Embedding of `reconcileVirtualNodes` (lines 234-262). The loops under `delete unused`
have empty bodies, the test of lines 253-260 is on an `err` that is nil there, and the
function ends without a `return`; the end is taken as returning nil. -/
def reconcileVirtualNodes {σ : Type} (specString : VirtualNodeSpec → String)
    (client : Client σ) (s : σ) (mesh : CreateMeshInput)
    (vNodes : List CreateVirtualNodeInput) : Run σ :=
  let listed := client.ListVirtualNodes s mesh.MeshName
  match listed.1 with
  | .error err =>
    match mesh.MeshName with
    | none => ⟨.panicked, listed.2, [.ListVirtualNodes mesh.MeshName]⟩
    | some name =>
      ⟨.returned (Wrapf (some err) ("failed to list existing virtual nodes for mesh " ++ name)),
        listed.2, [.ListVirtualNodes mesh.MeshName]⟩
  | .ok existingVirtualNodes =>
    let r := reconcileEach specString client existingVirtualNodes.VirtualNodes vNodes listed.2
    ⟨r.outcome, r.state, Call.ListVirtualNodes mesh.MeshName :: r.calls⟩

/-- Embedding of `resyncState` (lines 204-214): the mesh is reconciled; the node, router
and route arguments are not read. -/
def resyncState {σ : Type} (client : Client σ) (s : σ) (mesh : CreateMeshInput)
    (_vNodes : List CreateVirtualNodeInput) (_vRouters : List CreateVirtualRouterInput)
    (_routes : List CreateRouteInput) : Run σ :=
  let r := reconcileMesh client s mesh
  match r.outcome with
  | .returned (some err) => ⟨.returned (Wrapf (some err) "reconciling mesh"), r.state, r.calls⟩
  | _ => r

/-! ## A provider state in which create adds and update replaces -/

/-- Key of a virtual node at the provider: mesh name and node name, as sent. -/
abbrev NodeKey := Option String × Option String

/-- State of the provider: the meshes that exist, by name, and the spec of each virtual
node, by key. -/
structure Remote where
  meshes : List (Option String)
  nodes : List (NodeKey × Option VirtualNodeSpec)
  deriving DecidableEq, Repr

/-- Spec stored under a key (`none` when the provider has no such node). -/
def nodeSpecAt (nodes : List (NodeKey × Option VirtualNodeSpec)) (key : NodeKey) :
    Option (Option VirtualNodeSpec) :=
  match nodes with
  | [] => none
  | (k, spec) :: rest => if k = key then some spec else nodeSpecAt rest key

/-- Store a spec under a key: the spec of an existing node is replaced, a new node is
added. -/
def setNodeSpec (nodes : List (NodeKey × Option VirtualNodeSpec)) (key : NodeKey)
    (spec : Option VirtualNodeSpec) : List (NodeKey × Option VirtualNodeSpec) :=
  match nodes with
  | [] => [(key, spec)]
  | (k, old) :: rest =>
    if k = key then (k, spec) :: rest else (k, old) :: setNodeSpec rest key spec

/-- The provider's not-found error. -/
def notFound (what : String) : GoError :=
  { code := some ErrCodeNotFoundException, text := ErrCodeNotFoundException ++ ": " ++ what }

/-- References the provider lists for a mesh: one per stored node of that mesh. -/
def listedRefs (nodes : List (NodeKey × Option VirtualNodeSpec)) (meshName : Option String) :
    List VirtualNodeRef :=
  (nodes.filter fun e => e.1.1 = meshName).map fun e =>
    { Arn := none, MeshName := e.1.1, VirtualNodeName := e.1.2 }

/-- The provider over `Remote`: describe answers not-found for what does not exist, create
adds the named resource with the given spec, update replaces the spec of the named
resource, list gives the nodes of the mesh. -/
def remoteClient : Client Remote where
  DescribeMesh s meshName :=
    if meshName ∈ s.meshes then (.ok (), s) else (.error (notFound "mesh"), s)
  CreateMesh s input := (.ok (), { s with meshes := s.meshes ++ [input.MeshName] })
  ListVirtualNodes s meshName := (.ok { VirtualNodes := listedRefs s.nodes meshName }, s)
  DescribeVirtualNode s meshName name :=
    match nodeSpecAt s.nodes (meshName, name) with
    | some spec =>
      (.ok { VirtualNode := some { MeshName := meshName, Spec := spec, VirtualNodeName := name } },
        s)
    | none => (.error (notFound "virtual node"), s)
  UpdateVirtualNode s meshName name spec :=
    match nodeSpecAt s.nodes (meshName, name) with
    | some _ => (.ok (), { s with nodes := setNodeSpec s.nodes (meshName, name) spec })
    | none => (.error (notFound "virtual node"), s)
  CreateVirtualNode s input :=
    (.ok (),
      { s with
        nodes := (setNodeSpec s.nodes (input.MeshName, input.VirtualNodeName) input.Spec) })

/-- A provider whose describe-mesh is denied, with an error that is not the not-found
code. -/
def deniedClient : Client Remote :=
  { remoteClient with
    DescribeMesh := fun s _ => (.error { code := some "ForbiddenException", text := "denied" }, s) }

/-- Sample string form of a spec: its DNS name, then its backends. -/
def sampleSpecString (spec : VirtualNodeSpec) : String :=
  (match spec.ServiceDiscovery with
    | some (ServiceDiscovery.mk (some dns)) => dns.ServiceName.getD ""
    | _ => "") ++ ":" ++ String.intercalate "," spec.Backends

/-- Sample desired mesh. -/
def sampleMesh : CreateMeshInput := { ClientToken := none, MeshName := some "m" }

/-- Sample desired node of a host: the translated node of the host, given the host as its
name. -/
def sampleNode (host : String) (allHosts : List String) : CreateVirtualNodeInput :=
  { virtualNodeForHost "m" allHosts (host, [80]) with VirtualNodeName := some host }

/-- Sample provider state: mesh `m` with a node `svcA` whose only backend is `svcA`. -/
def sampleRemote : Remote :=
  { meshes := [some "m"]
    nodes := [((some "m", some "svcA"), (sampleNode "svcA" ["svcA"]).Spec)] }

/-! ## The reconcile pass -/

/-- One reconcile pass over the mesh and the desired nodes: `reconcileMesh`, then, when it
returned nil, `reconcileVirtualNodes`. -/
def reconcilePass {σ : Type} (specString : VirtualNodeSpec → String) (client : Client σ)
    (s : σ) (mesh : CreateMeshInput) (vNodes : List CreateVirtualNodeInput) : Run σ :=
  let r := reconcileMesh client s mesh
  match r.outcome with
  | .returned none =>
    let later := reconcileVirtualNodes specString client r.state mesh vNodes
    ⟨later.outcome, later.state, r.calls ++ later.calls⟩
  | _ => r

/-- A call that creates or updates a resource. -/
def Call.isCreateOrUpdate : Call → Bool
  | .CreateMesh _ => true
  | .UpdateVirtualNode _ _ _ => true
  | .CreateVirtualNode _ => true
  | _ => false

/-- Key under which the provider keeps a desired node. -/
def nodeKey (d : CreateVirtualNodeInput) : NodeKey := (d.MeshName, d.VirtualNodeName)

/-- The provider holds the desired node, with a spec of the same string form as the
desired one. -/
def Settled (specString : VirtualNodeSpec → String) (s : Remote)
    (d : CreateVirtualNodeInput) : Prop :=
  ∃ spec, nodeSpecAt s.nodes (nodeKey d) = some spec ∧
    specsMatch specString
      { VirtualNode := some
          { MeshName := d.MeshName, Spec := spec, VirtualNodeName := d.VirtualNodeName } } d =
      some true

/-! ## Session cache -/

/-- Constant `awsAccessKey` of the source. -/
def awsAccessKey : String := "access_key"

/-- Constant `awsSecretKey` of the source. -/
def awsSecretKey : String := "secret_key"

/-- Fields of `gloov1.AwsSecret`. -/
structure AwsSecret where
  AccessKey : String
  SecretKey : String
  deriving DecidableEq, Repr

/-- Variants of the `Kind` oneof of `gloov1.Secret`; only the payload of the AWS variant
is read. -/
inductive SecretKind where
  | Secret_Aws (Aws : Option AwsSecret)
  | Secret_Azure
  | Secret_Tls
  deriving DecidableEq, Repr

/-- Fields of `gloov1.Secret` read by the syncer. -/
structure Secret where
  Metadata : Metadata
  Kind : Option SecretKind
  deriving DecidableEq, Repr

/-- Fields of `v1.AppMesh`, the provider settings of a mesh. -/
structure AppMeshConfig where
  AwsRegion : String
  AwsCredentials : Option ResourceRef
  deriving DecidableEq, Repr

/-- A client handle (`AppMeshClient`, a pointer to `appmesh.AppMesh`): `id` is the identity
of the handle, the number of handles constructed before it; the other fields are what it
was constructed from. -/
structure AppMeshClient where
  id : Nat
  accessKey : String
  secretKey : String
  region : String
  deriving DecidableEq, Repr

/-- What `hashstructure.Hash` reads of a struct value: the name of the struct type and the
exported fields, by name and value. The library skips the unexported fields of a struct. -/
structure HashedStruct where
  typeName : String
  exported : List (String × String)
  deriving DecidableEq, Repr

/-- Library functions called by the session cache and the orchestrator: `utf8.Valid`,
the error of `session.NewSession` for static credentials (`none` for nil),
`hashstructure.Hash`, `SecretList.Find`, and the two renderings of a resource reference
(`String ()` and the `%v` verb). -/
structure Library where
  Valid : String → Bool
  NewSession : String → String → Option GoError
  Hash : HashedStruct → Nat
  FindSecret : List Secret → String → String → Except GoError Secret
  refString : ResourceRef → String
  refFormat : ResourceRef → String

/-- The state of `AppMeshSyncer`: the map `activeSessions`, as an association list with one
entry per key. The mutex is not part of the sequential embedding. -/
structure AppMeshSyncer where
  activeSessions : List (Nat × AppMeshClient)
  deriving DecidableEq, Repr

/-- Map read `s.activeSessions[sessionKey]`. -/
def sessionAt (sessions : List (Nat × AppMeshClient)) (sessionKey : Nat) :
    Option AppMeshClient :=
  match sessions with
  | [] => none
  | (k, client) :: rest => if k = sessionKey then some client else sessionAt rest sessionKey

/-- Map write `s.activeSessions[sessionKey] = appMeshClient`. -/
def setSession (sessions : List (Nat × AppMeshClient)) (sessionKey : Nat)
    (appMeshClient : AppMeshClient) : List (Nat × AppMeshClient) :=
  match sessions with
  | [] => [(sessionKey, appMeshClient)]
  | (k, client) :: rest =>
    if k = sessionKey then (k, appMeshClient) :: rest
    else (k, client) :: setSession rest sessionKey appMeshClient

/-- Embedding of `NewMeshRoutingSyncer` (lines 65-70). -/
def NewMeshRoutingSyncer : AppMeshSyncer := { activeSessions := [] }

/-- Embedding of `NewAwsClientFromSecret` (lines 38-55), on the `Aws` field of the secret,
which the caller has checked to be set; `constructed` is the number of handles constructed
so far and becomes the identity of the new handle. -/
def NewAwsClientFromSecret (lib : Library) (constructed : Nat) (awsSecret : AwsSecret)
    (region : String) : Except GoError AppMeshClient :=
  let accessKey := awsSecret.AccessKey
  if accessKey ≠ "" ∧ lib.Valid accessKey = false then
    .error (Errorf (awsAccessKey ++ " not a valid string"))
  else
    let secretKey := awsSecret.SecretKey
    if secretKey ≠ "" ∧ lib.Valid secretKey = false then
      .error (Errorf (awsSecretKey ++ " not a valid string"))
    else
      match lib.NewSession accessKey secretKey with
      | some err => .error { code := none, text := wrapf err.text "unable to create AWS session" }
      | none =>
        .ok { id := constructed, accessKey := accessKey, secretKey := secretKey, region := region }

/-- Embedding of `hashCredentials` (lines 72-81). The value handed to `hashstructure.Hash`
is an anonymous struct whose two fields, `awsSecret` and `region`, are unexported, so the
library reads a struct with no name and no field; the error of `Hash` is dropped. -/
def hashCredentials (lib : Library) (_awsSecret : AwsSecret) (_region : String) : Nat :=
  lib.Hash { typeName := "", exported := [] }

/-- What the session cache does, as kept in the record of a run. -/
inductive SessionEvent where
  | lookup (sessionKey : Nat)
  | construct (client : AppMeshClient)
  deriving DecidableEq, Repr

/-- How `NewOrCachedClient` ends: with the returned pair, or with a panic. -/
inductive ClientOutcome where
  | returned (client : Option AppMeshClient) (err : Option GoError)
  | panicked
  deriving DecidableEq, Repr

/-- Result of `NewOrCachedClient`: how it ended, the syncer and the number of handles
constructed after it, and the cache lookups and constructions it did. -/
structure ClientRun where
  outcome : ClientOutcome
  syncer : AppMeshSyncer
  constructed : Nat
  events : List SessionEvent
  deriving DecidableEq, Repr

/-- Embedding of `NewOrCachedClient` (lines 83-120). At line 90 the wrapped `err` is the
nil error of the successful `Find`. -/
def NewOrCachedClient (lib : Library) (s : AppMeshSyncer) (constructed : Nat)
    (appMesh : AppMeshConfig) (secrets : List Secret) : ClientRun :=
  match appMesh.AwsCredentials with
  | none => ⟨.panicked, s, constructed, []⟩
  | some ref =>
    match lib.FindSecret secrets ref.Strings.1 ref.Strings.2 with
    | .error err =>
      ⟨.returned none (Wrapf (some err) "finding aws credentials for mesh"), s, constructed, []⟩
    | .ok secret =>
      let region := appMesh.AwsRegion
      if region = "" then
        ⟨.returned none (Wrapf none "mesh must provide aws_region"), s, constructed, []⟩
      else
        match secret.Kind with
        | some (.Secret_Aws aws) =>
          match aws with
          | none => ⟨.returned none (some (Errorf "secret missing field Aws")), s, constructed, []⟩
          | some awsSecret =>
            let sessionKey := hashCredentials lib awsSecret region
            match sessionAt s.activeSessions sessionKey with
            | some appMeshClient =>
              ⟨.returned (some appMeshClient) none, s, constructed, [.lookup sessionKey]⟩
            | none =>
              match NewAwsClientFromSecret lib constructed awsSecret region with
              | .error err =>
                ⟨.returned none
                    (Wrapf (some err) "creating aws client from provided secret/region"),
                  s, constructed, [.lookup sessionKey]⟩
              | .ok appMeshClient =>
                ⟨.returned (some appMeshClient) none,
                  { activeSessions := setSession s.activeSessions sessionKey appMeshClient },
                  constructed + 1, [.lookup sessionKey, .construct appMeshClient]⟩
        | _ =>
          ⟨.returned none (some (Errorf "mesh referenced non-AWS secret, AWS secret required")),
            s, constructed, []⟩

/-! ## Sample session inputs -/

/-- Lookup of a secret by name and namespace, in list order. -/
def sampleFindSecret : List Secret → String → String → Except GoError Secret
  | [], ns, name => .error (Errorf ("list did not find secret " ++ ns ++ "." ++ name))
  | secret :: rest, ns, name =>
    if secret.Metadata.Name = name ∧ secret.Metadata.Namespace = ns then .ok secret
    else sampleFindSecret rest ns name

/-- Sample library: every string is valid text, sessions are always created, the hash adds
the lengths of what it reads, references are rendered as `namespace.name`. -/
def sampleLib : Library where
  Valid _ := true
  NewSession _ _ := none
  Hash h := h.typeName.length + (h.exported.map fun e => e.1.length + e.2.length).sum
  FindSecret := sampleFindSecret
  refString ref := ref.Namespace ++ "." ++ ref.Name
  refFormat ref := ref.Namespace ++ "." ++ ref.Name

/-- Sample AWS secret of a name, with the given keys. -/
def sampleSecret (name accessKey secretKey : String) : Secret :=
  { Metadata := { Name := name, Namespace := "default" }
    Kind := some (.Secret_Aws (some { AccessKey := accessKey, SecretKey := secretKey })) }

/-- Sample secrets: two different AWS credentials. -/
def sampleSecrets : List Secret :=
  [sampleSecret "creds-a" "KEY-A" "SECRET-A", sampleSecret "creds-b" "KEY-B" "SECRET-B"]

/-- Sample provider settings: a region and the secret of a name. -/
def sampleAppMesh (region secretName : String) : AppMeshConfig :=
  { AwsRegion := region, AwsCredentials := some (sampleRef secretName) }

/-- The first handle constructed for `KEY-A` in `us-east-1`. -/
def sampleHandle : AppMeshClient :=
  { id := 0, accessKey := "KEY-A", secretKey := "SECRET-A", region := "us-east-1" }

/-! ## Orchestrator -/

/-- Variants of the `MeshType` oneof of `v1.Mesh`; only the payload of the AppMesh variant
is read. -/
inductive MeshType where
  | Mesh_Istio
  | Mesh_Linkerd2
  | Mesh_AppMesh (AppMesh : Option AppMeshConfig)
  deriving DecidableEq, Repr

/-- Fields of `v1.Mesh` read by the syncer. -/
structure Mesh where
  Metadata : Metadata
  MeshType : Option MeshType
  deriving DecidableEq, Repr

/-- Model of `Metadata.Ref ()`. -/
def Metadata.Ref (m : Metadata) : ResourceRef := { Name := m.Name, Namespace := m.Namespace }

/-- What the syncer reads of `v1.TranslatorSnapshot`: the four lists. -/
structure TranslatorSnapshot (U : Type) where
  Meshes : List Mesh
  Upstreams : List U
  Routingrules : List RoutingRule
  Secrets : List Secret

/-- What a sync does outside the process, as kept in the record of a run: a step of the
session cache, or a remote call through a client handle. -/
inductive Event where
  | session (e : SessionEvent)
  | remote (client : AppMeshClient) (call : Call)
  deriving DecidableEq, Repr

/-- State a sync runs in: the syncer, the number of client handles constructed so far, and
the provider state. -/
structure Process (σ : Type) where
  syncer : AppMeshSyncer
  constructed : Nat
  provider : σ

/-- Result of a sync: how it ended, the state after it, and what it did, in order. -/
structure SyncRun (σ : Type) where
  outcome : Outcome
  state : Process σ
  events : List Event

/-- Embedding of `AppMeshSyncer.sync` (lines 165-202) for one mesh; `remote` gives the
provider behind a handle. The mesh name is what `fmt.Sprintf` gives for two `%v` verbs and
one operand, and a nil handle panics at its first remote call. -/
def sync {U σ : Type} (lib : Library) (ext : Externals U)
    (visit : List (String × List Nat) → List (String × List Nat))
    (remote : AppMeshClient → Client σ) (st : Process σ) (mesh : Mesh)
    (snap : TranslatorSnapshot U) : SyncRun σ :=
  match mesh.MeshType with
  | some (.Mesh_AppMesh config) =>
    match config with
    | none =>
      ⟨.returned (some (Errorf
        (lib.refFormat mesh.Metadata.Ref ++ " missing configuration for AppMesh"))), st, []⟩
    | some appMesh =>
      let meshName := lib.refString mesh.Metadata.Ref ++ ".%!v(MISSING)"
      let desiredMesh : CreateMeshInput := { ClientToken := none, MeshName := some meshName }
      let upstreams := snap.Upstreams
      match virtualNodesFromUpstreams ext visit meshName upstreams with
      | .error err =>
        ⟨.returned (Wrapf (some (Errorf err)) "creating virtual nodes from upstreams"), st, []⟩
      | .ok virtualNodes =>
        match virtualRoutersFromUpstreams ext meshName upstreams with
        | .error err =>
          ⟨.returned (Wrapf (some (Errorf err)) "creating virtual routers from upstreams"),
            st, []⟩
        | .ok virtualRouters =>
          match routesFromRules ext meshName upstreams snap.Routingrules with
          | .error err =>
            ⟨.returned (Wrapf (some (Errorf err)) "creating virtual routers from upstreams"),
              st, []⟩
          | .ok routes =>
            let got := NewOrCachedClient lib st.syncer st.constructed appMesh snap.Secrets
            let events := got.events.map Event.session
            match got.outcome with
            | .panicked => ⟨.panicked, ⟨got.syncer, got.constructed, st.provider⟩, events⟩
            | .returned _ (some err) =>
              ⟨.returned (Wrapf (some err) "creating new AWS AppMesh session"),
                ⟨got.syncer, got.constructed, st.provider⟩, events⟩
            | .returned none none =>
              ⟨.panicked, ⟨got.syncer, got.constructed, st.provider⟩, events⟩
            | .returned (some client) none =>
              let r := resyncState (remote client) st.provider desiredMesh virtualNodes
                virtualRouters routes
              ⟨match r.outcome with
                | .returned (some err) => .returned (Wrapf (some err) "reconciling desired state")
                | o => o,
                ⟨got.syncer, got.constructed, r.state⟩,
                events ++ r.calls.map (Event.remote client)⟩
  | _ => ⟨.returned none, st, []⟩

/-- Loop of `AppMeshSyncer.Sync` (lines 134-140) from a position in the mesh list: the first
mesh whose sync returns an error ends the loop, with the error wrapped with the reference of
that mesh. -/
def SyncFrom {U σ : Type} (lib : Library) (ext : Externals U)
    (visit : List (String × List Nat) → List (String × List Nat))
    (remote : AppMeshClient → Client σ) (snap : TranslatorSnapshot U) :
    List Mesh → Process σ → SyncRun σ
  | [], st => ⟨.returned none, st, []⟩
  | mesh :: rest, st =>
    let r := sync lib ext visit remote st mesh snap
    match r.outcome with
    | .returned none =>
      let later := SyncFrom lib ext visit remote snap rest r.state
      ⟨later.outcome, later.state, r.events ++ later.events⟩
    | .returned (some err) =>
      ⟨.returned (Wrapf (some err) ("syncing mesh " ++ lib.refFormat mesh.Metadata.Ref)),
        r.state, r.events⟩
    | .panicked => r

/-- Embedding of `AppMeshSyncer.Sync` (lines 122-140); logging is left out. -/
def Sync {U σ : Type} (lib : Library) (ext : Externals U)
    (visit : List (String × List Nat) → List (String × List Nat))
    (remote : AppMeshClient → Client σ) (st : Process σ) (snap : TranslatorSnapshot U) :
    SyncRun σ :=
  SyncFrom lib ext visit remote snap snap.Meshes st

/-- Sample mesh of a name with the given type. -/
def sampleMeshOf (name : String) (meshType : Option MeshType) : Mesh :=
  { Metadata := { Name := name, Namespace := "default" }, MeshType := meshType }

/-- Sample snapshot: an Istio mesh, an AppMesh mesh without settings, and an AppMesh mesh
with a region and a secret. -/
def sampleSnapshot : TranslatorSnapshot SampleUpstream :=
  { Meshes :=
      [sampleMeshOf "istio" (some .Mesh_Istio),
        sampleMeshOf "broken" (some (.Mesh_AppMesh none)),
        sampleMeshOf "aws" (some (.Mesh_AppMesh (some (sampleAppMesh "us-east-1" "creds-a"))))]
    Upstreams := sampleUpstreams
    Routingrules := [sampleRule]
    Secrets := sampleSecrets }

/-- Sample start state: a new syncer, no handle constructed, a provider without meshes. -/
def sampleProcess : Process Remote :=
  { syncer := NewMeshRoutingSyncer, constructed := 0, provider := { meshes := [], nodes := [] } }

/-- Sample snapshot whose meshes are all synced: an Istio mesh, then an AppMesh mesh with a
region and a secret. -/
def sampleSnapshotOk : TranslatorSnapshot SampleUpstream :=
  { Meshes :=
      [sampleMeshOf "istio" (some .Mesh_Istio),
        sampleMeshOf "aws" (some (.Mesh_AppMesh (some (sampleAppMesh "us-east-1" "creds-a"))))]
    Upstreams := sampleUpstreams
    Routingrules := [sampleRule]
    Secrets := sampleSecrets }

/-! ## The mtls command: mutation of the mesh

Embedding of step 3 of `updateMtls` in `cli/pkg/cmd/meshtoolbox/mtls/root.go`
(lines 145-177). -/

/-- The field of `superglooV1.Encryption` the command reads and writes. -/
structure Encryption where
  TlsEnabled : Bool
  deriving DecidableEq, Repr

/-- What the mtls command reads and writes of `superglooV1.Mesh`: the metadata it looks the
mesh up by, and the encryption settings. -/
structure CliMesh where
  Metadata : Metadata
  Encryption : Option Encryption
  deriving DecidableEq, Repr

/-- Step 3 of `updateMtls` (lines 145-177), the switch over the operation: the encryption
settings are created when absent, otherwise their flag is set in place; an operation that
is none of the three panics (`none`). -/
def mutateMesh (operation : String) (mesh : CliMesh) : Option CliMesh :=
  match operation with
  | "enable" =>
    match mesh.Encryption with
    | none => some { mesh with Encryption := some { TlsEnabled := true } }
    | some encryption =>
      some { mesh with Encryption := some { encryption with TlsEnabled := true } }
  | "disable" =>
    match mesh.Encryption with
    | none => some { mesh with Encryption := some { TlsEnabled := false } }
    | some encryption =>
      some { mesh with Encryption := some { encryption with TlsEnabled := false } }
  | "toggle" =>
    match mesh.Encryption with
    | none => some { mesh with Encryption := some { TlsEnabled := true } }
    | some encryption =>
      some { mesh with
        Encryption := some { encryption with TlsEnabled := !encryption.TlsEnabled } }
  | _ => none

/-- The encryption-enabled flag of a mesh, when its encryption settings exist. -/
def CliMesh.tlsEnabled (mesh : CliMesh) : Option Bool :=
  mesh.Encryption.map fun encryption => encryption.TlsEnabled

/-! ## Sample inputs on which a resolution fails -/

/-- Sample rule `stale` in namespace `prod` with a traffic-shifting directive, naming a
destination that is not among the sample upstreams. -/
def sampleRuleMissing : RoutingRule :=
  { Metadata := { Name := "stale", Namespace := "prod" }
    Destinations := [sampleRef "missing"]
    RequestMatchers := []
    TrafficShifting := some { Destinations := [] } }

/-- Sample externals in which an upstream with an empty host does not resolve. -/
def sampleExtStrict : Externals SampleUpstream :=
  { sampleExt with
    GetHostForUpstream := fun us => if us.host = "" then .error "no host" else .ok us.host }

/-- The provider holds the desired node, and comparing the spec it holds with the desired
one does not call for an update: the string forms are equal, or the comparison panics. -/
def Held (specString : VirtualNodeSpec → String) (s : Remote)
    (d : CreateVirtualNodeInput) : Prop :=
  ∃ spec, nodeSpecAt s.nodes (nodeKey d) = some spec ∧
    specsMatch specString
      { VirtualNode := some
          { MeshName := d.MeshName, Spec := spec, VirtualNodeName := d.VirtualNodeName } } d ≠
      some false

/-- Sample desired node of another mesh than `m`. -/
def sampleNodeElsewhere : CreateVirtualNodeInput :=
  { sampleNode "svcA" ["svcA"] with MeshName := some "other" }

/-- Sample provider state with nothing in it. -/
def emptyRemote : Remote := { meshes := [], nodes := [] }

/-- Sample snapshot whose first mesh has an empty region and a secret that is found, and
whose second mesh has a region and a secret. -/
def sampleSnapshotNoRegion : TranslatorSnapshot SampleUpstream :=
  { Meshes :=
      [sampleMeshOf "noregion" (some (.Mesh_AppMesh (some (sampleAppMesh "" "creds-a")))),
        sampleMeshOf "aws" (some (.Mesh_AppMesh (some (sampleAppMesh "us-east-1" "creds-a"))))]
    Upstreams := sampleUpstreams
    Routingrules := [sampleRule]
    Secrets := sampleSecrets }

/-! ## Facts about the string order and the stable sort -/

theorem lexLess_asymm : ∀ a b : List Char, lexLess a b = true → lexLess b a = false
  | _, [], h => by simp [lexLess] at h
  | [], _ :: _, _ => by simp [lexLess]
  | a :: as, b :: bs, h => by
    simp only [lexLess] at h ⊢
    by_cases h1 : a.toNat < b.toNat
    · have h2 : ¬ b.toNat < a.toNat := by omega
      simp [h1, h2]
    · by_cases h2 : b.toNat < a.toNat
      · simp [h1, h2] at h
      · simp only [h1, h2, if_false] at h ⊢
        exact lexLess_asymm as bs h

theorem lexLess_le_trans :
    ∀ a b c : List Char, lexLess b a = false → lexLess c b = false → lexLess c a = false
  | [], _, c, _, _ => by cases c <;> simp [lexLess]
  | a :: as, [], _, h1, _ => by simp [lexLess] at h1
  | a :: as, b :: bs, [], _, h2 => by simp [lexLess] at h2
  | a :: as, b :: bs, c :: cs, h1, h2 => by
    simp only [lexLess] at h1 h2 ⊢
    by_cases hba : b.toNat < a.toNat
    · simp [hba] at h1
    · by_cases hcb : c.toNat < b.toNat
      · simp [hcb] at h2
      · simp only [hba, hcb, if_false] at h1 h2
        by_cases hab : a.toNat < b.toNat
        · have h3 : ¬ c.toNat < a.toNat := by omega
          have h4 : a.toNat < c.toNat := by omega
          simp [h3, h4]
        · by_cases hbc : b.toNat < c.toNat
          · have h3 : ¬ c.toNat < a.toNat := by omega
            have h4 : a.toNat < c.toNat := by omega
            simp [h3, h4]
          · simp only [hab, hbc, if_false] at h1 h2
            have h3 : ¬ c.toNat < a.toNat := by omega
            have h4 : ¬ a.toNat < c.toNat := by omega
            simp only [h3, h4, if_false]
            exact lexLess_le_trans as bs cs h1 h2

theorem char_eq_of_toNat_eq (a b : Char) (h : a.toNat = b.toNat) : a = b := by
  apply Char.ext
  apply UInt32.ext
  exact h

theorem lexLess_antisymm :
    ∀ a b : List Char, lexLess a b = false → lexLess b a = false → a = b
  | [], [], _, _ => rfl
  | [], _ :: _, h, _ => by simp [lexLess] at h
  | _ :: _, [], _, h => by simp [lexLess] at h
  | a :: as, b :: bs, h1, h2 => by
    simp only [lexLess] at h1 h2
    by_cases hab : a.toNat < b.toNat
    · simp [hab] at h1
    · by_cases hba : b.toNat < a.toNat
      · simp [hba] at h2
      · simp only [hab, hba, if_false] at h1 h2
        have e : a = b := char_eq_of_toNat_eq a b (by omega)
        rw [e, lexLess_antisymm as bs h1 h2]

theorem stringLE_total (a b : String) : stringLE a b ∨ stringLE b a := by
  unfold stringLE stringLess
  cases h : lexLess b.data a.data with
  | false => exact Or.inl rfl
  | true => exact Or.inr (lexLess_asymm _ _ h)

theorem stringLE_trans {a b c : String} (h1 : stringLE a b) (h2 : stringLE b c) :
    stringLE a c :=
  lexLess_le_trans a.data b.data c.data h1 h2

theorem stringLE_antisymm {a b : String} (h1 : stringLE a b) (h2 : stringLE b a) : a = b := by
  cases a; cases b
  exact congrArg String.mk (lexLess_antisymm _ _ h2 h1)

theorem stableInsert_perm {α : Type} (less : α → α → Bool) (a : α) :
    ∀ l : List α, (stableInsert less a l).Perm (a :: l)
  | [] => List.Perm.refl _
  | b :: l => by
    unfold stableInsert
    split
    · exact ((stableInsert_perm less a l).cons b).trans (List.Perm.swap a b l)
    · exact List.Perm.refl _

theorem sortSliceStable_perm {α : Type} (less : α → α → Bool) :
    ∀ l : List α, (sortSliceStable less l).Perm l
  | [] => List.Perm.refl _
  | a :: l =>
    (stableInsert_perm less a (sortSliceStable less l)).trans
      ((sortSliceStable_perm less l).cons a)

theorem stableInsert_sorted {α : Type} (str : α → String) (a : α) :
    ∀ l : List α, l.Pairwise (formLE str) →
      (stableInsert (fun x y => stringLess (str x) (str y)) a l).Pairwise (formLE str)
  | [], _ => by simp [stableInsert]
  | b :: l, h => by
    unfold stableInsert
    rw [List.pairwise_cons] at h
    split
    · rename_i hlt
      rw [List.pairwise_cons]
      refine ⟨?_, stableInsert_sorted str a l h.2⟩
      intro c hc
      rcases List.mem_cons.1 ((stableInsert_perm _ a l).subset hc) with rfl | hc
      · exact lexLess_asymm _ _ hlt
      · exact h.1 c hc
    · rename_i hlt
      have hab : formLE str a b := by simpa [formLE, stringLE] using hlt
      rw [List.pairwise_cons]
      refine ⟨?_, List.pairwise_cons.2 h⟩
      intro c hc
      rcases List.mem_cons.1 hc with rfl | hc
      · exact hab
      · exact stringLE_trans hab (h.1 c hc)

theorem sortSliceStable_sorted {α : Type} (str : α → String) :
    ∀ l : List α,
      (sortSliceStable (fun x y => stringLess (str x) (str y)) l).Pairwise (formLE str)
  | [] => List.Pairwise.nil
  | a :: l => stableInsert_sorted str a _ (sortSliceStable_sorted str l)

/-- Two lists with the same elements, both in non-decreasing order of a string form that
tells their elements apart, are equal. -/
theorem sorted_perm_unique {α : Type} (str : α → String) :
    ∀ l₁ l₂ : List α, l₁.Perm l₂ → (∀ a ∈ l₁, ∀ b ∈ l₁, str a = str b → a = b) →
      l₁.Pairwise (formLE str) → l₂.Pairwise (formLE str) → l₁ = l₂
  | [], l₂, hp, _, _, _ => hp.nil_eq
  | a :: l₁, l₂, hp, hinj, h₁, h₂ => by
    have ha : a ∈ l₂ := hp.subset (List.mem_cons_self _ _)
    cases l₂ with
    | nil => simp at ha
    | cons b l₂ =>
      rw [List.pairwise_cons] at h₁ h₂
      have hb : b ∈ a :: l₁ := hp.symm.subset (List.mem_cons_self _ _)
      have hab : a = b := by
        rcases List.mem_cons.1 ha with e | ha'
        · exact e
        · rcases List.mem_cons.1 hb with e | hb'
          · exact e.symm
          · exact hinj a (List.mem_cons_self _ _) b hb
              (stringLE_antisymm (h₁.1 b hb') (h₂.1 a ha'))
      subst hab
      have hp' : l₁.Perm l₂ := List.Perm.cons_inv hp
      rw [sorted_perm_unique str l₁ l₂ hp'
        (fun x hx y hy => hinj x (List.mem_cons_of_mem _ hx) y (List.mem_cons_of_mem _ hy))
        h₁.2 h₂.2]

/-! ## Facts about the first loop of `virtualNodesFromUpstreams` -/

theorem keys_appendPort (host : String) (port : Nat) :
    ∀ m : List (String × List Nat),
      (appendPort m host port).map Prod.fst =
        if host ∈ m.map Prod.fst then m.map Prod.fst else m.map Prod.fst ++ [host]
  | [] => by simp [appendPort]
  | (h, ports) :: rest => by
    unfold appendPort
    by_cases e : h = host
    · simp [e]
    · have e' : ¬ host = h := fun x => e x.symm
      simp only [e, if_false, List.map_cons, List.mem_cons, e', false_or,
        keys_appendPort host port rest]
      split <;> simp

theorem nodup_keys_appendPort (host : String) (port : Nat) (m : List (String × List Nat))
    (h : (m.map Prod.fst).Nodup) : ((appendPort m host port).map Prod.fst).Nodup := by
  rw [keys_appendPort]
  split
  · exact h
  · rename_i hn
    exact List.Nodup.append h (List.nodup_singleton _) (by simpa using hn)

theorem mem_keys_appendPort (host : String) (port : Nat) (m : List (String × List Nat))
    (x : String) :
    x ∈ (appendPort m host port).map Prod.fst ↔ x ∈ m.map Prod.fst ∨ x = host := by
  rw [keys_appendPort]
  split
  · rename_i hm
    constructor
    · exact Or.inl
    · rintro (h | rfl)
      · exact h
      · exact hm
  · simp

theorem portsAt_appendPort (host : String) (port : Nat) (x : String) :
    ∀ m : List (String × List Nat),
      portsAt (appendPort m host port) x =
        if x = host then portsAt m host ++ [port] else portsAt m x
  | [] => by
    by_cases e : host = x
    · simp [appendPort, portsAt, e]
    · have e' : ¬ x = host := fun h => e h.symm
      simp [appendPort, portsAt, e, e']
  | (h, ports) :: rest => by
    unfold appendPort
    by_cases e : h = host
    · subst e
      by_cases e2 : h = x
      · simp [portsAt, e2]
      · have e' : ¬ x = h := fun h => e2 h.symm
        simp [portsAt, e2, e']
    · simp only [e, if_false]
      by_cases e2 : h = x
      · subst e2
        simp [portsAt, e]
      · simp only [portsAt, e2, if_false, portsAt_appendPort host port x rest]
        by_cases e3 : x = host
        · subst e3
          simp [portsAt, e]
        · simp [e3]

theorem nodup_keys_portsByHostOf {U : Type} (host : U → String) (port : U → Nat) :
    ∀ (upstreams : List U) (m : List (String × List Nat)), (m.map Prod.fst).Nodup →
      ((portsByHostOf host port upstreams m).map Prod.fst).Nodup
  | [], _, h => h
  | us :: rest, m, h =>
    nodup_keys_portsByHostOf host port rest _ (nodup_keys_appendPort (host us) (port us) m h)

theorem mem_keys_portsByHostOf {U : Type} (host : U → String) (port : U → Nat) (x : String) :
    ∀ (upstreams : List U) (m : List (String × List Nat)),
      x ∈ (portsByHostOf host port upstreams m).map Prod.fst ↔
        x ∈ m.map Prod.fst ∨ x ∈ upstreams.map host
  | [], m => by simp [portsByHostOf]
  | us :: rest, m => by
    have ih := mem_keys_portsByHostOf host port x rest (appendPort m (host us) (port us))
    simp only [portsByHostOf, List.foldl_cons] at ih ⊢
    rw [ih, mem_keys_appendPort]
    simp only [List.map_cons, List.mem_cons]
    tauto

theorem portsAt_portsByHostOf {U : Type} (host : U → String) (port : U → Nat) (x : String) :
    ∀ (upstreams : List U) (m : List (String × List Nat)),
      portsAt (portsByHostOf host port upstreams m) x =
        portsAt m x ++ (upstreams.filter fun us => host us = x).map port
  | [], m => by simp [portsByHostOf]
  | us :: rest, m => by
    have ih := portsAt_portsByHostOf host port x rest (appendPort m (host us) (port us))
    simp only [portsByHostOf, List.foldl_cons] at ih ⊢
    rw [ih, portsAt_appendPort]
    by_cases e : x = host us
    · subst e
      simp
    · have e' : ¬ host us = x := fun h => e h.symm
      simp [e, e']

theorem portsAt_of_mem :
    ∀ (m : List (String × List Nat)), (m.map Prod.fst).Nodup →
      ∀ e ∈ m, portsAt m e.1 = e.2
  | [], _, e, he => by simp at he
  | (h, ports) :: rest, hn, e, he => by
    rw [List.map_cons, List.nodup_cons] at hn
    rcases List.mem_cons.1 he with rfl | he
    · simp [portsAt]
    · have hne : ¬ h = e.1 := by
        intro x
        have hmem : e.1 ∈ rest.map Prod.fst := List.mem_map_of_mem Prod.fst he
        rw [← x] at hmem
        exact hn.1 hmem
      simp only [portsAt, hne, if_false]
      exact portsAt_of_mem rest hn.2 e he

theorem collectPortsByHost_ok {U : Type} (ext : Externals U) (host : U → String)
    (port : U → Nat) :
    ∀ (upstreams : List U) (m : List (String × List Nat)) (allHosts : List String),
      (∀ us ∈ upstreams, ext.GetHostForUpstream us = .ok (host us)) →
      (∀ us ∈ upstreams, ext.GetPortForUpstream us = .ok (port us)) →
      collectPortsByHost ext upstreams m allHosts =
        .ok (portsByHostOf host port upstreams m, allHosts ++ upstreams.map host)
  | [], m, allHosts, _, _ => by simp [collectPortsByHost, portsByHostOf]
  | us :: rest, m, allHosts, hh, hp => by
    unfold collectPortsByHost
    rw [hh us (List.mem_cons_self _ _), hp us (List.mem_cons_self _ _)]
    simp only
    rw [collectPortsByHost_ok ext host port rest _ _
      (fun x hx => hh x (List.mem_cons_of_mem _ hx))
      (fun x hx => hp x (List.mem_cons_of_mem _ hx))]
    simp [portsByHostOf]

theorem virtualNodesFromUpstreams_ok {U : Type} (ext : Externals U) (host : U → String)
    (port : U → Nat) (visit : List (String × List Nat) → List (String × List Nat))
    (meshName : String) (upstreams : List U)
    (hh : ∀ us ∈ upstreams, ext.GetHostForUpstream us = .ok (host us))
    (hp : ∀ us ∈ upstreams, ext.GetPortForUpstream us = .ok (port us)) :
    virtualNodesFromUpstreams ext visit meshName upstreams =
      .ok (sortSliceStable (nodeLess ext)
        (virtualNodesUnsorted visit meshName (portsByHostOf host port upstreams [])
          (upstreams.map host))) := by
  unfold virtualNodesFromUpstreams
  rw [collectPortsByHost_ok ext host port upstreams [] [] hh hp]
  simp

/-! ## Virtual nodes: one per distinct host -/

/-- C1: when every upstream resolves to a host and a port, `virtualNodesFromUpstreams`
returns one node per distinct upstream host, whatever order the map is visited in: the number
of nodes is the number of distinct hosts, and the DNS service-discovery names of the nodes are
the distinct hosts, each once. -/
theorem virtualNodes_one_per_distinct_host {U : Type} (ext : Externals U) (host : U → String)
    (port : U → Nat) (visit : List (String × List Nat) → List (String × List Nat))
    (hvisit : ∀ m, (visit m).Perm m) (meshName : String) (upstreams : List U)
    (hh : ∀ us ∈ upstreams, ext.GetHostForUpstream us = .ok (host us))
    (hp : ∀ us ∈ upstreams, ext.GetPortForUpstream us = .ok (port us)) :
    ∃ nodes, virtualNodesFromUpstreams ext visit meshName upstreams = .ok nodes ∧
      nodes.length = (upstreams.map host).dedup.length ∧
      (nodes.map CreateVirtualNodeInput.dnsName).Nodup ∧
      (nodes.map CreateVirtualNodeInput.dnsName).Perm ((upstreams.map host).dedup.map some) := by
  refine ⟨_, virtualNodesFromUpstreams_ok ext host port visit meshName upstreams hh hp, ?_⟩
  have hkeys : ((portsByHostOf host port upstreams []).map Prod.fst).Perm
      (upstreams.map host).dedup := by
    rw [List.perm_ext_iff_of_nodup
      (nodup_keys_portsByHostOf host port upstreams [] List.nodup_nil) (List.nodup_dedup _)]
    intro x
    rw [mem_keys_portsByHostOf, List.mem_dedup]
    simp
  have hnames : ((sortSliceStable (nodeLess ext)
      (virtualNodesUnsorted visit meshName (portsByHostOf host port upstreams [])
        (upstreams.map host))).map CreateVirtualNodeInput.dnsName).Perm
      ((upstreams.map host).dedup.map some) := by
    refine ((sortSliceStable_perm _ _).map _).trans ?_
    unfold virtualNodesUnsorted
    rw [List.map_map]
    refine ((hvisit _).map _).trans ?_
    have e : (CreateVirtualNodeInput.dnsName ∘
        virtualNodeForHost meshName (upstreams.map host)) = some ∘ Prod.fst := by
      funext x
      rfl
    rw [e, ← List.map_map]
    exact hkeys.map _
  refine ⟨?_, ?_, hnames⟩
  · simpa using hnames.length_eq
  · exact hnames.nodup_iff.2
      ((List.nodup_dedup _).map (fun a b h => Option.some.inj h))

/-- C1 at a concrete input: three sample upstreams over two hosts give two nodes. -/
theorem virtualNodes_one_per_distinct_host_witness :
    ∃ nodes, virtualNodesFromUpstreams sampleExt id "m"
        [sampleUpstream "b" "svcB" 80, sampleUpstream "a1" "svcA" 8080,
          sampleUpstream "a2" "svcA" 9090] = .ok nodes ∧
      nodes.length =
        (([sampleUpstream "b" "svcB" 80, sampleUpstream "a1" "svcA" 8080,
          sampleUpstream "a2" "svcA" 9090].map SampleUpstream.host).dedup).length ∧
      (nodes.map CreateVirtualNodeInput.dnsName).Nodup ∧
      (nodes.map CreateVirtualNodeInput.dnsName).Perm
        ((([sampleUpstream "b" "svcB" 80, sampleUpstream "a1" "svcA" 8080,
          sampleUpstream "a2" "svcA" 9090].map SampleUpstream.host).dedup).map some) :=
  virtualNodes_one_per_distinct_host sampleExt SampleUpstream.host SampleUpstream.port id
    (fun _ => List.Perm.refl _) "m" _ (fun _ _ => rfl) (fun _ _ => rfl)

/-! ## Virtual nodes: listeners -/

theorem mem_virtualNodes {U : Type} (ext : Externals U)
    (visit : List (String × List Nat) → List (String × List Nat))
    (hvisit : ∀ m, (visit m).Perm m) (meshName : String)
    (m : List (String × List Nat)) (allHosts : List String) (n : CreateVirtualNodeInput) :
    n ∈ sortSliceStable (nodeLess ext) (virtualNodesUnsorted visit meshName m allHosts) ↔
      ∃ e ∈ m, n = virtualNodeForHost meshName allHosts e := by
  rw [(sortSliceStable_perm _ _).mem_iff]
  unfold virtualNodesUnsorted
  rw [List.mem_map]
  constructor
  · rintro ⟨e, he, rfl⟩
    exact ⟨e, (hvisit m).subset he, rfl⟩
  · rintro ⟨e, he, rfl⟩
    exact ⟨e, (hvisit m).symm.subset he, rfl⟩

/-- C2, as the code has it: when every upstream resolves, every host of the input has a node,
and the node of host `h` has one `http` listener per upstream of host `h`, in input order,
carrying that upstream's port; a port that several upstreams of the host share is repeated. -/
theorem virtualNodes_listeners_per_upstream {U : Type} (ext : Externals U)
    (host : U → String) (port : U → Nat)
    (visit : List (String × List Nat) → List (String × List Nat))
    (hvisit : ∀ m, (visit m).Perm m) (meshName : String) (upstreams : List U)
    (hh : ∀ us ∈ upstreams, ext.GetHostForUpstream us = .ok (host us))
    (hp : ∀ us ∈ upstreams, ext.GetPortForUpstream us = .ok (port us)) :
    ∃ nodes, virtualNodesFromUpstreams ext visit meshName upstreams = .ok nodes ∧
      (∀ us ∈ upstreams, ∃ n ∈ nodes, n.dnsName = some (host us)) ∧
      ∀ n ∈ nodes, ∀ h, n.dnsName = some h →
        n.listeners.map Listener.port =
            ((upstreams.filter fun us => host us = h).map fun us => some (port us : Int)) ∧
          ∀ l ∈ n.listeners, l.protocol = some "http" := by
  refine ⟨_, virtualNodesFromUpstreams_ok ext host port visit meshName upstreams hh hp, ?_, ?_⟩
  · intro us hus
    have hk : host us ∈ (portsByHostOf host port upstreams []).map Prod.fst := by
      rw [mem_keys_portsByHostOf]
      exact Or.inr (List.mem_map_of_mem host hus)
    obtain ⟨e, he, hfst⟩ := List.mem_map.1 hk
    refine ⟨virtualNodeForHost meshName (upstreams.map host) e, ?_, ?_⟩
    · exact (mem_virtualNodes ext visit hvisit meshName _ _ _).2 ⟨e, he, rfl⟩
    · rw [← hfst]
      rfl
  · intro n hn h hdns
    obtain ⟨e, he, rfl⟩ := (mem_virtualNodes ext visit hvisit meshName _ _ _).1 hn
    have e1 : e.1 = h := Option.some.inj hdns
    have hports : e.2 = (upstreams.filter fun us => host us = h).map port := by
      rw [← portsAt_of_mem _
        (nodup_keys_portsByHostOf host port upstreams [] List.nodup_nil) e he, e1,
        portsAt_portsByHostOf]
      simp [portsAt]
    constructor
    · show (listenersFromPorts e.2).map Listener.port = _
      rw [hports]
      simp only [listenersFromPorts, List.map_map]
      rfl
    · intro l hl
      change l ∈ listenersFromPorts e.2 at hl
      unfold listenersFromPorts at hl
      obtain ⟨p, _, rfl⟩ := List.mem_map.1 hl
      rfl

/-- C2 at the input of the specification: `svcA:8080` and `svcA:9090`. -/
theorem virtualNodes_listeners_per_upstream_witness :
    ∃ nodes, virtualNodesFromUpstreams sampleExt id "m"
        [sampleUpstream "a1" "svcA" 8080, sampleUpstream "a2" "svcA" 9090] = .ok nodes ∧
      (∀ us ∈ [sampleUpstream "a1" "svcA" 8080, sampleUpstream "a2" "svcA" 9090],
        ∃ n ∈ nodes, n.dnsName = some us.host) ∧
      ∀ n ∈ nodes, ∀ h, n.dnsName = some h →
        n.listeners.map Listener.port =
            (([sampleUpstream "a1" "svcA" 8080, sampleUpstream "a2" "svcA" 9090].filter
              fun us => us.host = h).map fun us => some (us.port : Int)) ∧
          ∀ l ∈ n.listeners, l.protocol = some "http" :=
  virtualNodes_listeners_per_upstream sampleExt SampleUpstream.host SampleUpstream.port id
    (fun _ => List.Perm.refl _) "m" _ (fun _ _ => rfl) (fun _ _ => rfl)

/-- C2 as stated fails: two upstreams of host `svcA` that share port 8080 give one node whose
listener ports are 8080 twice, so the listener ports hold a duplicate. -/
theorem virtualNodes_listener_ports_duplicate :
    ∃ node, virtualNodesFromUpstreams sampleExt id "m"
        [sampleUpstream "a1" "svcA" 8080, sampleUpstream "a2" "svcA" 8080] = .ok [node] ∧
      node.dnsName = some "svcA" ∧
      node.listeners.map Listener.port = [some 8080, some 8080] ∧
      ¬ (node.listeners.map Listener.port).Nodup :=
  ⟨virtualNodeForHost "m" ["svcA", "svcA"] ("svcA", [8080, 8080]), rfl, rfl, rfl, by decide⟩

/-! ## Facts about the loops of `routesFromRules` -/

theorem collectAllHosts_ok {U : Type} (ext : Externals U) (host : U → String) :
    ∀ (upstreams : List U) (allHosts : List String),
      (∀ us ∈ upstreams, ext.GetHostForUpstream us = .ok (host us)) →
      collectAllHosts ext upstreams allHosts = .ok (allHosts ++ upstreams.map host)
  | [], allHosts, _ => by simp [collectAllHosts]
  | us :: rest, allHosts, hh => by
    unfold collectAllHosts
    rw [hh us (List.mem_cons_self _ _)]
    simp only
    rw [collectAllHosts_ok ext host rest _ (fun x hx => hh x (List.mem_cons_of_mem _ hx))]
    simp

theorem resolvesTo_elim {U : Type} (ext : Externals U) (upstreams : List U)
    (ref : ResourceRef) (host : String) (h : resolvesTo ext upstreams ref host = true) :
    ∃ us, ext.Find upstreams ref.Strings.1 ref.Strings.2 = .ok us ∧
      ext.GetHostForUpstream us = .ok host := by
  unfold resolvesTo at h
  split at h
  · simp at h
  · rename_i us hus
    split at h
    · simp at h
    · rename_i h' hh'
      have e : h' = host := by simpa using h
      exact ⟨us, hus, e ▸ hh'⟩

theorem collectDestinationHosts_ok {U : Type} (ext : Externals U) (upstreams : List U)
    (hostOf : ResourceRef → String) :
    ∀ (refs : List ResourceRef) (added : List String),
      (∀ ref ∈ refs, resolvesTo ext upstreams ref (hostOf ref) = true) →
      collectDestinationHosts ext upstreams refs added =
        .ok (addHosts added (refs.map hostOf))
  | [], added, _ => by simp [collectDestinationHosts, addHosts]
  | ref :: rest, added, hres => by
    obtain ⟨us, h1, h2⟩ := resolvesTo_elim ext upstreams ref _ (hres ref (List.mem_cons_self _ _))
    unfold collectDestinationHosts
    rw [h1]
    simp only
    rw [h2]
    simp only
    rw [collectDestinationHosts_ok ext upstreams hostOf rest _
      (fun x hx => hres x (List.mem_cons_of_mem _ hx))]
    simp [addHosts]

theorem collectTargets_ok {U : Type} (ext : Externals U) (upstreams : List U)
    (hostOf : ResourceRef → String) :
    ∀ (dests : List WeightedDestination) (targets : List WeightedTarget),
      (∀ d ∈ dests, resolvesTo ext upstreams d.Upstream (hostOf d.Upstream) = true) →
      collectTargets ext upstreams dests targets =
        .ok (targets ++ dests.map fun d => targetFor (hostOf d.Upstream) d)
  | [], targets, _ => by simp [collectTargets]
  | d :: rest, targets, hres => by
    obtain ⟨us, h1, h2⟩ :=
      resolvesTo_elim ext upstreams d.Upstream _ (hres d (List.mem_cons_self _ _))
    unfold collectTargets
    rw [h1]
    simp only
    rw [h2]
    simp only
    rw [collectTargets_ok ext upstreams hostOf rest _
      (fun x hx => hres x (List.mem_cons_of_mem _ hx))]
    simp [targetFor]

theorem nodup_addHosts : ∀ (hosts added : List String), added.Nodup →
    (addHosts added hosts).Nodup
  | [], _, h => h
  | x :: rest, added, h => by
    simp only [addHosts, List.foldl_cons]
    apply nodup_addHosts rest
    split
    · exact h
    · rename_i hx
      exact List.Nodup.append h (List.nodup_singleton _) (by simpa using hx)

theorem mem_addHosts (y : String) : ∀ (hosts added : List String),
    y ∈ addHosts added hosts ↔ y ∈ added ∨ y ∈ hosts
  | [], added => by simp [addHosts]
  | x :: rest, added => by
    have ih := mem_addHosts y rest (if x ∈ added then added else added ++ [x])
    simp only [addHosts, List.foldl_cons] at ih ⊢
    rw [ih]
    by_cases hx : x ∈ added
    · simp only [hx, if_true, List.mem_cons]
      constructor
      · rintro (h | h)
        · exact Or.inl h
        · exact Or.inr (Or.inr h)
      · rintro (h | rfl | h)
        · exact Or.inl h
        · exact Or.inl hx
        · exact Or.inr h
    · simp only [hx, if_false, List.mem_append, List.mem_singleton, List.mem_cons]
      tauto

theorem routesForRule_ok {U : Type} (ext : Externals U) (meshName : String)
    (upstreams : List U) (hostOf : ResourceRef → String) (rule : RoutingRule)
    (hts : rule.TrafficShifting.isSome = true) (hres : RuleResolves ext upstreams hostOf rule) :
    routesForRule ext meshName upstreams rule =
      .ok ((addHosts [] (rule.Destinations.map hostOf)).map
        (routeForHost meshName rule (pathPrefix rule.RequestMatchers)
          (rule.shiftDestinations.map fun d => targetFor (hostOf d.Upstream) d))) := by
  have h := hres hts
  unfold routesForRule
  unfold RoutingRule.shiftDestinations at h ⊢
  cases hrt : rule.TrafficShifting with
  | none => simp [hrt] at hts
  | some ts =>
    rw [hrt] at h
    simp only at h ⊢
    rw [collectDestinationHosts_ok ext upstreams hostOf _ _ h.1,
      collectTargets_ok ext upstreams hostOf _ _ h.2]
    simp

theorem routesForRule_of_unset {U : Type} (ext : Externals U) (meshName : String)
    (upstreams : List U) (rule : RoutingRule) (hts : rule.TrafficShifting.isSome = false) :
    routesForRule ext meshName upstreams rule = .ok [] := by
  unfold routesForRule
  cases hrt : rule.TrafficShifting with
  | none => rfl
  | some ts => simp [hrt] at hts

theorem collectRoutes_ok {U : Type} (ext : Externals U) (meshName : String)
    (upstreams : List U) :
    ∀ (rules : List RoutingRule) (routes : List CreateRouteInput),
      (∀ rule ∈ rules, ∃ added, routesForRule ext meshName upstreams rule = .ok added) →
      collectRoutes ext meshName upstreams rules routes =
        .ok (routes ++ rules.flatMap (emittedForRule ext meshName upstreams))
  | [], routes, _ => by simp [collectRoutes]
  | rule :: rest, routes, h => by
    obtain ⟨added, hadd⟩ := h rule (List.mem_cons_self _ _)
    unfold collectRoutes
    rw [hadd]
    simp only
    rw [collectRoutes_ok ext meshName upstreams rest _
      (fun x hx => h x (List.mem_cons_of_mem _ hx))]
    simp [emittedForRule, hadd]

theorem routesFromRules_ok {U : Type} (ext : Externals U) (host : U → String)
    (hostOf : ResourceRef → String) (meshName : String) (upstreams : List U)
    (routingRules : List RoutingRule)
    (hh : ∀ us ∈ upstreams, ext.GetHostForUpstream us = .ok (host us))
    (hres : ∀ rule ∈ routingRules, RuleResolves ext upstreams hostOf rule) :
    routesFromRules ext meshName upstreams routingRules =
      .ok (sortSliceStable (routeLess ext)
        (routingRules.flatMap (emittedForRule ext meshName upstreams))) := by
  unfold routesFromRules
  rw [collectAllHosts_ok ext host upstreams [] hh]
  simp only
  rw [collectRoutes_ok ext meshName upstreams routingRules []]
  · simp
  · intro rule hrule
    cases hts : rule.TrafficShifting.isSome with
    | true => exact ⟨_, routesForRule_ok ext meshName upstreams hostOf rule hts (hres rule hrule)⟩
    | false => exact ⟨_, routesForRule_of_unset ext meshName upstreams rule hts⟩

/-! ## Virtual routers -/

/-- C3 at the input `svcA:8080`, `svcA:9090`: `virtualRoutersFromUpstreams` ranges over the
hosts of all upstreams, so it returns two routers for the one distinct host `svcA`. -/
theorem virtualRouters_repeat_shared_host :
    virtualRoutersFromUpstreams sampleExt "m"
        [sampleUpstream "a1" "svcA" 8080, sampleUpstream "a2" "svcA" 9090] =
      .ok [virtualRouterForHost "m" "svcA", virtualRouterForHost "m" "svcA"] ∧
    (virtualRouterForHost "m" "svcA").serviceNames = ["svcA"] ∧
    (([sampleUpstream "a1" "svcA" 8080, sampleUpstream "a2" "svcA" 9090].map
      SampleUpstream.host).dedup).length = 1 :=
  ⟨rfl, rfl, by decide⟩

/-! ## Routes -/

/-- C4, as the code has it: when the hosts of all upstreams resolve and every rule with a
traffic-shifting directive resolves, `routesFromRules` returns the routes the rules emit, and
a rule with a traffic-shifting directive emits one route per distinct host among its
destination references: the route of host `h` is named `h-namespace-name` after the rule and
has virtual-router name `h`. -/
theorem routes_one_per_destination_host {U : Type} (ext : Externals U) (host : U → String)
    (hostOf : ResourceRef → String) (meshName : String) (upstreams : List U)
    (routingRules : List RoutingRule)
    (hh : ∀ us ∈ upstreams, ext.GetHostForUpstream us = .ok (host us))
    (hres : ∀ rule ∈ routingRules, RuleResolves ext upstreams hostOf rule) :
    ∃ routes, routesFromRules ext meshName upstreams routingRules = .ok routes ∧
      routes.Perm (routingRules.flatMap (emittedForRule ext meshName upstreams)) ∧
      ∀ rule ∈ routingRules, rule.TrafficShifting.isSome = true →
        ∃ hosts : List String, hosts.Nodup ∧
          (∀ h, h ∈ hosts ↔ h ∈ rule.Destinations.map hostOf) ∧
          (emittedForRule ext meshName upstreams rule).map
              (fun r => (r.RouteName, r.VirtualRouterName)) =
            hosts.map fun h =>
              (some (h ++ "-" ++ rule.Metadata.Namespace ++ "-" ++ rule.Metadata.Name),
                some h) := by
  refine ⟨_, routesFromRules_ok ext host hostOf meshName upstreams routingRules hh hres,
    sortSliceStable_perm _ _, ?_⟩
  intro rule hrule hts
  refine ⟨addHosts [] (rule.Destinations.map hostOf), nodup_addHosts _ _ List.nodup_nil, ?_, ?_⟩
  · intro h
    rw [mem_addHosts]
    simp
  · unfold emittedForRule
    rw [routesForRule_ok ext meshName upstreams hostOf rule hts (hres rule hrule)]
    simp only [List.map_map]
    rfl

/-- C5: a rule without a traffic-shifting directive adds no route and no error:
`routesFromRules` gives the same result once all such rules are removed from the list. -/
theorem routes_skip_rules_without_shifting {U : Type} (ext : Externals U) (meshName : String)
    (upstreams : List U) (routingRules : List RoutingRule) :
    routesFromRules ext meshName upstreams routingRules =
      routesFromRules ext meshName upstreams
        (routingRules.filter fun rule => rule.TrafficShifting.isSome) := by
  have key : ∀ (rules : List RoutingRule) (routes : List CreateRouteInput),
      collectRoutes ext meshName upstreams rules routes =
        collectRoutes ext meshName upstreams
          (rules.filter fun rule => rule.TrafficShifting.isSome) routes := by
    intro rules
    induction rules with
    | nil => intro routes; rfl
    | cons rule rest ih =>
      intro routes
      cases hts : rule.TrafficShifting.isSome with
      | false =>
        rw [List.filter_cons_of_neg (by simp [hts])]
        rw [← ih routes]
        conv => lhs; unfold collectRoutes
        rw [routesForRule_of_unset ext meshName upstreams rule hts]
        simp
      | true =>
        rw [List.filter_cons_of_pos (by simp [hts])]
        conv => lhs; unfold collectRoutes
        conv => rhs; unfold collectRoutes
        split
        · rfl
        · exact ih _
  unfold routesFromRules
  rw [key routingRules []]

theorem sampleRules_resolve :
    ∀ rule ∈ [sampleRuleUnshifted, sampleRule],
      RuleResolves sampleExt sampleUpstreams (sampleHostOf sampleUpstreams) rule := by
  unfold RuleResolves
  decide

/-- C4 at the input of the specification: rule `shift-canary` in namespace `prod` with
destination `svcB` gives the single route `svcB-prod-shift-canary`. -/
theorem routes_one_per_destination_host_witness :
    (∃ routes, routesFromRules sampleExt "m" sampleUpstreams
        [sampleRuleUnshifted, sampleRule] = .ok routes ∧
      routes.Perm ([sampleRuleUnshifted, sampleRule].flatMap
        (emittedForRule sampleExt "m" sampleUpstreams)) ∧
      ∀ rule ∈ [sampleRuleUnshifted, sampleRule], rule.TrafficShifting.isSome = true →
        ∃ hosts : List String, hosts.Nodup ∧
          (∀ h, h ∈ hosts ↔ h ∈ rule.Destinations.map (sampleHostOf sampleUpstreams)) ∧
          (emittedForRule sampleExt "m" sampleUpstreams rule).map
              (fun r => (r.RouteName, r.VirtualRouterName)) =
            hosts.map fun h =>
              (some (h ++ "-" ++ rule.Metadata.Namespace ++ "-" ++ rule.Metadata.Name),
                some h)) ∧
    (emittedForRule sampleExt "m" sampleUpstreams sampleRule).map
        (fun r => (r.RouteName, r.VirtualRouterName)) =
      [(some "svcB-prod-shift-canary", some "svcB")] :=
  ⟨routes_one_per_destination_host sampleExt SampleUpstream.host
    (sampleHostOf sampleUpstreams) "m" sampleUpstreams [sampleRuleUnshifted, sampleRule]
    (fun _ _ => rfl) sampleRules_resolve, by decide⟩

/-- C4 as stated fails: the sample rule carries a traffic-shifting directive and all its
references resolve, yet `routesFromRules` returns an error, and so no route for the rule,
when another rule of the list names a destination that is not found, and when the host of
an upstream the rule does not name does not resolve. -/
theorem routes_none_when_another_resolution_fails :
    sampleRule.TrafficShifting.isSome = true ∧
    ((∀ ref ∈ sampleRule.Destinations,
        resolvesTo sampleExt sampleUpstreams ref (sampleHostOf sampleUpstreams ref) = true) ∧
      ∀ d ∈ sampleRule.shiftDestinations,
        resolvesTo sampleExt sampleUpstreams d.Upstream
          (sampleHostOf sampleUpstreams d.Upstream) = true) ∧
    (emittedForRule sampleExt "m" sampleUpstreams sampleRule).map
        (fun r => r.RouteName) = [some "svcB-prod-shift-canary"] ∧
    routesFromRules sampleExt "m" sampleUpstreams [sampleRule, sampleRuleMissing] =
      .error "cannot find destination for routing rule: list did not find upstream default.missing" ∧
    ((∀ ref ∈ sampleRule.Destinations,
        resolvesTo sampleExtStrict (sampleUpstreams ++ [sampleUpstream "x" "" 80]) ref
          (sampleHostOf sampleUpstreams ref) = true) ∧
      ∀ d ∈ sampleRule.shiftDestinations,
        resolvesTo sampleExtStrict (sampleUpstreams ++ [sampleUpstream "x" "" 80]) d.Upstream
          (sampleHostOf sampleUpstreams d.Upstream) = true) ∧
    routesFromRules sampleExtStrict "m" (sampleUpstreams ++ [sampleUpstream "x" "" 80])
        [sampleRule] =
      .error "getting host for upstream: no host" := by
  refine ⟨rfl, by decide, by decide, by rfl, by decide, by rfl⟩

/-- C6: when the hosts of all upstreams resolve and every rule with a traffic-shifting
directive resolves, every route a rule emits carries the same weighted targets: one per
traffic-shifting destination of the rule, in the directive's order, pairing the resolved host
of the destination's upstream with its weight. -/
theorem routes_weighted_targets {U : Type} (ext : Externals U) (host : U → String)
    (hostOf : ResourceRef → String) (meshName : String) (upstreams : List U)
    (routingRules : List RoutingRule)
    (hh : ∀ us ∈ upstreams, ext.GetHostForUpstream us = .ok (host us))
    (hres : ∀ rule ∈ routingRules, RuleResolves ext upstreams hostOf rule) :
    ∃ routes, routesFromRules ext meshName upstreams routingRules = .ok routes ∧
      routes.Perm (routingRules.flatMap (emittedForRule ext meshName upstreams)) ∧
      ∀ rule ∈ routingRules, ∀ r ∈ emittedForRule ext meshName upstreams rule,
        r.weightedTargets = some (rule.shiftDestinations.map fun d =>
          { VirtualNode := some (hostOf d.Upstream), Weight := some (d.Weight : Int) }) := by
  refine ⟨_, routesFromRules_ok ext host hostOf meshName upstreams routingRules hh hres,
    sortSliceStable_perm _ _, ?_⟩
  intro rule hrule r hr
  cases hts : rule.TrafficShifting.isSome with
  | false =>
    unfold emittedForRule at hr
    rw [routesForRule_of_unset ext meshName upstreams rule hts] at hr
    simp at hr
  | true =>
    unfold emittedForRule at hr
    rw [routesForRule_ok ext meshName upstreams hostOf rule hts (hres rule hrule)] at hr
    obtain ⟨h, _, rfl⟩ := List.mem_map.1 hr
    rfl

/-- C6 at the input of the specification: destinations `(svcB, 90)`, `(svcC, 10)` give the
targets `svcB:90`, `svcC:10` on each route. -/
theorem routes_weighted_targets_witness :
    (∃ routes, routesFromRules sampleExt "m" sampleUpstreams
        [sampleRuleUnshifted, sampleRule] = .ok routes ∧
      routes.Perm ([sampleRuleUnshifted, sampleRule].flatMap
        (emittedForRule sampleExt "m" sampleUpstreams)) ∧
      ∀ rule ∈ [sampleRuleUnshifted, sampleRule],
        ∀ r ∈ emittedForRule sampleExt "m" sampleUpstreams rule,
          r.weightedTargets = some (rule.shiftDestinations.map fun d =>
            { VirtualNode := some (sampleHostOf sampleUpstreams d.Upstream),
              Weight := some (d.Weight : Int) })) ∧
    (emittedForRule sampleExt "m" sampleUpstreams sampleRule).map
        CreateRouteInput.weightedTargets =
      [some [{ VirtualNode := some "svcB", Weight := some 90 },
        { VirtualNode := some "svcC", Weight := some 10 }]] :=
  ⟨routes_weighted_targets sampleExt SampleUpstream.host
    (sampleHostOf sampleUpstreams) "m" sampleUpstreams [sampleRuleUnshifted, sampleRule]
    (fun _ _ => rfl) sampleRules_resolve, by decide⟩

theorem routesForRule_matchers_tail {U : Type} (ext : Externals U) (meshName : String)
    (upstreams : List U) (rule : RoutingRule) (m : Matcher) (rest rest' : List Matcher) :
    routesForRule ext meshName upstreams { rule with RequestMatchers := m :: rest } =
      routesForRule ext meshName upstreams { rule with RequestMatchers := m :: rest' } :=
  rfl

theorem collectRoutes_congr {U : Type} (ext : Externals U) (meshName : String)
    (upstreams : List U) :
    ∀ (rules rules' : List RoutingRule) (routes : List CreateRouteInput),
      rules.map (routesForRule ext meshName upstreams) =
        rules'.map (routesForRule ext meshName upstreams) →
      collectRoutes ext meshName upstreams rules routes =
        collectRoutes ext meshName upstreams rules' routes
  | [], [], _, _ => rfl
  | [], _ :: _, _, h => by simp at h
  | _ :: _, [], _, h => by simp at h
  | a :: rules, b :: rules', routes, h => by
    simp only [List.map_cons, List.cons.injEq] at h
    unfold collectRoutes
    rw [h.1]
    split
    · rfl
    · exact collectRoutes_congr ext meshName upstreams rules rules' _ h.2

/-- C7: when the hosts of all upstreams resolve and every rule with a traffic-shifting
directive resolves, every route a rule emits has the path of the rule's first request
matcher when that matcher is a prefix specifier, and the root path when the rule has no
matcher or a first matcher of another kind; the matchers after the first can be replaced
without changing the result of `routesFromRules`. -/
theorem routes_path_from_first_matcher {U : Type} (ext : Externals U) (host : U → String)
    (hostOf : ResourceRef → String) (meshName : String) (upstreams : List U)
    (routingRules : List RoutingRule)
    (hh : ∀ us ∈ upstreams, ext.GetHostForUpstream us = .ok (host us))
    (hres : ∀ rule ∈ routingRules, RuleResolves ext upstreams hostOf rule) :
    ∃ routes, routesFromRules ext meshName upstreams routingRules = .ok routes ∧
      routes.Perm (routingRules.flatMap (emittedForRule ext meshName upstreams)) ∧
      (∀ rule ∈ routingRules, ∀ r ∈ emittedForRule ext meshName upstreams rule,
        (rule.RequestMatchers = [] → r.pathPrefix = some "/") ∧
        ∀ m rest, rule.RequestMatchers = m :: rest →
          (∀ p, m.PathSpecifier = some (.Matcher_Prefix p) → r.pathPrefix = some p) ∧
          ((∀ p, m.PathSpecifier ≠ some (.Matcher_Prefix p)) → r.pathPrefix = some "/")) ∧
      ∀ (before after : List RoutingRule) (rule : RoutingRule) (m : Matcher)
        (rest rest' : List Matcher),
        routesFromRules ext meshName upstreams
            (before ++ { rule with RequestMatchers := m :: rest } :: after) =
          routesFromRules ext meshName upstreams
            (before ++ { rule with RequestMatchers := m :: rest' } :: after) := by
  refine ⟨_, routesFromRules_ok ext host hostOf meshName upstreams routingRules hh hres,
    sortSliceStable_perm _ _, ?_, ?_⟩
  · intro rule hrule r hr
    have hpfx : r.pathPrefix = some (pathPrefix rule.RequestMatchers) := by
      cases hts : rule.TrafficShifting.isSome with
      | false =>
        unfold emittedForRule at hr
        rw [routesForRule_of_unset ext meshName upstreams rule hts] at hr
        simp at hr
      | true =>
        unfold emittedForRule at hr
        rw [routesForRule_ok ext meshName upstreams hostOf rule hts (hres rule hrule)] at hr
        obtain ⟨h, _, rfl⟩ := List.mem_map.1 hr
        rfl
    rw [hpfx]
    refine ⟨fun h => by rw [h]; rfl, ?_⟩
    intro m rest hm
    rw [hm]
    refine ⟨fun p hp => by simp [pathPrefix, hp], fun hne => ?_⟩
    show some (match m.PathSpecifier with
      | some (PathSpecifier.Matcher_Prefix p) => p
      | _ => "/") = some "/"
    split
    · exact absurd (by assumption) (hne _)
    · rfl
  · intro before after rule m rest rest'
    unfold routesFromRules
    rw [collectRoutes_congr ext meshName upstreams
      (before ++ { rule with RequestMatchers := m :: rest } :: after)
      (before ++ { rule with RequestMatchers := m :: rest' } :: after) []]
    simp only [List.map_append, List.map_cons]
    rw [routesForRule_matchers_tail ext meshName upstreams rule m rest rest']

/-- C7 at the sample rule, whose first matcher is the prefix `/api` and whose second is an
exact matcher: the route has path `/api`. -/
theorem routes_path_from_first_matcher_witness :
    (∃ routes, routesFromRules sampleExt "m" sampleUpstreams
        [sampleRuleUnshifted, sampleRule] = .ok routes ∧
      routes.Perm ([sampleRuleUnshifted, sampleRule].flatMap
        (emittedForRule sampleExt "m" sampleUpstreams)) ∧
      (∀ rule ∈ [sampleRuleUnshifted, sampleRule],
        ∀ r ∈ emittedForRule sampleExt "m" sampleUpstreams rule,
          (rule.RequestMatchers = [] → r.pathPrefix = some "/") ∧
          ∀ m rest, rule.RequestMatchers = m :: rest →
            (∀ p, m.PathSpecifier = some (.Matcher_Prefix p) → r.pathPrefix = some p) ∧
            ((∀ p, m.PathSpecifier ≠ some (.Matcher_Prefix p)) → r.pathPrefix = some "/")) ∧
      ∀ (before after : List RoutingRule) (rule : RoutingRule) (m : Matcher)
        (rest rest' : List Matcher),
        routesFromRules sampleExt "m" sampleUpstreams
            (before ++ { rule with RequestMatchers := m :: rest } :: after) =
          routesFromRules sampleExt "m" sampleUpstreams
            (before ++ { rule with RequestMatchers := m :: rest' } :: after)) ∧
    (emittedForRule sampleExt "m" sampleUpstreams sampleRule).map
        CreateRouteInput.pathPrefix = [some "/api"] :=
  ⟨routes_path_from_first_matcher sampleExt SampleUpstream.host
    (sampleHostOf sampleUpstreams) "m" sampleUpstreams [sampleRuleUnshifted, sampleRule]
    (fun _ _ => rfl) sampleRules_resolve, by decide⟩

/-! ## Resource names -/

/-- C8 at the input `svcA:8080`: the node and the router emitted for host `svcA` carry no
resource name (`VirtualNodeName`, `VirtualRouterName` are unset), and the by-name comparison
of `reconcileVirtualNode` has no value on that node. -/
theorem virtualNode_name_unset :
    virtualNodesFromUpstreams sampleExt id "m" [sampleUpstream "a1" "svcA" 8080] =
      .ok [virtualNodeForHost "m" ["svcA"] ("svcA", [8080])] ∧
    (virtualNodeForHost "m" ["svcA"] ("svcA", [8080])).dnsName = some "svcA" ∧
    (virtualNodeForHost "m" ["svcA"] ("svcA", [8080])).VirtualNodeName = none ∧
    virtualRoutersFromUpstreams sampleExt "m" [sampleUpstream "a1" "svcA" 8080] =
      .ok [virtualRouterForHost "m" "svcA"] ∧
    (virtualRouterForHost "m" "svcA").VirtualRouterName = none ∧
    nameMatches { Arn := none, MeshName := some "m", VirtualNodeName := some "svcA" }
      (virtualNodeForHost "m" ["svcA"] ("svcA", [8080])) = none :=
  ⟨rfl, rfl, rfl, rfl, rfl, rfl⟩

/-! ## Output order -/

/-- C9: whatever the input, a sequence returned by `virtualNodesFromUpstreams`,
`virtualRoutersFromUpstreams` or `routesFromRules` is in non-decreasing order of the string
forms of its elements and is a permutation of the elements the loops emitted before the
sort. -/
theorem translator_output_sorted {U : Type} (ext : Externals U)
    (visit : List (String × List Nat) → List (String × List Nat))
    (meshName : String) (upstreams : List U) (routingRules : List RoutingRule) :
    (∀ nodes, virtualNodesFromUpstreams ext visit meshName upstreams = .ok nodes →
      nodes.Pairwise (fun a b => stringLE (ext.nodeString a) (ext.nodeString b)) ∧
      ∃ portsByHost allHosts,
        collectPortsByHost ext upstreams [] [] = .ok (portsByHost, allHosts) ∧
        nodes.Perm (virtualNodesUnsorted visit meshName portsByHost allHosts)) ∧
    (∀ routers, virtualRoutersFromUpstreams ext meshName upstreams = .ok routers →
      routers.Pairwise (fun a b => stringLE (ext.routerString a) (ext.routerString b)) ∧
      ∃ allHosts, collectAllHosts ext upstreams [] = .ok allHosts ∧
        routers.Perm (allHosts.map (virtualRouterForHost meshName))) ∧
    (∀ routes, routesFromRules ext meshName upstreams routingRules = .ok routes →
      routes.Pairwise (fun a b => stringLE (ext.routeString a) (ext.routeString b)) ∧
      ∃ emitted, collectRoutes ext meshName upstreams routingRules [] = .ok emitted ∧
        routes.Perm emitted) := by
  refine ⟨?_, ?_, ?_⟩
  · intro nodes h
    unfold virtualNodesFromUpstreams at h
    split at h
    · cases h
    · rename_i portsByHost allHosts hc
      cases h
      exact ⟨sortSliceStable_sorted ext.nodeString _, portsByHost, allHosts, hc,
        sortSliceStable_perm _ _⟩
  · intro routers h
    unfold virtualRoutersFromUpstreams at h
    split at h
    · cases h
    · rename_i allHosts hc
      cases h
      exact ⟨sortSliceStable_sorted ext.routerString _, allHosts, hc,
        sortSliceStable_perm _ _⟩
  · intro routes h
    unfold routesFromRules at h
    split at h
    · cases h
    · split at h
      · cases h
      · rename_i emitted hc
        cases h
        exact ⟨sortSliceStable_sorted ext.routeString _, emitted, hc,
          sortSliceStable_perm _ _⟩

/-- C9 at sample inputs: from `svcC:80`, `svcB:80` and a rule with destinations `svcC`,
`svcB`, the nodes, routers and routes come out with `svcB` first. -/
theorem translator_output_sorted_witness :
    ([virtualNodeForHost "m" ["svcC", "svcB"] ("svcB", [80]),
        virtualNodeForHost "m" ["svcC", "svcB"] ("svcC", [80])].Pairwise
        (fun a b => stringLE (sampleExt.nodeString a) (sampleExt.nodeString b)) ∧
      ∃ portsByHost allHosts,
        collectPortsByHost sampleExt sampleUpstreamsRev [] [] = .ok (portsByHost, allHosts) ∧
        [virtualNodeForHost "m" ["svcC", "svcB"] ("svcB", [80]),
          virtualNodeForHost "m" ["svcC", "svcB"] ("svcC", [80])].Perm
          (virtualNodesUnsorted id "m" portsByHost allHosts)) ∧
    ([virtualRouterForHost "m" "svcB", virtualRouterForHost "m" "svcC"].Pairwise
        (fun a b => stringLE (sampleExt.routerString a) (sampleExt.routerString b)) ∧
      ∃ allHosts, collectAllHosts sampleExt sampleUpstreamsRev [] = .ok allHosts ∧
        [virtualRouterForHost "m" "svcB", virtualRouterForHost "m" "svcC"].Perm
          (allHosts.map (virtualRouterForHost "m"))) ∧
    ([routeForHost "m" sampleRuleSplit "/"
          [targetFor "svcB" { Upstream := sampleRef "b", Weight := 50 },
            targetFor "svcC" { Upstream := sampleRef "c", Weight := 50 }] "svcB",
        routeForHost "m" sampleRuleSplit "/"
          [targetFor "svcB" { Upstream := sampleRef "b", Weight := 50 },
            targetFor "svcC" { Upstream := sampleRef "c", Weight := 50 }] "svcC"].Pairwise
        (fun a b => stringLE (sampleExt.routeString a) (sampleExt.routeString b)) ∧
      ∃ emitted,
        collectRoutes sampleExt "m" sampleUpstreamsRev [sampleRuleSplit] [] = .ok emitted ∧
        [routeForHost "m" sampleRuleSplit "/"
            [targetFor "svcB" { Upstream := sampleRef "b", Weight := 50 },
              targetFor "svcC" { Upstream := sampleRef "c", Weight := 50 }] "svcB",
          routeForHost "m" sampleRuleSplit "/"
            [targetFor "svcB" { Upstream := sampleRef "b", Weight := 50 },
              targetFor "svcC" { Upstream := sampleRef "c", Weight := 50 }] "svcC"].Perm
          emitted) :=
  ⟨(translator_output_sorted sampleExt id "m" sampleUpstreamsRev [sampleRuleSplit]).1 _ rfl,
    (translator_output_sorted sampleExt id "m" sampleUpstreamsRev [sampleRuleSplit]).2.1 _ rfl,
    (translator_output_sorted sampleExt id "m" sampleUpstreamsRev [sampleRuleSplit]).2.2 _ rfl⟩

/-! ## Determinism -/

theorem collectPortsByHost_nodup {U : Type} (ext : Externals U) :
    ∀ (upstreams : List U) (m : List (String × List Nat)) (allHosts : List String)
      (m' : List (String × List Nat)) (allHosts' : List String),
      collectPortsByHost ext upstreams m allHosts = .ok (m', allHosts') →
      (m.map Prod.fst).Nodup → (m'.map Prod.fst).Nodup
  | [], m, allHosts, m', allHosts', h, hn => by
    simp only [collectPortsByHost, Except.ok.injEq, Prod.mk.injEq] at h
    exact h.1 ▸ hn
  | us :: rest, m, allHosts, m', allHosts', h, hn => by
    unfold collectPortsByHost at h
    split at h
    · cases h
    · split at h
      · cases h
      · exact collectPortsByHost_nodup ext rest _ _ m' allHosts' h
          (nodup_keys_appendPort _ _ m hn)

theorem entry_eq_of_key_eq (m : List (String × List Nat)) (hn : (m.map Prod.fst).Nodup)
    (e e' : String × List Nat) (he : e ∈ m) (he' : e' ∈ m) (h : e.1 = e'.1) : e = e' := by
  have h2 : e.2 = e'.2 := by
    rw [← portsAt_of_mem m hn e he, ← portsAt_of_mem m hn e' he', h]
  exact Prod.ext h h2

/-- C10: when the string form tells apart the nodes built for different hosts, two runs of
`virtualNodesFromUpstreams` on the same input that visit the ports-by-host map in any two
orders return the same result; `virtualRoutersFromUpstreams` and `routesFromRules` visit no
map, and two runs of either on the same input return the same result. -/
theorem translation_deterministic {U : Type} (ext : Externals U)
    (visit visit' : List (String × List Nat) → List (String × List Nat))
    (hvisit : ∀ m, (visit m).Perm m) (hvisit' : ∀ m, (visit' m).Perm m)
    (meshName : String) (upstreams : List U) (routingRules : List RoutingRule)
    (hsep : ∀ (allHosts : List String) (e e' : String × List Nat), e.1 ≠ e'.1 →
      ext.nodeString (virtualNodeForHost meshName allHosts e) ≠
        ext.nodeString (virtualNodeForHost meshName allHosts e')) :
    virtualNodesFromUpstreams ext visit meshName upstreams =
        virtualNodesFromUpstreams ext visit' meshName upstreams ∧
      (∀ routers routers', virtualRoutersFromUpstreams ext meshName upstreams = routers →
        virtualRoutersFromUpstreams ext meshName upstreams = routers' → routers = routers') ∧
      ∀ routes routes', routesFromRules ext meshName upstreams routingRules = routes →
        routesFromRules ext meshName upstreams routingRules = routes' → routes = routes' := by
  refine ⟨?_, fun _ _ h h' => h.symm.trans h', fun _ _ h h' => h.symm.trans h'⟩
  unfold virtualNodesFromUpstreams
  cases hc : collectPortsByHost ext upstreams [] [] with
  | error err => rfl
  | ok res =>
    obtain ⟨m, allHosts⟩ := res
    simp only
    have hn := collectPortsByHost_nodup ext upstreams [] [] m allHosts hc List.nodup_nil
    congr 1
    apply sorted_perm_unique ext.nodeString
    · refine (sortSliceStable_perm _ _).trans (List.Perm.trans ?_ (sortSliceStable_perm _ _).symm)
      unfold virtualNodesUnsorted
      exact ((hvisit m).trans (hvisit' m).symm).map _
    · intro a ha b hb hab
      obtain ⟨e, he, rfl⟩ := (mem_virtualNodes ext visit hvisit meshName m allHosts a).1 ha
      obtain ⟨e', he', rfl⟩ := (mem_virtualNodes ext visit hvisit meshName m allHosts b).1 hb
      by_cases hk : e.1 = e'.1
      · rw [entry_eq_of_key_eq m hn e e' he he' hk]
      · exact absurd hab (hsep allHosts e e' hk)
    · exact sortSliceStable_sorted ext.nodeString _
    · exact sortSliceStable_sorted ext.nodeString _

/-- C10 at a sample input: visiting the map front to back or back to front gives the same
nodes. -/
theorem translation_deterministic_witness :
    virtualNodesFromUpstreams sampleExt id "m" sampleUpstreamsRev =
        virtualNodesFromUpstreams sampleExt List.reverse "m" sampleUpstreamsRev ∧
      (∀ routers routers', virtualRoutersFromUpstreams sampleExt "m" sampleUpstreamsRev = routers →
        virtualRoutersFromUpstreams sampleExt "m" sampleUpstreamsRev = routers' →
          routers = routers') ∧
      ∀ routes routes',
        routesFromRules sampleExt "m" sampleUpstreamsRev [sampleRuleSplit] = routes →
        routesFromRules sampleExt "m" sampleUpstreamsRev [sampleRuleSplit] = routes' →
          routes = routes' :=
  translation_deterministic sampleExt id List.reverse (fun _ => List.Perm.refl _)
    (fun m => List.reverse_perm m) "m" sampleUpstreamsRev [sampleRuleSplit]
    (fun _ _ _ h => h)

/-! ## Virtual nodes: backends -/

/-- C11: when every upstream resolves, every node `virtualNodesFromUpstreams` returns has
the same backend list, the hosts of all upstreams in input order, and a host is in that list
exactly when it is the host of some upstream of the input. -/
theorem virtualNodes_backends {U : Type} (ext : Externals U) (host : U → String)
    (port : U → Nat) (visit : List (String × List Nat) → List (String × List Nat))
    (hvisit : ∀ m, (visit m).Perm m) (meshName : String) (upstreams : List U)
    (hh : ∀ us ∈ upstreams, ext.GetHostForUpstream us = .ok (host us))
    (hp : ∀ us ∈ upstreams, ext.GetPortForUpstream us = .ok (port us)) :
    ∃ nodes, virtualNodesFromUpstreams ext visit meshName upstreams = .ok nodes ∧
      ∀ n ∈ nodes, n.backends = upstreams.map host ∧
        ∀ h, h ∈ n.backends ↔ ∃ us ∈ upstreams, ext.GetHostForUpstream us = .ok h := by
  refine ⟨_, virtualNodesFromUpstreams_ok ext host port visit meshName upstreams hh hp, ?_⟩
  intro n hn
  obtain ⟨e, _, rfl⟩ := (mem_virtualNodes ext visit hvisit meshName _ _ _).1 hn
  refine ⟨rfl, fun h => ?_⟩
  show h ∈ upstreams.map host ↔ _
  rw [List.mem_map]
  constructor
  · rintro ⟨us, hus, rfl⟩
    exact ⟨us, hus, hh us hus⟩
  · rintro ⟨us, hus, hres⟩
    rw [hh us hus] at hres
    exact ⟨us, hus, Except.ok.inj hres⟩

/-- C11 at a sample input: both nodes of `svcC:80`, `svcB:80` list the backends `svcC`,
`svcB`. -/
theorem virtualNodes_backends_witness :
    ∃ nodes, virtualNodesFromUpstreams sampleExt id "m" sampleUpstreamsRev = .ok nodes ∧
      ∀ n ∈ nodes, n.backends = sampleUpstreamsRev.map SampleUpstream.host ∧
        ∀ h, h ∈ n.backends ↔
          ∃ us ∈ sampleUpstreamsRev, sampleExt.GetHostForUpstream us = .ok h :=
  virtualNodes_backends sampleExt SampleUpstream.host SampleUpstream.port id
    (fun _ => List.Perm.refl _) "m" sampleUpstreamsRev (fun _ _ => rfl) (fun _ _ => rfl)

/-! ## Reconciler: the mesh -/

/-- C12: for a desired mesh with a name, `reconcileMesh` issues describe-mesh and then:
when it succeeds, nothing more, and returns nil; when it fails with the not-found code,
create-mesh once, for the desired mesh, and returns what that call returned; when it fails
with any other error, nothing more, and returns an error. -/
theorem reconcileMesh_cases {σ : Type} (client : Client σ) (s : σ) (mesh : CreateMeshInput)
    (name : String) (hname : mesh.MeshName = some name) :
    ((client.DescribeMesh s (some name)).1 = .ok () →
      (reconcileMesh client s mesh).calls = [.DescribeMesh (some name)] ∧
      (reconcileMesh client s mesh).outcome = .returned none) ∧
    (∀ err, (client.DescribeMesh s (some name)).1 = .error err →
      err.code = some ErrCodeNotFoundException →
      (reconcileMesh client s mesh).calls = [.DescribeMesh (some name), .CreateMesh mesh] ∧
      (reconcileMesh client s mesh).outcome =
        .returned (match (client.CreateMesh (client.DescribeMesh s (some name)).2 mesh).1 with
          | .ok _ => none
          | .error err' => some err')) ∧
    (∀ err, (client.DescribeMesh s (some name)).1 = .error err →
      err.code ≠ some ErrCodeNotFoundException →
      (reconcileMesh client s mesh).calls = [.DescribeMesh (some name)] ∧
      ∃ failure, (reconcileMesh client s mesh).outcome = .returned (some failure)) := by
  refine ⟨?_, ?_, ?_⟩
  · intro h
    unfold reconcileMesh
    simp [hname, h]
  · intro err h hcode
    unfold reconcileMesh
    simp only [hname, h, hcode, if_true]
    cases (client.CreateMesh (client.DescribeMesh s (some name)).2 mesh).1 with
    | ok _ => simp
    | error err' => simp
  · intro err h hcode
    unfold reconcileMesh
    simp [hname, h, hcode, Wrapf]

/-- C12 at sample inputs: the desired mesh `m` against a provider with no mesh is created
with one create-mesh call. -/
theorem reconcileMesh_cases_witness :
    (((remoteClient.DescribeMesh { meshes := [], nodes := [] } (some "m")).1 = .ok () →
      (reconcileMesh remoteClient { meshes := [], nodes := [] } sampleMesh).calls =
        [.DescribeMesh (some "m")] ∧
      (reconcileMesh remoteClient { meshes := [], nodes := [] } sampleMesh).outcome =
        .returned none) ∧
    (∀ err, (remoteClient.DescribeMesh { meshes := [], nodes := [] } (some "m")).1 =
        .error err →
      err.code = some ErrCodeNotFoundException →
      (reconcileMesh remoteClient { meshes := [], nodes := [] } sampleMesh).calls =
        [.DescribeMesh (some "m"), .CreateMesh sampleMesh] ∧
      (reconcileMesh remoteClient { meshes := [], nodes := [] } sampleMesh).outcome =
        .returned (match (remoteClient.CreateMesh
            (remoteClient.DescribeMesh { meshes := [], nodes := [] } (some "m")).2
            sampleMesh).1 with
          | .ok _ => none
          | .error err' => some err')) ∧
    (∀ err, (remoteClient.DescribeMesh { meshes := [], nodes := [] } (some "m")).1 =
        .error err →
      err.code ≠ some ErrCodeNotFoundException →
      (reconcileMesh remoteClient { meshes := [], nodes := [] } sampleMesh).calls =
        [.DescribeMesh (some "m")] ∧
      ∃ failure, (reconcileMesh remoteClient { meshes := [], nodes := [] } sampleMesh).outcome =
        .returned (some failure))) ∧
    (reconcileMesh remoteClient { meshes := [], nodes := [] } sampleMesh).calls =
      [.DescribeMesh (some "m"), .CreateMesh sampleMesh] ∧
    (reconcileMesh remoteClient sampleRemote sampleMesh).calls = [.DescribeMesh (some "m")] ∧
    (reconcileMesh deniedClient sampleRemote sampleMesh).calls = [.DescribeMesh (some "m")] ∧
    (reconcileMesh deniedClient sampleRemote sampleMesh).outcome =
      .returned (some { code := none, text := "failed to check existence of mesh m: denied" }) :=
  ⟨reconcileMesh_cases remoteClient { meshes := [], nodes := [] } sampleMesh "m" rfl,
    rfl, rfl, rfl, by decide⟩

/-! ## Reconciler: one virtual node -/

/-- C13 at a sample input: the provider has a node `svcA` whose spec differs from the
desired one and every call succeeds; `reconcileVirtualNode` describes and updates the node
and then, the loop over, also issues a create call for it. -/
theorem reconcileVirtualNode_update_then_create :
    (reconcileVirtualNode sampleSpecString remoteClient sampleRemote
        (sampleNode "svcA" ["svcA", "svcB"]) (listedRefs sampleRemote.nodes (some "m"))).calls =
      [.DescribeVirtualNode (some "m") (some "svcA"),
        .UpdateVirtualNode (some "m") (some "svcA") (sampleNode "svcA" ["svcA", "svcB"]).Spec,
        .CreateVirtualNode (sampleNode "svcA" ["svcA", "svcB"])] ∧
    (reconcileVirtualNode sampleSpecString remoteClient sampleRemote
        (sampleNode "svcA" ["svcA", "svcB"]) (listedRefs sampleRemote.nodes (some "m"))).outcome =
      .returned none ∧
    listedRefs sampleRemote.nodes (some "m") =
      [{ Arn := none, MeshName := some "m", VirtualNodeName := some "svcA" }] ∧
    (sampleNode "svcA" ["svcA"]).Spec.map sampleSpecString ≠
      (sampleNode "svcA" ["svcA", "svcB"]).Spec.map sampleSpecString := by
  refine ⟨by rfl, by rfl, by rfl, by decide⟩

theorem reconcileVirtualNodeFrom_no_match {σ : Type} (specString : VirtualNodeSpec → String)
    (client : Client σ) (desiredVNode : CreateVirtualNodeInput) (name : String)
    (hname : desiredVNode.VirtualNodeName = some name) :
    ∀ (existing : List VirtualNodeRef) (s : σ),
      (∀ node ∈ existing, StringValue node.VirtualNodeName ≠ name) →
      reconcileVirtualNodeFrom specString client desiredVNode existing s =
        reconcileVirtualNodeFrom specString client desiredVNode [] s
  | [], _, _ => rfl
  | node :: rest, s, h => by
    have hne : StringValue node.VirtualNodeName ≠ name := h node (List.mem_cons_self _ _)
    have hm : nameMatches node desiredVNode = some false := by
      simp [nameMatches, hname, hne]
    conv => lhs; unfold reconcileVirtualNodeFrom
    simp only [hm]
    exact reconcileVirtualNodeFrom_no_match specString client desiredVNode name hname rest s
      (fun x hx => h x (List.mem_cons_of_mem _ hx))

theorem reconcileVirtualNodeFrom_match_equal {σ : Type}
    (specString : VirtualNodeSpec → String) (client : Client σ)
    (desiredVNode : CreateVirtualNodeInput) (name : String)
    (hname : desiredVNode.VirtualNodeName = some name) (s : σ)
    (originalVNode : DescribeVirtualNodeOutput)
    (hdesc : (client.DescribeVirtualNode s desiredVNode.MeshName (some name)).1 =
      .ok originalVNode)
    (heq : specsMatch specString originalVNode desiredVNode = some true) :
    ∀ existing : List VirtualNodeRef,
      (∃ node ∈ existing, StringValue node.VirtualNodeName = name) →
      reconcileVirtualNodeFrom specString client desiredVNode existing s =
        ⟨.returned none, (client.DescribeVirtualNode s desiredVNode.MeshName (some name)).2,
          [.DescribeVirtualNode desiredVNode.MeshName (some name)]⟩
  | [], h => by
    obtain ⟨node, hnode, _⟩ := h
    simp at hnode
  | node :: rest, h => by
    conv => lhs; unfold reconcileVirtualNodeFrom
    by_cases hm : StringValue node.VirtualNodeName = name
    · have hm' : nameMatches node desiredVNode = some true := by
        simp [nameMatches, hname, hm]
      simp only [hm', hname, hdesc, heq]
    · have hm' : nameMatches node desiredVNode = some false := by
        simp [nameMatches, hname, hm]
      simp only [hm']
      apply reconcileVirtualNodeFrom_match_equal specString client desiredVNode name hname s
        originalVNode hdesc heq rest
      obtain ⟨node', hnode', hn'⟩ := h
      rcases List.mem_cons.1 hnode' with rfl | hmem
      · exact absurd hn' hm
      · exact ⟨node', hmem, hn'⟩

/-- C14: for a desired node with a name, when every remote call succeeds: if no existing
node has that name, `reconcileVirtualNode` issues one create call for the desired node and
nothing else; if an existing node has that name and the spec the provider describes has the
same string form as the desired spec, it issues the describe call alone, so neither create
nor update; it returns nil in both cases. -/
theorem reconcileVirtualNode_create_or_skip {σ : Type}
    (specString : VirtualNodeSpec → String) (client : Client σ) (s : σ)
    (desiredVNode : CreateVirtualNodeInput) (existing : List VirtualNodeRef) (name : String)
    (hname : desiredVNode.VirtualNodeName = some name) :
    ((∀ node ∈ existing, StringValue node.VirtualNodeName ≠ name) →
      (client.CreateVirtualNode s desiredVNode).1 = .ok () →
      (reconcileVirtualNode specString client s desiredVNode existing).calls =
        [.CreateVirtualNode desiredVNode] ∧
      (reconcileVirtualNode specString client s desiredVNode existing).outcome =
        .returned none) ∧
    ((∃ node ∈ existing, StringValue node.VirtualNodeName = name) →
      ∀ originalVNode,
        (client.DescribeVirtualNode s desiredVNode.MeshName (some name)).1 =
          .ok originalVNode →
        specsMatch specString originalVNode desiredVNode = some true →
        (reconcileVirtualNode specString client s desiredVNode existing).calls =
          [.DescribeVirtualNode desiredVNode.MeshName (some name)] ∧
        (reconcileVirtualNode specString client s desiredVNode existing).outcome =
          .returned none) := by
  constructor
  · intro hno hcreate
    unfold reconcileVirtualNode
    rw [reconcileVirtualNodeFrom_no_match specString client desiredVNode name hname existing s
      hno]
    unfold reconcileVirtualNodeFrom
    simp [hcreate]
  · intro hex originalVNode hdesc heq
    unfold reconcileVirtualNode
    rw [reconcileVirtualNodeFrom_match_equal specString client desiredVNode name hname s
      originalVNode hdesc heq existing hex]
    exact ⟨rfl, rfl⟩

/-- C14 at sample inputs: a desired node `svcB` that the provider does not have is created,
and a desired node `svcA` equal to the provider's is left alone. -/
theorem reconcileVirtualNode_create_or_skip_witness :
    (reconcileVirtualNode sampleSpecString remoteClient sampleRemote
        (sampleNode "svcB" ["svcA"]) (listedRefs sampleRemote.nodes (some "m"))).calls =
      [.CreateVirtualNode (sampleNode "svcB" ["svcA"])] ∧
    (reconcileVirtualNode sampleSpecString remoteClient sampleRemote
        (sampleNode "svcB" ["svcA"]) (listedRefs sampleRemote.nodes (some "m"))).outcome =
      .returned none ∧
    (reconcileVirtualNode sampleSpecString remoteClient sampleRemote
        (sampleNode "svcA" ["svcA"]) (listedRefs sampleRemote.nodes (some "m"))).calls =
      [.DescribeVirtualNode (some "m") (some "svcA")] ∧
    (reconcileVirtualNode sampleSpecString remoteClient sampleRemote
        (sampleNode "svcA" ["svcA"]) (listedRefs sampleRemote.nodes (some "m"))).outcome =
      .returned none :=
  ⟨((reconcileVirtualNode_create_or_skip sampleSpecString remoteClient sampleRemote
      (sampleNode "svcB" ["svcA"]) (listedRefs sampleRemote.nodes (some "m")) "svcB" rfl).1
      (by decide) rfl).1,
    ((reconcileVirtualNode_create_or_skip sampleSpecString remoteClient sampleRemote
      (sampleNode "svcB" ["svcA"]) (listedRefs sampleRemote.nodes (some "m")) "svcB" rfl).1
      (by decide) rfl).2,
    ((reconcileVirtualNode_create_or_skip sampleSpecString remoteClient sampleRemote
      (sampleNode "svcA" ["svcA"]) (listedRefs sampleRemote.nodes (some "m")) "svcA" rfl).2
      (by decide) _ rfl (by decide)).1,
    ((reconcileVirtualNode_create_or_skip sampleSpecString remoteClient sampleRemote
      (sampleNode "svcA" ["svcA"]) (listedRefs sampleRemote.nodes (some "m")) "svcA" rfl).2
      (by decide) _ rfl (by decide)).2⟩

/-! ## Reconciler: the whole desired state -/

/-- C16: whatever the desired nodes, routers and routes, the remote calls of `resyncState`
are those of `reconcileMesh`, each a describe-mesh or a create-mesh of the desired mesh; no
call is issued for a node, a router or a route. -/
theorem resyncState_calls_mesh_only {σ : Type} (client : Client σ) (s : σ)
    (mesh : CreateMeshInput) (vNodes : List CreateVirtualNodeInput)
    (vRouters : List CreateVirtualRouterInput) (routes : List CreateRouteInput) :
    (resyncState client s mesh vNodes vRouters routes).calls =
        (reconcileMesh client s mesh).calls ∧
      ∀ c ∈ (resyncState client s mesh vNodes vRouters routes).calls,
        c = .DescribeMesh mesh.MeshName ∨ c = .CreateMesh mesh := by
  have h1 : (resyncState client s mesh vNodes vRouters routes).calls =
      (reconcileMesh client s mesh).calls := by
    unfold resyncState
    simp only
    split <;> rfl
  refine ⟨h1, ?_⟩
  rw [h1]
  unfold reconcileMesh
  simp only
  intro c hc
  split at hc
  · simp at hc
    exact Or.inl hc
  · split at hc
    · split at hc <;> simpa using hc
    · split at hc <;> simp at hc <;> exact Or.inl hc

/-! ## Facts about the provider state -/

theorem nodeSpecAt_setNodeSpec_self (key : NodeKey) (spec : Option VirtualNodeSpec) :
    ∀ nodes : List (NodeKey × Option VirtualNodeSpec),
      nodeSpecAt (setNodeSpec nodes key spec) key = some spec
  | [] => by simp [setNodeSpec, nodeSpecAt]
  | (k, old) :: rest => by
    unfold setNodeSpec
    by_cases e : k = key
    · simp [e, nodeSpecAt]
    · simp [e, nodeSpecAt, nodeSpecAt_setNodeSpec_self key spec rest]

theorem nodeSpecAt_setNodeSpec_other (key key' : NodeKey) (spec : Option VirtualNodeSpec)
    (hne : key' ≠ key) :
    ∀ nodes : List (NodeKey × Option VirtualNodeSpec),
      nodeSpecAt (setNodeSpec nodes key spec) key' = nodeSpecAt nodes key'
  | [] => by
    have e : ¬ key = key' := fun h => hne h.symm
    simp [setNodeSpec, nodeSpecAt, e]
  | (k, old) :: rest => by
    unfold setNodeSpec
    by_cases e : k = key
    · have e' : ¬ k = key' := fun h => hne (h.symm.trans e)
      simp [e, nodeSpecAt]
      rw [← e]
      simp [e']
    · by_cases e2 : k = key'
      · subst e2
        simp [e, nodeSpecAt]
      · simp [e, e2, nodeSpecAt, nodeSpecAt_setNodeSpec_other key key' spec hne rest]

theorem listedRefs_of_nodeSpecAt (meshName name : Option String) :
    ∀ (nodes : List (NodeKey × Option VirtualNodeSpec)) (spec : Option VirtualNodeSpec),
      nodeSpecAt nodes (meshName, name) = some spec →
      ∃ ref ∈ listedRefs nodes meshName, ref.VirtualNodeName = name
  | [], _, h => by simp [nodeSpecAt] at h
  | (k, old) :: rest, spec, h => by
    unfold nodeSpecAt at h
    by_cases e : k = (meshName, name)
    · refine ⟨{ Arn := none, MeshName := meshName, VirtualNodeName := name }, ?_, rfl⟩
      simp [listedRefs, e]
    · simp only [e, if_false] at h
      obtain ⟨ref, href, hn⟩ := listedRefs_of_nodeSpecAt meshName name rest spec h
      refine ⟨ref, ?_, hn⟩
      unfold listedRefs at href ⊢
      rw [List.filter_cons]
      split
      · exact List.mem_cons_of_mem _ href
      · exact href

/-! ## Facts about a reconcile pass over the provider state -/

theorem remoteClient_describe_some (s : Remote) (meshName name : Option String)
    (spec : Option VirtualNodeSpec) (h : nodeSpecAt s.nodes (meshName, name) = some spec) :
    remoteClient.DescribeVirtualNode s meshName name =
      (.ok { VirtualNode := some { MeshName := meshName, Spec := spec, VirtualNodeName := name } },
        s) := by
  simp [remoteClient, h]

theorem remoteClient_describe_none (s : Remote) (meshName name : Option String)
    (h : nodeSpecAt s.nodes (meshName, name) = none) :
    remoteClient.DescribeVirtualNode s meshName name =
      (.error (notFound "virtual node"), s) := by
  simp [remoteClient, h]

theorem remoteClient_update_some (s : Remote) (meshName name : Option String)
    (old spec : Option VirtualNodeSpec) (h : nodeSpecAt s.nodes (meshName, name) = some old) :
    remoteClient.UpdateVirtualNode s meshName name spec =
      (.ok (), { s with nodes := setNodeSpec s.nodes (meshName, name) spec }) := by
  simp [remoteClient, h]

theorem remoteClient_create (s : Remote) (d : CreateVirtualNodeInput) :
    remoteClient.CreateVirtualNode s d =
      (.ok (), { s with nodes := setNodeSpec s.nodes (d.MeshName, d.VirtualNodeName) d.Spec }) :=
  rfl

theorem reconcileVirtualNodeFrom_settles (specString : VirtualNodeSpec → String)
    (d : CreateVirtualNodeInput) (name : String) (hname : d.VirtualNodeName = some name)
    (sp : VirtualNodeSpec) (hspec : d.Spec = some sp) :
    ∀ (existing : List VirtualNodeRef) (s : Remote),
      (reconcileVirtualNodeFrom specString remoteClient d existing s).outcome =
        .returned none →
      Settled specString (reconcileVirtualNodeFrom specString remoteClient d existing s).state d ∧
      (reconcileVirtualNodeFrom specString remoteClient d existing s).state.meshes = s.meshes ∧
      ∀ k, k ≠ nodeKey d →
        nodeSpecAt (reconcileVirtualNodeFrom specString remoteClient d existing s).state.nodes k =
          nodeSpecAt s.nodes k
  | [], s, _ => by
    have hrun : reconcileVirtualNodeFrom specString remoteClient d [] s =
        ⟨.returned none,
          { s with nodes := setNodeSpec s.nodes (d.MeshName, d.VirtualNodeName) d.Spec },
          [.CreateVirtualNode d]⟩ := by
      simp only [reconcileVirtualNodeFrom, remoteClient_create]
    rw [hrun]
    refine ⟨⟨d.Spec, nodeSpecAt_setNodeSpec_self _ _ _, ?_⟩, rfl,
      fun k hk => nodeSpecAt_setNodeSpec_other _ _ _ hk _⟩
    simp [specsMatch, hspec]
  | node :: rest, s, h => by
    cases hm : nameMatches node d with
    | none => simp [nameMatches, hname] at hm
    | some b =>
      cases b with
      | false =>
        have hrun : reconcileVirtualNodeFrom specString remoteClient d (node :: rest) s =
            reconcileVirtualNodeFrom specString remoteClient d rest s := by
          conv => lhs; unfold reconcileVirtualNodeFrom
          simp only [hm]
        rw [hrun] at h ⊢
        exact reconcileVirtualNodeFrom_settles specString d name hname sp hspec rest s h
      | true =>
        cases hlook : nodeSpecAt s.nodes (d.MeshName, d.VirtualNodeName) with
        | none =>
          exfalso
          unfold reconcileVirtualNodeFrom at h
          simp [hm, remoteClient_describe_none s _ _ hlook, Wrapf] at h
        | some spec =>
          cases hs : specsMatch specString
              { VirtualNode := some
                  { MeshName := d.MeshName, Spec := spec, VirtualNodeName := d.VirtualNodeName } }
              d with
          | none =>
            exfalso
            unfold reconcileVirtualNodeFrom at h
            simp [hm, remoteClient_describe_some s _ _ spec hlook, hs] at h
          | some eq =>
            cases eq with
            | true =>
              have hrun : reconcileVirtualNodeFrom specString remoteClient d (node :: rest) s =
                  ⟨.returned none, s,
                    [.DescribeVirtualNode d.MeshName d.VirtualNodeName]⟩ := by
                conv => lhs; unfold reconcileVirtualNodeFrom
                simp only [hm, remoteClient_describe_some s _ _ spec hlook, hs]
              rw [hrun]
              exact ⟨⟨spec, hlook, hs⟩, rfl, fun _ _ => rfl⟩
            | false =>
              have hrun : reconcileVirtualNodeFrom specString remoteClient d (node :: rest) s =
                  ⟨(reconcileVirtualNodeFrom specString remoteClient d rest
                      { s with nodes :=
                        setNodeSpec s.nodes (d.MeshName, d.VirtualNodeName) d.Spec }).outcome,
                    (reconcileVirtualNodeFrom specString remoteClient d rest
                      { s with nodes :=
                        setNodeSpec s.nodes (d.MeshName, d.VirtualNodeName) d.Spec }).state,
                    Call.DescribeVirtualNode d.MeshName d.VirtualNodeName ::
                      Call.UpdateVirtualNode d.MeshName d.VirtualNodeName d.Spec ::
                      (reconcileVirtualNodeFrom specString remoteClient d rest
                        { s with nodes :=
                          setNodeSpec s.nodes (d.MeshName, d.VirtualNodeName) d.Spec }).calls⟩ := by
                conv => lhs; unfold reconcileVirtualNodeFrom
                simp only [hm, remoteClient_describe_some s _ _ spec hlook, hs,
                  remoteClient_update_some s _ _ spec d.Spec hlook]
              rw [hrun] at h ⊢
              obtain ⟨h1, h2, h3⟩ := reconcileVirtualNodeFrom_settles specString d name hname
                sp hspec rest _ h
              refine ⟨h1, h2, fun k hk => ?_⟩
              show nodeSpecAt (reconcileVirtualNodeFrom specString remoteClient d rest
                { s with nodes :=
                  setNodeSpec s.nodes (d.MeshName, d.VirtualNodeName) d.Spec }).state.nodes k = _
              rw [h3 k hk]
              exact nodeSpecAt_setNodeSpec_other _ _ _ hk _

theorem reconcileEach_settles (specString : VirtualNodeSpec → String)
    (existing : List VirtualNodeRef) :
    ∀ (vNodes : List CreateVirtualNodeInput) (s : Remote),
      (∀ d ∈ vNodes, ∃ name, d.VirtualNodeName = some name) →
      (∀ d ∈ vNodes, ∃ sp, d.Spec = some sp) →
      (vNodes.map nodeKey).Nodup →
      (reconcileEach specString remoteClient existing vNodes s).outcome = .returned none →
      (∀ d ∈ vNodes,
        Settled specString (reconcileEach specString remoteClient existing vNodes s).state d) ∧
      (reconcileEach specString remoteClient existing vNodes s).state.meshes = s.meshes ∧
      ∀ k, (∀ d ∈ vNodes, nodeKey d ≠ k) →
        nodeSpecAt (reconcileEach specString remoteClient existing vNodes s).state.nodes k =
          nodeSpecAt s.nodes k
  | [], s, _, _, _, _ => by
    simp [reconcileEach]
  | d :: rest, s, hnamed, hspecs, hnodup, h => by
    obtain ⟨name, hname⟩ := hnamed d (List.mem_cons_self _ _)
    obtain ⟨sp, hspec⟩ := hspecs d (List.mem_cons_self _ _)
    rw [List.map_cons, List.nodup_cons] at hnodup
    cases ho : (reconcileVirtualNode specString remoteClient s d existing).outcome with
    | panicked =>
      exfalso
      unfold reconcileEach at h
      simp [ho] at h
    | returned err =>
      cases err with
      | some e =>
        exfalso
        unfold reconcileEach at h
        simp [ho, hname, Wrapf] at h
      | none =>
        have hrun : reconcileEach specString remoteClient existing (d :: rest) s =
            ⟨(reconcileEach specString remoteClient existing rest
                (reconcileVirtualNode specString remoteClient s d existing).state).outcome,
              (reconcileEach specString remoteClient existing rest
                (reconcileVirtualNode specString remoteClient s d existing).state).state,
              (reconcileVirtualNode specString remoteClient s d existing).calls ++
                (reconcileEach specString remoteClient existing rest
                  (reconcileVirtualNode specString remoteClient s d existing).state).calls⟩ := by
          conv => lhs; unfold reconcileEach
          simp only [ho]
        rw [hrun] at h ⊢
        obtain ⟨a1, a2, a3⟩ := reconcileVirtualNodeFrom_settles specString d name hname sp
          hspec existing s ho
        obtain ⟨b1, b2, b3⟩ := reconcileEach_settles specString existing rest
          (reconcileVirtualNode specString remoteClient s d existing).state
          (fun x hx => hnamed x (List.mem_cons_of_mem _ hx))
          (fun x hx => hspecs x (List.mem_cons_of_mem _ hx)) hnodup.2 h
        refine ⟨?_, b2.trans a2, ?_⟩
        · intro x hx
          rcases List.mem_cons.1 hx with rfl | hx
          · obtain ⟨spec, hl, hmatch⟩ := a1
            refine ⟨spec, ?_, hmatch⟩
            show nodeSpecAt (reconcileEach specString remoteClient existing rest
              (reconcileVirtualNode specString remoteClient s x existing).state).state.nodes
                (nodeKey x) = _
            rw [b3 (nodeKey x) (fun y hy e => hnodup.1 (e ▸ List.mem_map_of_mem nodeKey hy))]
            exact hl
          · exact b1 x hx
        · intro k hk
          show nodeSpecAt (reconcileEach specString remoteClient existing rest
            (reconcileVirtualNode specString remoteClient s d existing).state).state.nodes k = _
          rw [b3 k (fun y hy => hk y (List.mem_cons_of_mem _ hy))]
          exact a3 k (fun e => hk d (List.mem_cons_self _ _) e.symm)

theorem reconcileEach_settled (specString : VirtualNodeSpec → String)
    (existing : List VirtualNodeRef) (s : Remote) :
    ∀ vNodes : List CreateVirtualNodeInput,
      (∀ d ∈ vNodes, Settled specString s d ∧
        ∃ name, d.VirtualNodeName = some name ∧
          ∃ node ∈ existing, StringValue node.VirtualNodeName = name) →
      reconcileEach specString remoteClient existing vNodes s =
        ⟨.returned none, s,
          vNodes.map fun d => Call.DescribeVirtualNode d.MeshName d.VirtualNodeName⟩
  | [], _ => rfl
  | d :: rest, h => by
    obtain ⟨⟨spec, hl, hmatch⟩, name, hname, hex⟩ := h d (List.mem_cons_self _ _)
    unfold nodeKey at hl
    rw [hname] at hl hmatch
    have hone : reconcileVirtualNode specString remoteClient s d existing =
        ⟨.returned none, s, [.DescribeVirtualNode d.MeshName d.VirtualNodeName]⟩ := by
      unfold reconcileVirtualNode
      rw [reconcileVirtualNodeFrom_match_equal specString remoteClient d name hname s _
        (by rw [remoteClient_describe_some s _ _ spec hl]) hmatch existing hex,
        remoteClient_describe_some s _ _ spec hl, hname]
    conv => lhs; unfold reconcileEach
    simp only [hone]
    rw [reconcileEach_settled specString existing s rest
      (fun x hx => h x (List.mem_cons_of_mem _ hx))]
    rfl

theorem reconcileMesh_remote_present (s : Remote) (mesh : CreateMeshInput)
    (h : mesh.MeshName ∈ s.meshes) :
    reconcileMesh remoteClient s mesh =
      ⟨.returned none, s, [.DescribeMesh mesh.MeshName]⟩ := by
  unfold reconcileMesh
  simp [remoteClient, h]

theorem reconcileMesh_remote (s : Remote) (mesh : CreateMeshInput) :
    (reconcileMesh remoteClient s mesh).outcome = .returned none ∧
      mesh.MeshName ∈ (reconcileMesh remoteClient s mesh).state.meshes ∧
      (reconcileMesh remoteClient s mesh).state.nodes = s.nodes := by
  by_cases h : mesh.MeshName ∈ s.meshes
  · rw [reconcileMesh_remote_present s mesh h]
    exact ⟨rfl, h, rfl⟩
  · unfold reconcileMesh
    simp [remoteClient, h, notFound]

theorem reconcileVirtualNodes_remote (specString : VirtualNodeSpec → String) (s : Remote)
    (mesh : CreateMeshInput) (vNodes : List CreateVirtualNodeInput) :
    reconcileVirtualNodes specString remoteClient s mesh vNodes =
      ⟨(reconcileEach specString remoteClient (listedRefs s.nodes mesh.MeshName) vNodes
          s).outcome,
        (reconcileEach specString remoteClient (listedRefs s.nodes mesh.MeshName) vNodes
          s).state,
        Call.ListVirtualNodes mesh.MeshName ::
          (reconcileEach specString remoteClient (listedRefs s.nodes mesh.MeshName) vNodes
            s).calls⟩ :=
  rfl

/-! ## Reconcile idempotence -/

/-- A second pass over desired nodes that all carry a name and a spec: it returns nil,
issues no create and no update call and leaves the provider state as it is. -/
theorem reconcilePass_again_named (specString : VirtualNodeSpec → String) (s : Remote)
    (mesh : CreateMeshInput) (vNodes : List CreateVirtualNodeInput)
    (hmesh : ∀ d ∈ vNodes, d.MeshName = mesh.MeshName)
    (hnamed : ∀ d ∈ vNodes, ∃ name, d.VirtualNodeName = some name)
    (hspecs : ∀ d ∈ vNodes, ∃ sp, d.Spec = some sp)
    (hdistinct : (vNodes.map fun d => d.VirtualNodeName).Nodup)
    (hfirst : (reconcilePass specString remoteClient s mesh vNodes).outcome = .returned none) :
    (reconcilePass specString remoteClient
        (reconcilePass specString remoteClient s mesh vNodes).state mesh vNodes).outcome =
      .returned none ∧
    (∀ c ∈ (reconcilePass specString remoteClient
        (reconcilePass specString remoteClient s mesh vNodes).state mesh vNodes).calls,
      c.isCreateOrUpdate = false) ∧
    (reconcilePass specString remoteClient
        (reconcilePass specString remoteClient s mesh vNodes).state mesh vNodes).state =
      (reconcilePass specString remoteClient s mesh vNodes).state := by
  obtain ⟨m1, m2, _⟩ := reconcileMesh_remote s mesh
  have hkeys : (vNodes.map nodeKey).Nodup := by
    apply List.Nodup.of_map Prod.snd
    rw [List.map_map]
    exact hdistinct
  have hpass : ∀ t : Remote, reconcilePass specString remoteClient t mesh vNodes =
      ⟨(reconcileEach specString remoteClient
          (listedRefs (reconcileMesh remoteClient t mesh).state.nodes mesh.MeshName) vNodes
          (reconcileMesh remoteClient t mesh).state).outcome,
        (reconcileEach specString remoteClient
          (listedRefs (reconcileMesh remoteClient t mesh).state.nodes mesh.MeshName) vNodes
          (reconcileMesh remoteClient t mesh).state).state,
        (reconcileMesh remoteClient t mesh).calls ++
          Call.ListVirtualNodes mesh.MeshName ::
            (reconcileEach specString remoteClient
              (listedRefs (reconcileMesh remoteClient t mesh).state.nodes mesh.MeshName) vNodes
              (reconcileMesh remoteClient t mesh).state).calls⟩ := by
    intro t
    unfold reconcilePass
    simp only [(reconcileMesh_remote t mesh).1, reconcileVirtualNodes_remote]
  rw [hpass s] at hfirst
  obtain ⟨b1, b2, _⟩ := reconcileEach_settles specString _ vNodes _ hnamed hspecs hkeys hfirst
  have hpresent : mesh.MeshName ∈ (reconcilePass specString remoteClient s mesh vNodes).state.meshes := by
    rw [hpass s]
    show mesh.MeshName ∈ (reconcileEach specString remoteClient _ vNodes _).state.meshes
    rw [b2]
    exact m2
  have hsettled : ∀ d ∈ vNodes,
      Settled specString (reconcilePass specString remoteClient s mesh vNodes).state d := by
    rw [hpass s]
    exact b1
  generalize (reconcilePass specString remoteClient s mesh vNodes).state = s1 at hpresent hsettled ⊢
  rw [hpass s1, reconcileMesh_remote_present s1 mesh hpresent]
  have hsecond := reconcileEach_settled specString (listedRefs s1.nodes mesh.MeshName) s1 vNodes
    (by
      intro d hd
      obtain ⟨name, hname⟩ := hnamed d hd
      refine ⟨hsettled d hd, name, hname, ?_⟩
      obtain ⟨spec, hl, _⟩ := hsettled d hd
      unfold nodeKey at hl
      rw [hmesh d hd] at hl
      obtain ⟨ref, href, hn⟩ := listedRefs_of_nodeSpecAt _ _ _ spec hl
      refine ⟨ref, href, ?_⟩
      rw [hn, hname]
      rfl)
  simp only [hsecond]
  refine ⟨trivial, ?_, trivial⟩
  intro c hc
  simp only [List.singleton_append, List.mem_cons, List.mem_map] at hc
  rcases hc with rfl | rfl | ⟨d, _, rfl⟩ <;> rfl

/-! ## Session cache -/

/-- C17 at a sample input: for a mesh whose region is empty and whose secret is found,
`NewOrCachedClient` returns no client and a nil error; no handle is constructed or cached
and no lookup is done. -/
theorem NewOrCachedClient_empty_region :
    NewOrCachedClient sampleLib NewMeshRoutingSyncer 0 (sampleAppMesh "" "creds-a")
        sampleSecrets =
      ⟨.returned none none, NewMeshRoutingSyncer, 0, []⟩ ∧
    Wrapf none "mesh must provide aws_region" = none :=
  ⟨by rfl, rfl⟩

/-- C18 at a sample input: the session key is the same for every secret and region, so
after a first call for `KEY-A` in `us-east-1`, a second call for `KEY-B` in `eu-west-1`
constructs nothing and returns the handle of the first call. -/
theorem NewOrCachedClient_shares_handle :
    (∀ (lib : Library) (awsSecret awsSecret' : AwsSecret) (region region' : String),
      hashCredentials lib awsSecret region = hashCredentials lib awsSecret' region') ∧
    (NewOrCachedClient sampleLib NewMeshRoutingSyncer 0 (sampleAppMesh "us-east-1" "creds-a")
        sampleSecrets).outcome =
      .returned (some sampleHandle) none ∧
    (NewOrCachedClient sampleLib
        (NewOrCachedClient sampleLib NewMeshRoutingSyncer 0
          (sampleAppMesh "us-east-1" "creds-a") sampleSecrets).syncer
        (NewOrCachedClient sampleLib NewMeshRoutingSyncer 0
          (sampleAppMesh "us-east-1" "creds-a") sampleSecrets).constructed
        (sampleAppMesh "eu-west-1" "creds-b") sampleSecrets) =
      ⟨.returned (some sampleHandle) none, { activeSessions := [(0, sampleHandle)] }, 1,
        [.lookup 0]⟩ :=
  ⟨fun _ _ _ _ _ => rfl, by rfl, by rfl⟩

theorem sessionAt_setSession_self (sessionKey : Nat) (client : AppMeshClient) :
    ∀ sessions : List (Nat × AppMeshClient),
      sessionAt (setSession sessions sessionKey client) sessionKey = some client
  | [] => by simp [setSession, sessionAt]
  | (k, c) :: rest => by
    unfold setSession
    by_cases e : k = sessionKey
    · simp [e, sessionAt]
    · simp [e, sessionAt, sessionAt_setSession_self sessionKey client rest]

theorem keys_setSession (sessionKey : Nat) (client : AppMeshClient) :
    ∀ sessions : List (Nat × AppMeshClient),
      sessionAt sessions sessionKey = none →
      (setSession sessions sessionKey client).map Prod.fst =
        sessions.map Prod.fst ++ [sessionKey]
  | [], _ => by simp [setSession]
  | (k, c) :: rest, h => by
    unfold sessionAt at h
    by_cases e : k = sessionKey
    · simp [e] at h
    · simp only [e, if_false] at h
      unfold setSession
      simp [e, keys_setSession sessionKey client rest h]

theorem not_mem_keys_of_sessionAt_none (sessionKey : Nat) :
    ∀ sessions : List (Nat × AppMeshClient),
      sessionAt sessions sessionKey = none → sessionKey ∉ sessions.map Prod.fst
  | [], _ => by simp
  | (k, c) :: rest, h => by
    unfold sessionAt at h
    by_cases e : k = sessionKey
    · simp [e] at h
    · simp only [e, if_false] at h
      have ih := not_mem_keys_of_sessionAt_none sessionKey rest h
      have e' : ¬ sessionKey = k := fun x => e x.symm
      simp only [List.map_cons, List.mem_cons, not_or]
      exact ⟨e', ih⟩

theorem one_entry_of_sessionAt (sessionKey : Nat) (client : AppMeshClient) :
    ∀ sessions : List (Nat × AppMeshClient),
      (sessions.map Prod.fst).Nodup → sessionAt sessions sessionKey = some client →
      (sessions.filter fun e => e.1 = sessionKey).length = 1
  | [], _, h => by simp [sessionAt] at h
  | (k, c) :: rest, hn, h => by
    rw [List.map_cons, List.nodup_cons] at hn
    unfold sessionAt at h
    by_cases e : k = sessionKey
    · subst e
      have hnone : rest.filter (fun e => e.1 = k) = [] := by
        rw [List.filter_eq_nil_iff]
        intro x hx hk
        exact hn.1 (List.mem_map.2 ⟨x, hx, by simpa using hk⟩)
      simp [List.filter_cons, hnone]
    · simp only [e, if_false] at h
      simp [List.filter_cons, e, one_entry_of_sessionAt sessionKey client rest hn.2 h]

/-- C19: when the session map has one entry per key and a call of `NewOrCachedClient`
returns a handle and a nil error, a second call on the same syncer with the same mesh
settings and secrets returns the same handle, constructs no client, leaves the syncer as it
is, and the session map holds one entry for the session key it looked up. -/
theorem NewOrCachedClient_cached (lib : Library) (s : AppMeshSyncer) (constructed : Nat)
    (appMesh : AppMeshConfig) (secrets : List Secret) (client : AppMeshClient)
    (hmap : (s.activeSessions.map Prod.fst).Nodup)
    (hfirst : (NewOrCachedClient lib s constructed appMesh secrets).outcome =
      .returned (some client) none) :
    ∃ sessionKey,
      NewOrCachedClient lib (NewOrCachedClient lib s constructed appMesh secrets).syncer
          (NewOrCachedClient lib s constructed appMesh secrets).constructed appMesh secrets =
        ⟨.returned (some client) none,
          (NewOrCachedClient lib s constructed appMesh secrets).syncer,
          (NewOrCachedClient lib s constructed appMesh secrets).constructed,
          [.lookup sessionKey]⟩ ∧
      ((NewOrCachedClient lib s constructed appMesh secrets).syncer.activeSessions.filter
        fun e => e.1 = sessionKey).length = 1 := by
  cases hc : appMesh.AwsCredentials with
  | none => simp [NewOrCachedClient, hc] at hfirst
  | some ref =>
    cases hf : lib.FindSecret secrets ref.Strings.1 ref.Strings.2 with
    | error err => simp [NewOrCachedClient, hc, hf, Wrapf] at hfirst
    | ok secret =>
      by_cases hr : appMesh.AwsRegion = ""
      · simp [NewOrCachedClient, hc, hf, hr] at hfirst
      · cases hk : secret.Kind with
        | none => simp [NewOrCachedClient, hc, hf, hr, hk] at hfirst
        | some kind =>
          cases kind with
          | Secret_Azure => simp [NewOrCachedClient, hc, hf, hr, hk] at hfirst
          | Secret_Tls => simp [NewOrCachedClient, hc, hf, hr, hk] at hfirst
          | Secret_Aws aws =>
            cases aws with
            | none => simp [NewOrCachedClient, hc, hf, hr, hk] at hfirst
            | some awsSecret =>
              refine ⟨hashCredentials lib awsSecret appMesh.AwsRegion, ?_⟩
              have hhit : ∀ (s' : AppMeshSyncer) (n : Nat),
                  sessionAt s'.activeSessions
                    (hashCredentials lib awsSecret appMesh.AwsRegion) = some client →
                  NewOrCachedClient lib s' n appMesh secrets =
                    ⟨.returned (some client) none, s', n,
                      [.lookup (hashCredentials lib awsSecret appMesh.AwsRegion)]⟩ := by
                intro s' n hs
                simp [NewOrCachedClient, hc, hf, hr, hk, hs]
              cases hs : sessionAt s.activeSessions
                  (hashCredentials lib awsSecret appMesh.AwsRegion) with
              | some cached =>
                have hrun : NewOrCachedClient lib s constructed appMesh secrets =
                    ⟨.returned (some cached) none, s, constructed,
                      [.lookup (hashCredentials lib awsSecret appMesh.AwsRegion)]⟩ := by
                  simp [NewOrCachedClient, hc, hf, hr, hk, hs]
                rw [hrun] at hfirst ⊢
                have e : cached = client := by simpa using hfirst
                subst e
                exact ⟨hhit s constructed hs, one_entry_of_sessionAt _ _ _ hmap hs⟩
              | none =>
                cases hn : NewAwsClientFromSecret lib constructed awsSecret appMesh.AwsRegion with
                | error err => simp [NewOrCachedClient, hc, hf, hr, hk, hs, hn, Wrapf] at hfirst
                | ok made =>
                  have hrun : NewOrCachedClient lib s constructed appMesh secrets =
                      ⟨.returned (some made) none,
                        { activeSessions := setSession s.activeSessions
                            (hashCredentials lib awsSecret appMesh.AwsRegion) made },
                        constructed + 1,
                        [.lookup (hashCredentials lib awsSecret appMesh.AwsRegion),
                          .construct made]⟩ := by
                    simp [NewOrCachedClient, hc, hf, hr, hk, hs, hn]
                  rw [hrun] at hfirst ⊢
                  have e : made = client := by simpa using hfirst
                  subst e
                  refine ⟨hhit _ _ (sessionAt_setSession_self _ _ _), ?_⟩
                  apply one_entry_of_sessionAt _ made _ _ (sessionAt_setSession_self _ _ _)
                  show ((setSession s.activeSessions _ made).map Prod.fst).Nodup
                  rw [keys_setSession _ _ _ hs]
                  exact List.Nodup.append hmap (List.nodup_singleton _)
                    (by simpa using not_mem_keys_of_sessionAt_none _ _ hs)

/-- C19 at a sample input: two calls for `KEY-A` in `us-east-1` on a new syncer. -/
theorem NewOrCachedClient_cached_witness :
    ∃ sessionKey,
      NewOrCachedClient sampleLib
          (NewOrCachedClient sampleLib NewMeshRoutingSyncer 0
            (sampleAppMesh "us-east-1" "creds-a") sampleSecrets).syncer
          (NewOrCachedClient sampleLib NewMeshRoutingSyncer 0
            (sampleAppMesh "us-east-1" "creds-a") sampleSecrets).constructed
          (sampleAppMesh "us-east-1" "creds-a") sampleSecrets =
        ⟨.returned (some sampleHandle) none,
          (NewOrCachedClient sampleLib NewMeshRoutingSyncer 0
            (sampleAppMesh "us-east-1" "creds-a") sampleSecrets).syncer,
          (NewOrCachedClient sampleLib NewMeshRoutingSyncer 0
            (sampleAppMesh "us-east-1" "creds-a") sampleSecrets).constructed,
          [.lookup sessionKey]⟩ ∧
      ((NewOrCachedClient sampleLib NewMeshRoutingSyncer 0
          (sampleAppMesh "us-east-1" "creds-a") sampleSecrets).syncer.activeSessions.filter
        fun e => e.1 = sessionKey).length = 1 :=
  NewOrCachedClient_cached sampleLib NewMeshRoutingSyncer 0
    (sampleAppMesh "us-east-1" "creds-a") sampleSecrets sampleHandle (by decide) (by rfl)

/-! ## Orchestrator: fail-fast over the meshes -/

theorem SyncFrom_cons_ok {U σ : Type} (lib : Library) (ext : Externals U)
    (visit : List (String × List Nat) → List (String × List Nat))
    (remote : AppMeshClient → Client σ) (snap : TranslatorSnapshot U)
    (mesh : Mesh) (rest : List Mesh) (st : Process σ)
    (h : (sync lib ext visit remote st mesh snap).outcome = .returned none) :
    SyncFrom lib ext visit remote snap (mesh :: rest) st =
      ⟨(SyncFrom lib ext visit remote snap rest
          (sync lib ext visit remote st mesh snap).state).outcome,
        (SyncFrom lib ext visit remote snap rest
          (sync lib ext visit remote st mesh snap).state).state,
        (sync lib ext visit remote st mesh snap).events ++
          (SyncFrom lib ext visit remote snap rest
            (sync lib ext visit remote st mesh snap).state).events⟩ := by
  conv => lhs; unfold SyncFrom
  simp only [h]

theorem SyncFrom_cons_error {U σ : Type} (lib : Library) (ext : Externals U)
    (visit : List (String × List Nat) → List (String × List Nat))
    (remote : AppMeshClient → Client σ) (snap : TranslatorSnapshot U)
    (mesh : Mesh) (rest : List Mesh) (st : Process σ) (err : GoError)
    (h : (sync lib ext visit remote st mesh snap).outcome = .returned (some err)) :
    SyncFrom lib ext visit remote snap (mesh :: rest) st =
      ⟨.returned (Wrapf (some err) ("syncing mesh " ++ lib.refFormat mesh.Metadata.Ref)),
        (sync lib ext visit remote st mesh snap).state,
        (sync lib ext visit remote st mesh snap).events⟩ := by
  conv => lhs; unfold SyncFrom
  simp only [h]

theorem SyncFrom_cons_panicked {U σ : Type} (lib : Library) (ext : Externals U)
    (visit : List (String × List Nat) → List (String × List Nat))
    (remote : AppMeshClient → Client σ) (snap : TranslatorSnapshot U)
    (mesh : Mesh) (rest : List Mesh) (st : Process σ)
    (h : (sync lib ext visit remote st mesh snap).outcome = .panicked) :
    SyncFrom lib ext visit remote snap (mesh :: rest) st =
      sync lib ext visit remote st mesh snap := by
  conv => lhs; unfold SyncFrom
  simp only [h]

theorem SyncFrom_cons_outcome {U σ : Type} (lib : Library) (ext : Externals U)
    (visit : List (String × List Nat) → List (String × List Nat))
    (remote : AppMeshClient → Client σ) (snap : TranslatorSnapshot U)
    (mesh : Mesh) (rest : List Mesh) (st : Process σ)
    (h : (SyncFrom lib ext visit remote snap (mesh :: rest) st).outcome = .returned none) :
    (sync lib ext visit remote st mesh snap).outcome = .returned none := by
  cases ho : (sync lib ext visit remote st mesh snap).outcome with
  | panicked =>
    rw [SyncFrom_cons_panicked lib ext visit remote snap mesh rest st ho, ho] at h
    cases h
  | returned err =>
    cases err with
    | none => rfl
    | some e =>
      rw [SyncFrom_cons_error lib ext visit remote snap mesh rest st e ho] at h
      simp [Wrapf] at h

theorem SyncFrom_append {U σ : Type} (lib : Library) (ext : Externals U)
    (visit : List (String × List Nat) → List (String × List Nat))
    (remote : AppMeshClient → Client σ) (snap : TranslatorSnapshot U) :
    ∀ (before l : List Mesh) (st : Process σ),
      (SyncFrom lib ext visit remote snap before st).outcome = .returned none →
      SyncFrom lib ext visit remote snap (before ++ l) st =
        ⟨(SyncFrom lib ext visit remote snap l
            (SyncFrom lib ext visit remote snap before st).state).outcome,
          (SyncFrom lib ext visit remote snap l
            (SyncFrom lib ext visit remote snap before st).state).state,
          (SyncFrom lib ext visit remote snap before st).events ++
            (SyncFrom lib ext visit remote snap l
              (SyncFrom lib ext visit remote snap before st).state).events⟩
  | [], l, st, _ => by
    simp [SyncFrom]
  | mesh :: before, l, st, h => by
    have ho := SyncFrom_cons_outcome lib ext visit remote snap mesh before st h
    rw [SyncFrom_cons_ok lib ext visit remote snap mesh before st ho] at h
    rw [List.cons_append, SyncFrom_cons_ok lib ext visit remote snap mesh (before ++ l) st ho,
      SyncFrom_cons_ok lib ext visit remote snap mesh before st ho,
      SyncFrom_append lib ext visit remote snap before l _ h]
    simp

theorem SyncFrom_ok_iff {U σ : Type} (lib : Library) (ext : Externals U)
    (visit : List (String × List Nat) → List (String × List Nat))
    (remote : AppMeshClient → Client σ) (snap : TranslatorSnapshot U) :
    ∀ (l : List Mesh) (st : Process σ),
      (SyncFrom lib ext visit remote snap l st).outcome = .returned none ↔
        ∀ before mesh after, l = before ++ mesh :: after →
          (sync lib ext visit remote (SyncFrom lib ext visit remote snap before st).state mesh
            snap).outcome = .returned none
  | [], st => by
    constructor
    · intro _ before mesh after h
      simp at h
    · intro _
      rfl
  | m :: rest, st => by
    constructor
    · intro h before mesh after hsplit
      have ho := SyncFrom_cons_outcome lib ext visit remote snap m rest st h
      cases before with
      | nil =>
        simp only [List.nil_append, List.cons.injEq] at hsplit
        rw [← hsplit.1]
        exact ho
      | cons b before =>
        simp only [List.cons_append, List.cons.injEq] at hsplit
        rw [SyncFrom_cons_ok lib ext visit remote snap m rest st ho] at h
        rw [← hsplit.1, SyncFrom_cons_ok lib ext visit remote snap m before st ho]
        exact (SyncFrom_ok_iff lib ext visit remote snap rest _).1 h before mesh after hsplit.2
    · intro h
      have ho : (sync lib ext visit remote st m snap).outcome = .returned none :=
        h [] m rest rfl
      rw [SyncFrom_cons_ok lib ext visit remote snap m rest st ho]
      apply (SyncFrom_ok_iff lib ext visit remote snap rest _).2
      intro before mesh after hsplit
      have := h (m :: before) mesh after (by rw [hsplit]; rfl)
      rw [SyncFrom_cons_ok lib ext visit remote snap m before st ho] at this
      exact this

/-- Fail-fast of `Sync` over syncs that return. When the meshes before some mesh were
synced without error and the sync of that mesh returns an error, `Sync` returns that error
wrapped with the reference of the mesh, and its record holds the session-cache steps and
remote calls of the meshes up to that one and nothing of a later mesh. `Sync` returns nil
exactly when the sync of every mesh, from the state the meshes before it left, returns nil.
A mesh that is not of the AppMesh variant is synced without error, without a session-cache
step and without a remote call. -/
theorem Sync_fail_fast {U σ : Type} (lib : Library) (ext : Externals U)
    (visit : List (String × List Nat) → List (String × List Nat))
    (remote : AppMeshClient → Client σ) (st : Process σ) (snap : TranslatorSnapshot U) :
    (∀ before mesh after err, snap.Meshes = before ++ mesh :: after →
      (SyncFrom lib ext visit remote snap before st).outcome = .returned none →
      (sync lib ext visit remote (SyncFrom lib ext visit remote snap before st).state mesh
        snap).outcome = .returned (some err) →
      Sync lib ext visit remote st snap =
        ⟨.returned (Wrapf (some err) ("syncing mesh " ++ lib.refFormat mesh.Metadata.Ref)),
          (sync lib ext visit remote (SyncFrom lib ext visit remote snap before st).state mesh
            snap).state,
          (SyncFrom lib ext visit remote snap before st).events ++
            (sync lib ext visit remote (SyncFrom lib ext visit remote snap before st).state mesh
              snap).events⟩) ∧
    ((Sync lib ext visit remote st snap).outcome = .returned none ↔
      ∀ before mesh after, snap.Meshes = before ++ mesh :: after →
        (sync lib ext visit remote (SyncFrom lib ext visit remote snap before st).state mesh
          snap).outcome = .returned none) ∧
    (∀ (st' : Process σ) (mesh : Mesh),
      (∀ config, mesh.MeshType ≠ some (.Mesh_AppMesh config)) →
      sync lib ext visit remote st' mesh snap = ⟨.returned none, st', []⟩) := by
  refine ⟨?_, SyncFrom_ok_iff lib ext visit remote snap snap.Meshes st, ?_⟩
  · intro before mesh after err hsplit hbefore herr
    unfold Sync
    rw [hsplit, SyncFrom_append lib ext visit remote snap before (mesh :: after) st hbefore,
      SyncFrom_cons_error lib ext visit remote snap mesh after _ err herr]
  · intro st' mesh hne
    unfold sync
    split
    · rename_i config h
      exact absurd h (hne config)
    · rfl

/-- Fail-fast at the sample snapshot: the Istio mesh is passed over, the AppMesh mesh
without settings fails, and nothing is done for the third mesh. -/
theorem Sync_fail_fast_witness :
    Sync sampleLib sampleExt id (fun _ => remoteClient) sampleProcess sampleSnapshot =
      ⟨.returned (Wrapf
          (some (Errorf ("default.broken" ++ " missing configuration for AppMesh")))
          ("syncing mesh " ++ "default.broken")),
        sampleProcess, []⟩ ∧
    (Sync sampleLib sampleExt id (fun _ => remoteClient) sampleProcess
        sampleSnapshotOk).outcome = .returned none ∧
    (Sync sampleLib sampleExt id (fun _ => remoteClient) sampleProcess
        sampleSnapshotOk).events =
      [.session (.lookup 0), .session (.construct sampleHandle),
        .remote sampleHandle (.DescribeMesh (some "default.aws.%!v(MISSING)")),
        .remote sampleHandle
          (.CreateMesh { ClientToken := none, MeshName := some "default.aws.%!v(MISSING)" })] :=
  ⟨(Sync_fail_fast sampleLib sampleExt id (fun _ => remoteClient) sampleProcess
      sampleSnapshot).1 [sampleMeshOf "istio" (some .Mesh_Istio)]
      (sampleMeshOf "broken" (some (.Mesh_AppMesh none)))
      [sampleMeshOf "aws" (some (.Mesh_AppMesh (some (sampleAppMesh "us-east-1" "creds-a"))))]
      (Errorf ("default.broken" ++ " missing configuration for AppMesh")) rfl rfl rfl,
    by rfl, by rfl⟩

/-! ## The mtls command -/

/-- C21: in the mutation step of `updateMtls`, `toggle` on a mesh without encryption
settings gives the flag true and a second `toggle` gives false; `toggle` on a mesh with
encryption settings inverts the flag and changes nothing else, so two toggles give the mesh
back; `enable` and `disable` give the flag true and false whatever the settings were, set
or absent. -/
theorem mutateMesh_flag (mesh : CliMesh) :
    ((mutateMesh "toggle" { mesh with Encryption := none }).bind CliMesh.tlsEnabled =
      some true) ∧
    (((mutateMesh "toggle" { mesh with Encryption := none }).bind
      (mutateMesh "toggle")).bind CliMesh.tlsEnabled = some false) ∧
    (∀ encryption : Encryption,
      mutateMesh "toggle" { mesh with Encryption := some encryption } =
        some { mesh with Encryption := some { TlsEnabled := !encryption.TlsEnabled } }) ∧
    (∀ encryption : Encryption,
      (mutateMesh "toggle" { mesh with Encryption := some encryption }).bind
          (mutateMesh "toggle") =
        some { mesh with Encryption := some encryption }) ∧
    (∀ settings : Option Encryption,
      (mutateMesh "enable" { mesh with Encryption := settings }).bind CliMesh.tlsEnabled =
        some true) ∧
    (∀ settings : Option Encryption,
      (mutateMesh "disable" { mesh with Encryption := settings }).bind CliMesh.tlsEnabled =
        some false) := by
  refine ⟨rfl, rfl, fun _ => rfl, ?_, ?_, ?_⟩
  · intro encryption
    cases encryption with
    | mk flag => cases flag <;> rfl
  · intro settings
    cases settings <;> rfl
  · intro settings
    cases settings <;> rfl

/-! ## Reconcile idempotence -/

theorem reconcileVirtualNodeFrom_holds (specString : VirtualNodeSpec → String)
    (d : CreateVirtualNodeInput) :
    ∀ (existing : List VirtualNodeRef) (s : Remote),
      (reconcileVirtualNodeFrom specString remoteClient d existing s).outcome =
        .returned none →
      Held specString (reconcileVirtualNodeFrom specString remoteClient d existing s).state d ∧
      (reconcileVirtualNodeFrom specString remoteClient d existing s).state.meshes = s.meshes ∧
      ∀ k, k ≠ nodeKey d →
        nodeSpecAt (reconcileVirtualNodeFrom specString remoteClient d existing s).state.nodes k =
          nodeSpecAt s.nodes k
  | [], s, _ => by
    have hrun : reconcileVirtualNodeFrom specString remoteClient d [] s =
        ⟨.returned none,
          { s with nodes := setNodeSpec s.nodes (d.MeshName, d.VirtualNodeName) d.Spec },
          [.CreateVirtualNode d]⟩ := by
      simp only [reconcileVirtualNodeFrom, remoteClient_create]
    rw [hrun]
    refine ⟨⟨d.Spec, nodeSpecAt_setNodeSpec_self _ _ _, ?_⟩, rfl,
      fun k hk => nodeSpecAt_setNodeSpec_other _ _ _ hk _⟩
    cases hsp : d.Spec <;> simp [specsMatch, hsp]
  | node :: rest, s, h => by
    cases hm : nameMatches node d with
    | none =>
      exfalso
      unfold reconcileVirtualNodeFrom at h
      simp [hm] at h
    | some b =>
      cases b with
      | false =>
        have hrun : reconcileVirtualNodeFrom specString remoteClient d (node :: rest) s =
            reconcileVirtualNodeFrom specString remoteClient d rest s := by
          conv => lhs; unfold reconcileVirtualNodeFrom
          simp only [hm]
        rw [hrun] at h ⊢
        exact reconcileVirtualNodeFrom_holds specString d rest s h
      | true =>
        cases hlook : nodeSpecAt s.nodes (d.MeshName, d.VirtualNodeName) with
        | none =>
          exfalso
          unfold reconcileVirtualNodeFrom at h
          simp [hm, remoteClient_describe_none s _ _ hlook, Wrapf] at h
        | some spec =>
          cases hs : specsMatch specString
              { VirtualNode := some
                  { MeshName := d.MeshName, Spec := spec, VirtualNodeName := d.VirtualNodeName } }
              d with
          | none =>
            exfalso
            unfold reconcileVirtualNodeFrom at h
            simp [hm, remoteClient_describe_some s _ _ spec hlook, hs] at h
          | some eq =>
            cases eq with
            | true =>
              have hrun : reconcileVirtualNodeFrom specString remoteClient d (node :: rest) s =
                  ⟨.returned none, s,
                    [.DescribeVirtualNode d.MeshName d.VirtualNodeName]⟩ := by
                conv => lhs; unfold reconcileVirtualNodeFrom
                simp only [hm, remoteClient_describe_some s _ _ spec hlook, hs]
              rw [hrun]
              exact ⟨⟨spec, hlook, by rw [hs]; simp⟩, rfl, fun _ _ => rfl⟩
            | false =>
              have hrun : reconcileVirtualNodeFrom specString remoteClient d (node :: rest) s =
                  ⟨(reconcileVirtualNodeFrom specString remoteClient d rest
                      { s with nodes :=
                        setNodeSpec s.nodes (d.MeshName, d.VirtualNodeName) d.Spec }).outcome,
                    (reconcileVirtualNodeFrom specString remoteClient d rest
                      { s with nodes :=
                        setNodeSpec s.nodes (d.MeshName, d.VirtualNodeName) d.Spec }).state,
                    Call.DescribeVirtualNode d.MeshName d.VirtualNodeName ::
                      Call.UpdateVirtualNode d.MeshName d.VirtualNodeName d.Spec ::
                      (reconcileVirtualNodeFrom specString remoteClient d rest
                        { s with nodes :=
                          setNodeSpec s.nodes (d.MeshName, d.VirtualNodeName) d.Spec }).calls⟩ := by
                conv => lhs; unfold reconcileVirtualNodeFrom
                simp only [hm, remoteClient_describe_some s _ _ spec hlook, hs,
                  remoteClient_update_some s _ _ spec d.Spec hlook]
              rw [hrun] at h ⊢
              obtain ⟨h1, h2, h3⟩ := reconcileVirtualNodeFrom_holds specString d rest _ h
              refine ⟨h1, h2, fun k hk => ?_⟩
              show nodeSpecAt (reconcileVirtualNodeFrom specString remoteClient d rest
                { s with nodes :=
                  setNodeSpec s.nodes (d.MeshName, d.VirtualNodeName) d.Spec }).state.nodes k = _
              rw [h3 k hk]
              exact nodeSpecAt_setNodeSpec_other _ _ _ hk _

theorem reconcileEach_holds (specString : VirtualNodeSpec → String)
    (existing : List VirtualNodeRef) :
    ∀ (vNodes : List CreateVirtualNodeInput) (s : Remote),
      (vNodes.map nodeKey).Nodup →
      (reconcileEach specString remoteClient existing vNodes s).outcome = .returned none →
      (∀ d ∈ vNodes,
        Held specString (reconcileEach specString remoteClient existing vNodes s).state d) ∧
      (reconcileEach specString remoteClient existing vNodes s).state.meshes = s.meshes ∧
      ∀ k, (∀ d ∈ vNodes, nodeKey d ≠ k) →
        nodeSpecAt (reconcileEach specString remoteClient existing vNodes s).state.nodes k =
          nodeSpecAt s.nodes k
  | [], s, _, _ => by
    simp [reconcileEach]
  | d :: rest, s, hnodup, h => by
    rw [List.map_cons, List.nodup_cons] at hnodup
    cases ho : (reconcileVirtualNode specString remoteClient s d existing).outcome with
    | panicked =>
      exfalso
      unfold reconcileEach at h
      simp [ho] at h
    | returned err =>
      cases err with
      | some e =>
        exfalso
        unfold reconcileEach at h
        cases hn : d.VirtualNodeName <;> simp [ho, hn, Wrapf] at h
      | none =>
        have hrun : reconcileEach specString remoteClient existing (d :: rest) s =
            ⟨(reconcileEach specString remoteClient existing rest
                (reconcileVirtualNode specString remoteClient s d existing).state).outcome,
              (reconcileEach specString remoteClient existing rest
                (reconcileVirtualNode specString remoteClient s d existing).state).state,
              (reconcileVirtualNode specString remoteClient s d existing).calls ++
                (reconcileEach specString remoteClient existing rest
                  (reconcileVirtualNode specString remoteClient s d existing).state).calls⟩ := by
          conv => lhs; unfold reconcileEach
          simp only [ho]
        rw [hrun] at h ⊢
        obtain ⟨a1, a2, a3⟩ := reconcileVirtualNodeFrom_holds specString d existing s ho
        obtain ⟨b1, b2, b3⟩ := reconcileEach_holds specString existing rest
          (reconcileVirtualNode specString remoteClient s d existing).state hnodup.2 h
        refine ⟨?_, b2.trans a2, ?_⟩
        · intro x hx
          rcases List.mem_cons.1 hx with rfl | hx
          · obtain ⟨spec, hl, hmatch⟩ := a1
            refine ⟨spec, ?_, hmatch⟩
            show nodeSpecAt (reconcileEach specString remoteClient existing rest
              (reconcileVirtualNode specString remoteClient s x existing).state).state.nodes
                (nodeKey x) = _
            rw [b3 (nodeKey x) (fun y hy e => hnodup.1 (e ▸ List.mem_map_of_mem nodeKey hy))]
            exact hl
          · exact b1 x hx
        · intro k hk
          show nodeSpecAt (reconcileEach specString remoteClient existing rest
            (reconcileVirtualNode specString remoteClient s d existing).state).state.nodes k = _
          rw [b3 k (fun y hy => hk y (List.mem_cons_of_mem _ hy))]
          exact a3 k (fun e => hk d (List.mem_cons_self _ _) e.symm)

theorem reconcileVirtualNodeFrom_held (specString : VirtualNodeSpec → String)
    (d : CreateVirtualNodeInput) (s : Remote) (hheld : Held specString s d) :
    ∀ existing : List VirtualNodeRef,
      (∃ ref ∈ existing, ref.VirtualNodeName = d.VirtualNodeName) →
      (reconcileVirtualNodeFrom specString remoteClient d existing s).state = s ∧
      (∀ c ∈ (reconcileVirtualNodeFrom specString remoteClient d existing s).calls,
        c.isCreateOrUpdate = false) ∧
      ((reconcileVirtualNodeFrom specString remoteClient d existing s).outcome =
          .returned none ∨
        (reconcileVirtualNodeFrom specString remoteClient d existing s).outcome = .panicked)
  | [], h => by
    obtain ⟨ref, href, _⟩ := h
    simp at href
  | node :: rest, h => by
    cases hm : nameMatches node d with
    | none =>
      have hrun : reconcileVirtualNodeFrom specString remoteClient d (node :: rest) s =
          ⟨.panicked, s, []⟩ := by
        conv => lhs; unfold reconcileVirtualNodeFrom
        simp only [hm]
      rw [hrun]
      exact ⟨rfl, by simp, Or.inr rfl⟩
    | some b =>
      cases b with
      | false =>
        have hrun : reconcileVirtualNodeFrom specString remoteClient d (node :: rest) s =
            reconcileVirtualNodeFrom specString remoteClient d rest s := by
          conv => lhs; unfold reconcileVirtualNodeFrom
          simp only [hm]
        rw [hrun]
        apply reconcileVirtualNodeFrom_held specString d s hheld rest
        obtain ⟨ref, href, hn⟩ := h
        rcases List.mem_cons.1 href with rfl | hmem
        · exfalso
          unfold nameMatches at hm
          cases hd : d.VirtualNodeName with
          | none => simp [hd] at hm
          | some name =>
            rw [hd] at hn
            simp [hd, hn, StringValue] at hm
        · exact ⟨ref, hmem, hn⟩
      | true =>
        obtain ⟨spec, hlook, hne⟩ := hheld
        unfold nodeKey at hlook
        cases hs : specsMatch specString
            { VirtualNode := some
                { MeshName := d.MeshName, Spec := spec, VirtualNodeName := d.VirtualNodeName } }
            d with
        | none =>
          have hrun : reconcileVirtualNodeFrom specString remoteClient d (node :: rest) s =
              ⟨.panicked, s, [.DescribeVirtualNode d.MeshName d.VirtualNodeName]⟩ := by
            conv => lhs; unfold reconcileVirtualNodeFrom
            simp only [hm, remoteClient_describe_some s _ _ spec hlook, hs]
          rw [hrun]
          refine ⟨rfl, ?_, Or.inr rfl⟩
          intro c hc
          simp only [List.mem_singleton] at hc
          rw [hc]
          rfl
        | some eq =>
          cases eq with
          | false => exact absurd hs hne
          | true =>
            have hrun : reconcileVirtualNodeFrom specString remoteClient d (node :: rest) s =
                ⟨.returned none, s, [.DescribeVirtualNode d.MeshName d.VirtualNodeName]⟩ := by
              conv => lhs; unfold reconcileVirtualNodeFrom
              simp only [hm, remoteClient_describe_some s _ _ spec hlook, hs]
            rw [hrun]
            refine ⟨rfl, ?_, Or.inl rfl⟩
            intro c hc
            simp only [List.mem_singleton] at hc
            rw [hc]
            rfl

theorem reconcileEach_held (specString : VirtualNodeSpec → String)
    (existing : List VirtualNodeRef) (s : Remote) :
    ∀ vNodes : List CreateVirtualNodeInput,
      (∀ d ∈ vNodes, Held specString s d ∧
        ∃ ref ∈ existing, ref.VirtualNodeName = d.VirtualNodeName) →
      (reconcileEach specString remoteClient existing vNodes s).state = s ∧
      (∀ c ∈ (reconcileEach specString remoteClient existing vNodes s).calls,
        c.isCreateOrUpdate = false) ∧
      ((reconcileEach specString remoteClient existing vNodes s).outcome = .returned none ∨
        (reconcileEach specString remoteClient existing vNodes s).outcome = .panicked)
  | [], _ => by
    simp [reconcileEach]
  | d :: rest, h => by
    obtain ⟨hheld, href⟩ := h d (List.mem_cons_self _ _)
    obtain ⟨a1, a2, a3⟩ := reconcileVirtualNodeFrom_held specString d s hheld existing href
    cases ho : (reconcileVirtualNode specString remoteClient s d existing).outcome with
    | panicked =>
      have hrun : reconcileEach specString remoteClient existing (d :: rest) s =
          reconcileVirtualNode specString remoteClient s d existing := by
        conv => lhs; unfold reconcileEach
        simp only [ho]
      rw [hrun]
      exact ⟨a1, a2, Or.inr ho⟩
    | returned err =>
      cases err with
      | some e =>
        exfalso
        rcases a3 with a3 | a3
        · rw [show (reconcileVirtualNodeFrom specString remoteClient d existing s).outcome =
            .returned (some e) from ho] at a3
          simp at a3
        · rw [show (reconcileVirtualNodeFrom specString remoteClient d existing s).outcome =
            .returned (some e) from ho] at a3
          simp at a3
      | none =>
        have hstate : (reconcileVirtualNode specString remoteClient s d existing).state = s := a1
        have hrun : reconcileEach specString remoteClient existing (d :: rest) s =
            ⟨(reconcileEach specString remoteClient existing rest s).outcome,
              (reconcileEach specString remoteClient existing rest s).state,
              (reconcileVirtualNode specString remoteClient s d existing).calls ++
                (reconcileEach specString remoteClient existing rest s).calls⟩ := by
          conv => lhs; unfold reconcileEach
          simp only [ho, hstate]
        rw [hrun]
        obtain ⟨b1, b2, b3⟩ := reconcileEach_held specString existing s rest
          (fun x hx => h x (List.mem_cons_of_mem _ hx))
        refine ⟨b1, ?_, b3⟩
        intro c hc
        rcases List.mem_append.1 hc with hc | hc
        · exact a2 c hc
        · exact b2 c hc

/-- C15, as the code has it: over the provider state in which create adds and update
replaces, for desired nodes that carry the name of the desired mesh and whose node names
differ from one another: after a pass (`reconcileMesh`, then `reconcileVirtualNodes`) that
returned nil from any provider state, a second pass with the same desired mesh and nodes
issues no create and no update call and leaves the provider state as it is; it returns nil
when every desired node carries a name and a spec. -/
theorem reconcile_idempotent (specString : VirtualNodeSpec → String) (s : Remote)
    (mesh : CreateMeshInput) (vNodes : List CreateVirtualNodeInput)
    (hmesh : ∀ d ∈ vNodes, d.MeshName = mesh.MeshName)
    (hdistinct : (vNodes.map fun d => d.VirtualNodeName).Nodup)
    (hfirst : (reconcilePass specString remoteClient s mesh vNodes).outcome = .returned none) :
    (∀ c ∈ (reconcilePass specString remoteClient
        (reconcilePass specString remoteClient s mesh vNodes).state mesh vNodes).calls,
      c.isCreateOrUpdate = false) ∧
    (reconcilePass specString remoteClient
        (reconcilePass specString remoteClient s mesh vNodes).state mesh vNodes).state =
      (reconcilePass specString remoteClient s mesh vNodes).state ∧
    ((∀ d ∈ vNodes, ∃ name, d.VirtualNodeName = some name) →
      (∀ d ∈ vNodes, ∃ sp, d.Spec = some sp) →
      (reconcilePass specString remoteClient
        (reconcilePass specString remoteClient s mesh vNodes).state mesh vNodes).outcome =
      .returned none) := by
  refine ⟨?_, ?_, fun hnamed hspecs =>
    (reconcilePass_again_named specString s mesh vNodes hmesh hnamed hspecs hdistinct
      hfirst).1⟩
  all_goals
    obtain ⟨_, m2, _⟩ := reconcileMesh_remote s mesh
    have hkeys : (vNodes.map nodeKey).Nodup := by
      apply List.Nodup.of_map Prod.snd
      rw [List.map_map]
      exact hdistinct
    have hpass : ∀ t : Remote, reconcilePass specString remoteClient t mesh vNodes =
        ⟨(reconcileEach specString remoteClient
            (listedRefs (reconcileMesh remoteClient t mesh).state.nodes mesh.MeshName) vNodes
            (reconcileMesh remoteClient t mesh).state).outcome,
          (reconcileEach specString remoteClient
            (listedRefs (reconcileMesh remoteClient t mesh).state.nodes mesh.MeshName) vNodes
            (reconcileMesh remoteClient t mesh).state).state,
          (reconcileMesh remoteClient t mesh).calls ++
            Call.ListVirtualNodes mesh.MeshName ::
              (reconcileEach specString remoteClient
                (listedRefs (reconcileMesh remoteClient t mesh).state.nodes mesh.MeshName)
                vNodes (reconcileMesh remoteClient t mesh).state).calls⟩ := by
      intro t
      unfold reconcilePass
      simp only [(reconcileMesh_remote t mesh).1, reconcileVirtualNodes_remote]
    rw [hpass s] at hfirst
    obtain ⟨b1, b2, _⟩ := reconcileEach_holds specString _ vNodes _ hkeys hfirst
    have hpresent :
        mesh.MeshName ∈ (reconcilePass specString remoteClient s mesh vNodes).state.meshes := by
      rw [hpass s]
      show mesh.MeshName ∈ (reconcileEach specString remoteClient _ vNodes _).state.meshes
      rw [b2]
      exact m2
    have hheld : ∀ d ∈ vNodes,
        Held specString (reconcilePass specString remoteClient s mesh vNodes).state d := by
      rw [hpass s]
      exact b1
    generalize (reconcilePass specString remoteClient s mesh vNodes).state = s1
      at hpresent hheld ⊢
    rw [hpass s1, reconcileMesh_remote_present s1 mesh hpresent]
    obtain ⟨c1, c2, _⟩ := reconcileEach_held specString (listedRefs s1.nodes mesh.MeshName) s1
      vNodes
      (by
        intro d hd
        refine ⟨hheld d hd, ?_⟩
        obtain ⟨spec, hl, _⟩ := hheld d hd
        unfold nodeKey at hl
        rw [hmesh d hd] at hl
        exact listedRefs_of_nodeSpecAt _ _ _ spec hl)
  · intro c hc
    simp only [List.singleton_append, List.mem_cons] at hc
    rcases hc with rfl | rfl | hc
    · rfl
    · rfl
    · exact c2 c hc
  · exact c1

/-- C15 at a sample input: from a provider with nothing in it, the first pass creates the
mesh `m` and the nodes `svcA` and `svcB`; the second pass issues describe and list calls
only. -/
theorem reconcile_idempotent_witness :
    ((∀ c ∈ (reconcilePass sampleSpecString remoteClient
        (reconcilePass sampleSpecString remoteClient emptyRemote sampleMesh
          [sampleNode "svcA" ["svcA", "svcB"], sampleNode "svcB" ["svcA", "svcB"]]).state
        sampleMesh
        [sampleNode "svcA" ["svcA", "svcB"], sampleNode "svcB" ["svcA", "svcB"]]).calls,
      c.isCreateOrUpdate = false) ∧
    (reconcilePass sampleSpecString remoteClient
        (reconcilePass sampleSpecString remoteClient emptyRemote sampleMesh
          [sampleNode "svcA" ["svcA", "svcB"], sampleNode "svcB" ["svcA", "svcB"]]).state
        sampleMesh
        [sampleNode "svcA" ["svcA", "svcB"], sampleNode "svcB" ["svcA", "svcB"]]).state =
      (reconcilePass sampleSpecString remoteClient emptyRemote sampleMesh
        [sampleNode "svcA" ["svcA", "svcB"], sampleNode "svcB" ["svcA", "svcB"]]).state ∧
    ((∀ d ∈ [sampleNode "svcA" ["svcA", "svcB"], sampleNode "svcB" ["svcA", "svcB"]],
        ∃ name, d.VirtualNodeName = some name) →
      (∀ d ∈ [sampleNode "svcA" ["svcA", "svcB"], sampleNode "svcB" ["svcA", "svcB"]],
        ∃ sp, d.Spec = some sp) →
      (reconcilePass sampleSpecString remoteClient
        (reconcilePass sampleSpecString remoteClient emptyRemote sampleMesh
          [sampleNode "svcA" ["svcA", "svcB"], sampleNode "svcB" ["svcA", "svcB"]]).state
        sampleMesh
        [sampleNode "svcA" ["svcA", "svcB"], sampleNode "svcB" ["svcA", "svcB"]]).outcome =
      .returned none)) ∧
    (reconcilePass sampleSpecString remoteClient emptyRemote sampleMesh
        [sampleNode "svcA" ["svcA", "svcB"], sampleNode "svcB" ["svcA", "svcB"]]).calls =
      [.DescribeMesh (some "m"), .CreateMesh sampleMesh, .ListVirtualNodes (some "m"),
        .CreateVirtualNode (sampleNode "svcA" ["svcA", "svcB"]),
        .CreateVirtualNode (sampleNode "svcB" ["svcA", "svcB"])] ∧
    (reconcilePass sampleSpecString remoteClient
        (reconcilePass sampleSpecString remoteClient emptyRemote sampleMesh
          [sampleNode "svcA" ["svcA", "svcB"], sampleNode "svcB" ["svcA", "svcB"]]).state
        sampleMesh
        [sampleNode "svcA" ["svcA", "svcB"], sampleNode "svcB" ["svcA", "svcB"]]).calls =
      [.DescribeMesh (some "m"), .ListVirtualNodes (some "m"),
        .DescribeVirtualNode (some "m") (some "svcA"),
        .DescribeVirtualNode (some "m") (some "svcB")] :=
  ⟨reconcile_idempotent sampleSpecString emptyRemote sampleMesh
    [sampleNode "svcA" ["svcA", "svcB"], sampleNode "svcB" ["svcA", "svcB"]]
    (by decide) (by decide) (by rfl), by rfl, by rfl⟩

/-- C15 as stated fails: after a first pass that returned nil, the second pass issues
update and create calls when two desired nodes share the name `svcA` with different
specs, and it issues a create call when the desired node names another mesh than the
desired mesh. -/
theorem reconcile_second_pass_mutates :
    (reconcilePass sampleSpecString remoteClient sampleRemote sampleMesh
        [sampleNode "svcA" ["svcA"], sampleNode "svcA" ["svcA", "svcB"]]).outcome =
      .returned none ∧
    (reconcilePass sampleSpecString remoteClient
        (reconcilePass sampleSpecString remoteClient sampleRemote sampleMesh
          [sampleNode "svcA" ["svcA"], sampleNode "svcA" ["svcA", "svcB"]]).state
        sampleMesh
        [sampleNode "svcA" ["svcA"], sampleNode "svcA" ["svcA", "svcB"]]).calls =
      [.DescribeMesh (some "m"), .ListVirtualNodes (some "m"),
        .DescribeVirtualNode (some "m") (some "svcA"),
        .UpdateVirtualNode (some "m") (some "svcA") (sampleNode "svcA" ["svcA"]).Spec,
        .CreateVirtualNode (sampleNode "svcA" ["svcA"]),
        .DescribeVirtualNode (some "m") (some "svcA"),
        .UpdateVirtualNode (some "m") (some "svcA") (sampleNode "svcA" ["svcA", "svcB"]).Spec,
        .CreateVirtualNode (sampleNode "svcA" ["svcA", "svcB"])] ∧
    (reconcilePass sampleSpecString remoteClient emptyRemote sampleMesh
        [sampleNodeElsewhere]).outcome = .returned none ∧
    (reconcilePass sampleSpecString remoteClient
        (reconcilePass sampleSpecString remoteClient emptyRemote sampleMesh
          [sampleNodeElsewhere]).state
        sampleMesh [sampleNodeElsewhere]).calls =
      [.DescribeMesh (some "m"), .ListVirtualNodes (some "m"),
        .CreateVirtualNode sampleNodeElsewhere] := by
  refine ⟨by rfl, by rfl, by rfl, by rfl⟩

/-! ## Orchestrator: a mesh without a region -/

/-- C20 at a sample input: the first mesh of the snapshot has an empty region and a secret
that is found. `NewOrCachedClient` returns no client and a nil error for it, `sync` goes on
to `resyncState` with the nil handle and panics, and so `Sync` ends in that panic: it
returns no error wrapped with the reference of the mesh. Nothing is done for the second
mesh. -/
theorem Sync_empty_region_panics :
    (NewOrCachedClient sampleLib sampleProcess.syncer sampleProcess.constructed
        (sampleAppMesh "" "creds-a") sampleSnapshotNoRegion.Secrets).outcome =
      .returned none none ∧
    (sync sampleLib sampleExt id (fun _ => remoteClient) sampleProcess
        (sampleMeshOf "noregion" (some (.Mesh_AppMesh (some (sampleAppMesh "" "creds-a")))))
        sampleSnapshotNoRegion).outcome = .panicked ∧
    (Sync sampleLib sampleExt id (fun _ => remoteClient) sampleProcess
        sampleSnapshotNoRegion).outcome = .panicked ∧
    (Sync sampleLib sampleExt id (fun _ => remoteClient) sampleProcess
        sampleSnapshotNoRegion).events = [] ∧
    ∀ err, (Sync sampleLib sampleExt id (fun _ => remoteClient) sampleProcess
        sampleSnapshotNoRegion).outcome ≠ .returned (some err) := by
  refine ⟨by rfl, by rfl, by rfl, by rfl, ?_⟩
  intro err h
  have hp : (Sync sampleLib sampleExt id (fun _ => remoteClient) sampleProcess
      sampleSnapshotNoRegion).outcome = .panicked := by rfl
  rw [hp] at h
  cases h

end AppMesh
